import Mathlib

/-!
# ART Timer: reminder scheduling and working-day arithmetic

A shallow embedding of the reminder logic of `main.js` (`convertToUTC`,
`findSessionByName`, the `set-reminder` handler, `scheduleAllReminders`), of
the helpers of `src/scripts/commonFunctions.js` (`calculateWorkingDays`,
`isWithinDateRange`, `identifyCurrentArtActivity`, `isAlertSet`,
`getRemainingTimeInDayIST`, `updateProgress`, `calculateDurationInMinutes`), of
the timer set-up of the two window scripts (`mainHandler`,
`handleSmallBatchTimer`) and of the session countdown of `primaryWindow.js`
(`formatTimeRemaining`, `updateCountdowns`).

Modelling conventions.

* A JavaScript time value (milliseconds since the epoch) is an `Int`.  The
  arithmetic on time values, day counts, hours and minutes is on integers far
  below `2 ^ 53`, where double arithmetic is exact; `Math.floor` of a quotient
  of such integers is integer division.
* The percentages and dash offsets of `updateProgress`, the durations of
  `calculateDurationInMinutes` and the bar widths of `updateCountdowns` are not
  integers: they are `JsNum` values, and every operation on them rounds its exact rational
  result to the nearest double (`roundToDouble`), with `NaN` and the infinities
  as in IEEE 754; the two zeros are identified.
* The page elements `updateProgress` and `updateCountdowns` write to exist.
* `NaN` (the time value of an `Invalid Date`) is `none`.
* The host timezone is a constant offset `tz`, the value `getTimezoneOffset()`
  returns (minutes, UTC minus local time).  For hosts whose offset changes
  (daylight-saving time) `calculateWorkingDays` and `getRemainingTimeInDayIST`
  are embedded a second time, over a `Host` that gives the local time of every
  instant and the instant of every local time (`Host.calculateWorkingDays`,
  `Host.getRemainingTimeInDayIST`); the two embeddings agree on a host whose
  offset is constant (`calculateWorkingDays_fixed`,
  `getRemainingTimeInDayIST_fixed`).
* A `setTimeout` effect records the call and the delay it is handed.  The
  runtime of the main process (Node.js) keeps a delay between 1 and
  `2 ^ 31 - 1` ms and replaces any other by 1 ms (`nodeTimerDelay`).
* Side effects (notifications, timers, window messages, console output, file
  writes) are recorded in order as a list of `Effect`s.  Console output carries
  its fixed text only, and the `console.log` of each comparison inside
  `findSessionByName` is not recorded.
* The clock is read once per run: the readings of `Date.now()` inside one
  synchronous run of `scheduleAllReminders` are one value `now`.
* `fs.writeFileSync` succeeds, and the persisted document is held as the
  document value it serialises.
-/

namespace ArtTimer

/-! ## JavaScript values -/

/-- The JSON-representable JavaScript values the calendar document can hold in
a scalar field. -/
inductive JsVal where
  | undefined
  | null
  | bool (b : Bool)
  | num (n : Int)
  | str (s : String)
  deriving DecidableEq, Repr

/-- JavaScript truthiness (`ToBoolean`). -/
def JsVal.truthy : JsVal → Bool
  | .undefined => false
  | .null => false
  | .bool b => b
  | .num n => n != 0
  | .str s => s != ""

/-- String conversion as done by `toString()` and by template literals. -/
def JsVal.toStr : JsVal → String
  | .undefined => "undefined"
  | .null => "null"
  | .bool true => "true"
  | .bool false => "false"
  | .num n => toString n
  | .str s => s

/-- The code points `String.prototype.trim` strips: ECMAScript `WhiteSpace`
and `LineTerminator`. -/
def isJsWhitespace (c : Char) : Bool :=
  let n := c.toNat
  n == 0x09 || n == 0x0A || n == 0x0B || n == 0x0C || n == 0x0D || n == 0x20 ||
  n == 0xA0 || n == 0x1680 || (0x2000 ≤ n && n ≤ 0x200A) || n == 0x2028 ||
  n == 0x2029 || n == 0x202F || n == 0x205F || n == 0x3000 || n == 0xFEFF

/-- The method `String.prototype.trim`. -/
def jsTrim (s : String) : String :=
  ⟨((s.data.dropWhile isJsWhitespace).reverse.dropWhile isJsWhitespace).reverse⟩

/-- The lower-case form of one character under `String.prototype.toLowerCase`,
for the capital letters of Basic Latin, Latin-1 Supplement, Latin Extended-A and
Cyrillic; the characters of other scripts are left unchanged. -/
def jsLowerChar (c : Char) : List Char :=
  let n := c.toNat
  if 0x41 ≤ n ∧ n ≤ 0x5A then [Char.ofNat (n + 32)]
  else if 0xC0 ≤ n ∧ n ≤ 0xDE ∧ n ≠ 0xD7 then [Char.ofNat (n + 32)]
  else if n = 0x130 then [Char.ofNat 0x69, Char.ofNat 0x307]
  else if n = 0x178 then [Char.ofNat 0xFF]
  else if (0x100 ≤ n ∧ n ≤ 0x137 ∨ 0x14A ≤ n ∧ n ≤ 0x177) ∧ n % 2 = 0 then [Char.ofNat (n + 1)]
  else if (0x139 ≤ n ∧ n ≤ 0x148 ∨ 0x179 ≤ n ∧ n ≤ 0x17E) ∧ n % 2 = 1 then [Char.ofNat (n + 1)]
  else if 0x400 ≤ n ∧ n ≤ 0x40F then [Char.ofNat (n + 80)]
  else if 0x410 ≤ n ∧ n ≤ 0x42F then [Char.ofNat (n + 32)]
  else [c]

/-- The method `String.prototype.toLowerCase`, character by character. -/
def jsToLowerCase (s : String) : String :=
  ⟨s.data.flatMap jsLowerChar⟩

/-- The errors the embedded code can throw. -/
inductive JsError where
  | typeError
  | rangeError
  deriving DecidableEq, Repr

/-! ## Dates -/

/-- A value handed to the `Date` constructor: either a date-time string that
denotes the time value `t`, or anything that yields an `Invalid Date`. -/
inductive DateStr where
  | iso (t : Int)
  | invalid (raw : String)
  deriving DecidableEq, Repr

/-- The result of `new Date(s).getTime()`; `none` is `NaN`. -/
def DateStr.getTime : DateStr → Option Int
  | .iso t => some t
  | .invalid _ => none

/-- The result of `Date.prototype.toISOString` on a valid date: the ISO-8601
string, in UTC with the `Z` suffix, of the time value. -/
def toISOString (t : Int) : DateStr := .iso t

/-- Milliseconds in a day. -/
def msPerDay : Int := 86400000

/-- Local wall-clock milliseconds of a time value, on a host whose timezone
offset is the constant `tz`. -/
def localMs (tz t : Int) : Int := t - tz * 60000

/-- Number of the local calendar day of a time value (days since 1970-01-01). -/
def localDay (tz t : Int) : Int := localMs tz t / msPerDay

/-- Local time of day of a time value, in milliseconds since local midnight. -/
def timeOfDay (tz t : Int) : Int := localMs tz t % msPerDay

/-- Local midnight of the calendar day of a time value (`setHours(0, 0, 0, 0)`). -/
def midnight (tz t : Int) : Int := t - timeOfDay tz t

/-- Weekday of a day number: 0 is Sunday, ..., 6 is Saturday (1970-01-01 was a
Thursday). -/
def weekdayOfDay (d : Int) : Int := (d + 4) % 7

/-- The result of `Date.prototype.getDay`, the weekday in local time. -/
def getDay (tz t : Int) : Int := weekdayOfDay (localDay tz t)

/-! ## Calendar document -/

/-- An alert record of a session. -/
structure Alert where
  timerEnabled : JsVal
  message : String
  alertTime : DateStr
  deriving DecidableEq, Repr

/-- A session of an activity; `alerts` is `none` when the field is missing or
is not an array. -/
structure Session where
  name : JsVal
  startDate : DateStr
  endDate : DateStr
  alerts : Option (List Alert)
  deriving DecidableEq, Repr

/-- A labelled day of the planning week. -/
structure Activity where
  day : JsVal
  name : String
  sessions : List Session
  deriving DecidableEq, Repr

/-- An entry of `PI_PlanningAndInnovation`. -/
structure Period where
  startDate : DateStr
  endDate : DateStr
  name : String
  activities : List Activity
  deriving DecidableEq, Repr

/-- An entry of `PI_Iterations`. -/
structure Iteration where
  startDate : DateStr
  endDate : DateStr
  name : String
  deriving DecidableEq, Repr

/-- The object under the key `PI_1`. -/
structure ProgramIncrement where
  startDate : DateStr
  endDate : DateStr
  PI_PlanningAndInnovation : List Period
  PI_Iterations : List Iteration
  deriving DecidableEq, Repr

/-- The root of the persisted document. -/
structure Calendar where
  PI_1 : ProgramIncrement
  deriving DecidableEq, Repr

/-- The identity of a session object inside the document: the index of its
activity in `PI_PlanningAndInnovation[0].activities` and its index among that
activity's sessions. -/
structure SessionRef where
  activityIdx : Nat
  sessionIdx : Nat
  deriving DecidableEq, Repr

/-! ## Effects -/

/-- The closure handed to `setTimeout`: it shows a notification and then sends
`reminder-triggered` to the main window, with or without the liveness guard. -/
structure TimerCallback where
  title : String
  body : String
  signalArg : JsVal
  guarded : Bool
  deriving DecidableEq, Repr

/-- Observable actions of the main process, in the order they happen.  The
effect `setTimeout callback delay` is the call with the delay it is handed; the
delay after which the runtime runs the callback is `nodeTimerDelay delay`. -/
inductive Effect where
  | consoleLog (text : String)
  | consoleError (text : String)
  | showNotification (title body : String)
  | sendToMainWindow (channel : String) (arg : JsVal)
  | setTimeout (callback : TimerCallback) (delay : Int)
  | writeFileSync (doc : Calendar)
  | closeFocusedWindow
  deriving DecidableEq, Repr

/-- An effect that shows a notification now. -/
def Effect.isFire : Effect → Bool
  | .showNotification _ _ => true
  | _ => false

/-- An effect that sets a one-shot timer. -/
def Effect.isArm : Effect → Bool
  | .setTimeout _ _ => true
  | _ => false

/-- An effect that rewrites the persisted document. -/
def Effect.isWrite : Effect → Bool
  | .writeFileSync _ => true
  | _ => false

/-- An effect that sends a message to the main window. -/
def Effect.isSend : Effect → Bool
  | .sendToMainWindow _ _ => true
  | _ => false

/-! ## `main.js` -/

/-- The function `convertToUTC(date)`:
`new Date(date.getTime() - date.getTimezoneOffset() * 60000).toISOString()`. -/
def convertToUTC (tz date : Int) : DateStr :=
  toISOString (date - tz * 60000)

/-- The day test of `findSessionByName`:
`activity.day && activityDay && activity.day.toString().trim() === activityDay.toString().trim()`. -/
def dayMatches (day activityDay : JsVal) : Bool :=
  day.truthy && activityDay.truthy && jsTrim day.toStr == jsTrim activityDay.toStr

/-- The name test of `findSessionByName`:
`typeof session.name === "string" && session.name.trim().toLowerCase() === sessionName.trim().toLowerCase()`. -/
def nameMatches (name : JsVal) (sessionName : String) : Bool :=
  match name with
  | .str s => jsToLowerCase (jsTrim s) == jsToLowerCase (jsTrim sessionName)
  | _ => false

/-- The inner loop of `findSessionByName` over the sessions of one activity,
starting at index `j`. -/
def findInSessions (sessionName : String) : List Session → Nat → Option (Nat × Session)
  | [], _ => none
  | s :: rest, j =>
    if nameMatches s.name sessionName then some (j, s)
    else findInSessions sessionName rest (j + 1)

/-- The outer loop of `findSessionByName` over the activities, starting at
index `i`. -/
def findInActivities (sessionName : String) (activityDay : JsVal) :
    List Activity → Nat → Option (SessionRef × Session)
  | [], _ => none
  | a :: rest, i =>
    if dayMatches a.day activityDay then
      match findInSessions sessionName a.sessions 0 with
      | some (j, s) => some (⟨i, j⟩, s)
      | none => findInActivities sessionName activityDay rest (i + 1)
    else findInActivities sessionName activityDay rest (i + 1)

/-- The function `findSessionByName(data, sessionName, activityDay)`.  The session object is
returned together with its identity in the document; `.ok none` is `null`, and
a document without `PI_PlanningAndInnovation[0]` throws a `TypeError`. -/
def findSessionByName (data : Calendar) (sessionName : String) (activityDay : JsVal) :
    Except JsError (Option (SessionRef × Session)) :=
  match data.PI_1.PI_PlanningAndInnovation with
  | [] => .error .typeError
  | planning :: _ => .ok (findInActivities sessionName activityDay planning.activities 0)

/-- Replace the element at index `n` of a list by its image under `f`. -/
def modifyAt {α : Type} (f : α → α) : List α → Nat → List α
  | [], _ => []
  | a :: l, 0 => f a :: l
  | a :: l, n + 1 => a :: modifyAt f l n

/-- In-place update of the session object `ref` of the document. -/
def modifySession (data : Calendar) (ref : SessionRef) (f : Session → Session) : Calendar :=
  match data.PI_1.PI_PlanningAndInnovation with
  | [] => data
  | planning :: rest =>
    { data with
      PI_1 := { data.PI_1 with
        PI_PlanningAndInnovation :=
          { planning with
            activities := modifyAt
              (fun a => { a with sessions := modifyAt f a.sessions ref.sessionIdx })
              planning.activities ref.activityIdx } :: rest } }

/-- The session at `ref`, if the document has one there. -/
def sessionAt (data : Calendar) (ref : SessionRef) : Option Session :=
  match data.PI_1.PI_PlanningAndInnovation with
  | [] => none
  | planning :: _ =>
    match planning.activities[ref.activityIdx]? with
    | none => none
    | some a => a.sessions[ref.sessionIdx]?

/-- The payload of the `set-reminder` message. -/
structure ReminderRequest where
  message : String
  alertDays : Int
  alertHours : Int
  alertMinutes : Int
  name : String
  day : String
  deriving DecidableEq, Repr

/-- What the handler reads from its surroundings: the title of the focused
window (`none` when no window is focused), whether `mainWindow` exists and is
not destroyed, the clock, and the host timezone offset. -/
structure Env where
  focusedTitle : Option String
  mainWindowAlive : Bool
  now : Int
  tz : Int
  deriving DecidableEq, Repr

/-- The calendar as the main process holds it: `data` is the in-memory
document `_data`, `file` the content of the persisted document. -/
structure Store where
  data : Calendar
  file : Calendar
  deriving DecidableEq, Repr

/-- Result of running a handler: the store afterwards, the effects in order,
and the error thrown, if any. -/
structure Outcome where
  store : Store
  effects : List Effect
  error : Option JsError
  deriving DecidableEq, Repr

/-- The instant `resultDateTime` of the `set-reminder` handler. -/
def resultDateTime (start : Int) (req : ReminderRequest) : Int :=
  start - (req.alertDays * 24 * 60 * 60 * 1000) - (req.alertHours * 60 * 60 * 1000) -
    (req.alertMinutes * 60 * 1000)

/-- The alert object the `set-reminder` handler creates. -/
def newAlert (tz start : Int) (req : ReminderRequest) : Alert :=
  { timerEnabled := .str "true"
    message := req.message
    alertTime := convertToUTC tz (resultDateTime start req) }

/-- The timer callback of the `set-reminder` handler. -/
def reminderCallback (req : ReminderRequest) (element : String) : TimerCallback :=
  { title := "Reminder: " ++ req.name
    body := req.message
    signalArg := .str element
    guarded := false }

/-- The handler of the `set-reminder` message. -/
def setReminder (env : Env) (st : Store) (req : ReminderRequest) : Outcome :=
  let called := Effect.consoleLog "set-reminder called with:"
  match env.focusedTitle with
  | none => ⟨st, [called], none⟩
  | some element =>
    if element = "" then ⟨st, [called], none⟩
    else
      match findSessionByName st.data req.name (.str req.day) with
      | .error e => ⟨st, [called], some e⟩
      | .ok none => ⟨st, [called, .consoleError "Could not find session for reminder:"], none⟩
      | .ok (some (ref, result)) =>
        let ensured := modifySession st.data ref
          (fun s => { s with alerts := some (s.alerts.getD []) })
        match result.startDate.getTime with
        | none => ⟨{ st with data := ensured }, [called], some .rangeError⟩
        | some start =>
          let data := modifySession ensured ref
            (fun s => { s with alerts := some (s.alerts.getD [] ++ [newAlert env.tz start req]) })
          let delay := resultDateTime start req - env.now
          let timer :=
            if delay > 0 then [Effect.setTimeout (reminderCallback req element) delay] else []
          if env.mainWindowAlive then
            ⟨⟨data, data⟩,
              [called, .writeFileSync data] ++ timer ++
                [.sendToMainWindow "reminder-added" (.str element), .closeFocusedWindow],
              none⟩
          else
            ⟨⟨data, data⟩, [called, .writeFileSync data] ++ timer, some .typeError⟩

/-- The timer callback of `scheduleAllReminders`. -/
def scheduledCallback (session : Session) (alert : Alert) : TimerCallback :=
  { title := "Reminder: " ++ session.name.toStr
    body := alert.message
    signalArg := session.name
    guarded := true }

/-- The body of the innermost loop of `scheduleAllReminders`, for one alert of
one session. -/
def scheduleAlert (now : Int) (mainWindowAlive : Bool) (session : Session) (alert : Alert) :
    List Effect :=
  Effect.consoleLog "Found alert:" ::
    if alert.timerEnabled = .str "true" then
      match alert.alertTime.getTime with
      | none => [.consoleLog "Alert time is in the past:"]
      | some alertTime =>
        let delay := alertTime - now
        if delay > 0 then
          [.consoleLog "Scheduling alert for", .setTimeout (scheduledCallback session alert) delay]
        else if delay > -5 * 60 * 1000 then
          [.consoleLog "Missed alert, triggering immediately:",
            .showNotification ("Reminder: " ++ session.name.toStr) alert.message] ++
            (if mainWindowAlive then [.sendToMainWindow "reminder-triggered" session.name]
             else [])
        else [.consoleLog "Alert time is in the past:"]
    else []

/-- The loop of `scheduleAllReminders` over the alerts of one session. -/
def scheduleSession (now : Int) (mainWindowAlive : Bool) (session : Session) : List Effect :=
  match session.alerts with
  | none => []
  | some alerts => alerts.flatMap (scheduleAlert now mainWindowAlive session)

/-- The function `scheduleAllReminders()`, run on the persisted document `file` at the
instant `now`. -/
def scheduleAllReminders (file : Calendar) (now : Int) (mainWindowAlive : Bool) :
    Except JsError (List Effect) :=
  match file.PI_1.PI_PlanningAndInnovation with
  | [] => .error .typeError
  | planning :: _ =>
    .ok (planning.activities.flatMap fun activity =>
      activity.sessions.flatMap (scheduleSession now mainWindowAlive))

/-! ## `commonFunctions.js` -/

/-- The `while` loop of `calculateWorkingDays` on a host whose timezone offset
is the constant `tz`, as a transformer of its two variables
`(currentDate, totalDays)`; `fuel` bounds the number of iterations.  On such a
host `setDate(getDate() + 1)` adds 86400000 ms; `Host.calculateWorkingDaysLoop`
is the loop on any host. -/
def calculateWorkingDaysLoop (tz endDate : Int) : Nat → Int × Int → Int × Int
  | 0, s => s
  | fuel + 1, (currentDate, totalDays) =>
    if currentDate ≤ endDate then
      let dayOfWeek := getDay tz currentDate
      let totalDays := if dayOfWeek ≥ 1 ∧ dayOfWeek ≤ 5 then totalDays + 1 else totalDays
      calculateWorkingDaysLoop tz endDate fuel (currentDate + msPerDay, totalDays)
    else (currentDate, totalDays)

/-- Number of iterations after which the loop of `calculateWorkingDays` has
left the range on a host whose offset is constant: one per started day of
86400000 ms between the two instants. -/
def loopFuel (startDate endDate : Int) : Nat :=
  ((endDate - startDate) / msPerDay + 1).toNat

/-- The final values of `(currentDate, totalDays)` in
`calculateWorkingDays(startDate, endDate)`. -/
def calculateWorkingDaysState (tz startDate endDate : Int) : Int × Int :=
  calculateWorkingDaysLoop tz endDate (loopFuel startDate endDate) (startDate, 0)

/-- The function `calculateWorkingDays(startDate, endDate)` on a host whose
timezone offset is the constant `tz` (`Host.calculateWorkingDays` on any host). -/
def calculateWorkingDays (tz startDate endDate : Int) : Int :=
  (calculateWorkingDaysState tz startDate endDate).2

/-! ## Observations on effect lists -/

/-- What a run did about one alert, as far as firing is concerned: it called
`setTimeout` with a delay, or showed the notification at once, or did neither. -/
inductive FiringAction where
  | armed (delay : Int)
  | firedNow
  | skipped
  deriving DecidableEq, Repr

/-- The delay handed to the first call of `setTimeout` in a list of effects. -/
def armedDelay : List Effect → Option Int
  | [] => none
  | .setTimeout _ delay :: _ => some delay
  | _ :: rest => armedDelay rest

/-- The firing action visible in a list of effects: a timer set, else a
notification shown at once, else nothing. -/
def firingAction (effects : List Effect) : FiringAction :=
  match armedDelay effects with
  | some delay => .armed delay
  | none => if effects.any Effect.isFire then .firedNow else .skipped

/-- The effects of `scheduleAllReminders` for a whole activity. -/
def scheduleActivity (now : Int) (mainWindowAlive : Bool) (activity : Activity) : List Effect :=
  activity.sessions.flatMap (scheduleSession now mainWindowAlive)

/-! ## Sample data -/

/-- A session starting at time value 600000, with the given `alerts` field. -/
def sampleSession (alerts : Option (List Alert)) : Session :=
  { name := .str "Kickoff", startDate := .iso 600000, endDate := .iso 900000, alerts := alerts }

/-- An enabled alert due at the given time value. -/
def sampleAlert (t : Int) : Alert :=
  { timerEnabled := .str "true", message := "go", alertTime := .iso t }

/-- A calendar whose planning week has one activity holding the given sessions. -/
def sampleCalendar (sessions : List Session) : Calendar :=
  { PI_1 :=
    { startDate := .iso 0
      endDate := .iso 1000000000
      PI_PlanningAndInnovation :=
        [{ startDate := .iso 0, endDate := .iso 1000000, name := "Planning",
           activities := [{ day := .num 1, name := "Day 1", sessions := sessions }] }]
      PI_Iterations := [] } }

/-- A reminder for the sample session, due the given number of minutes before
its start. -/
def sampleRequest (minutes : Int) : ReminderRequest :=
  { message := "go", alertDays := 0, alertHours := 0, alertMinutes := minutes,
    name := " kickoff", day := "1 " }

/-- Surroundings with a focused reminder window and a live main window. -/
def sampleEnv (now tz : Int) : Env :=
  { focusedTitle := some "Kickoff", mainWindowAlive := true, now := now, tz := tz }

/-! ## Counting weekdays -/

/-- A day number whose weekday is Monday to Friday. -/
def isWorkingDay (d : Int) : Prop := 1 ≤ weekdayOfDay d ∧ weekdayOfDay d ≤ 5

instance (d : Int) : Decidable (isWorkingDay d) := by
  unfold isWorkingDay
  infer_instance

/-- The number of calendar days in the inclusive range `[d1, d2]` of day
numbers whose weekday is Monday to Friday. -/
def weekdaysInRange (d1 d2 : Int) : Nat :=
  ((Finset.Icc d1 d2).filter isWorkingDay).card

/-- The number of Monday-to-Friday days among the `n` consecutive days that
start with day `d`. -/
def weekdayCountFrom (d : Int) : Nat → Nat
  | 0 => 0
  | n + 1 => (if isWorkingDay d then 1 else 0) + weekdayCountFrom (d + 1) n

/-! ## Session lookup, as described -/

/-- The day label of an activity, converted to a string and trimmed, equals the
trimmed `activityDay`. -/
def labelsAgree (day activityDay : JsVal) : Prop :=
  jsTrim day.toStr = jsTrim activityDay.toStr

/-- The name of a session is a string that, trimmed and lower-cased, equals the
trimmed lower-cased `sessionName`. -/
def namesAgree (name : JsVal) (sessionName : String) : Prop :=
  ∃ n : String, name = .str n ∧ jsToLowerCase (jsTrim n) = jsToLowerCase (jsTrim sessionName)

/-- A day label that is an integer or a string. -/
def JsVal.isLabel : JsVal → Prop
  | .num _ => True
  | .str _ => True
  | _ => False

/-! ## Containment of today in a period -/

/-- The function `isWithinDateRange(currentDate, startDate, endDate)`: both
bounds are moved to their local midnight and compared with `currentDate`; a
bound that is an `Invalid Date` makes its comparison false. -/
def isWithinDateRange (tz currentDate : Int) (startDate endDate : DateStr) : Bool :=
  match startDate.getTime, endDate.getTime with
  | some start, some stop =>
    decide (currentDate ≥ midnight tz start) && decide (currentDate ≤ midnight tz stop)
  | _, _ => false

/-- The object `identifyCurrentArtActivity` returns: an entry of
`PI_PlanningAndInnovation` or an entry of `PI_Iterations`. -/
inductive ArtActivity where
  | week (p : Period)
  | iteration (it : Iteration)
  deriving DecidableEq, Repr

/-- The field `startDate` of the returned object. -/
def ArtActivity.startDate : ArtActivity → DateStr
  | .week p => p.startDate
  | .iteration it => it.startDate

/-- The field `endDate` of the returned object. -/
def ArtActivity.endDate : ArtActivity → DateStr
  | .week p => p.endDate
  | .iteration it => it.endDate

/-- The field `name` of the returned object. -/
def ArtActivity.name : ArtActivity → String
  | .week p => p.name
  | .iteration it => it.name

/-- The function `identifyCurrentArtActivity(piPlanningAndInnovation, piIterations)`
run at the instant `now`; `.ok none` is `undefined`, and reading a field of a
missing entry of `piPlanningAndInnovation` throws a `TypeError`. -/
def identifyCurrentArtActivity (tz now : Int) (piPlanningAndInnovation : List Period)
    (piIterations : List Iteration) : Except JsError (Option ArtActivity) :=
  let currentDate := midnight tz now
  match piPlanningAndInnovation[0]? with
  | none => .error .typeError
  | some planningWeek =>
    if isWithinDateRange tz currentDate planningWeek.startDate planningWeek.endDate then
      .ok (some (.week planningWeek))
    else
      match piPlanningAndInnovation[1]? with
      | none => .error .typeError
      | some innovationWeek =>
        if isWithinDateRange tz currentDate innovationWeek.startDate innovationWeek.endDate then
          .ok (some (.week innovationWeek))
        else
          .ok ((piIterations.find? fun iteration =>
            isWithinDateRange tz currentDate iteration.startDate iteration.endDate).map
              .iteration)

/-- The function `isAlertSet(node)`, the same in `primaryWindow.js` and in
`commonFunctions.js`:
`Array.isArray(node.alerts) && node.alerts.some(alert => alert.timerEnabled === "true")`. -/
def isAlertSet (node : Session) : Bool :=
  match node.alerts with
  | none => false
  | some alerts => alerts.any fun alert => decide (alert.timerEnabled = .str "true")

/-- A node that carries nothing but the given `alerts` field. -/
def sampleNode (alerts : Option (List Alert)) : Session :=
  { name := .undefined, startDate := .invalid "", endDate := .invalid "", alerts := alerts }

/-- An alert that carries nothing but the given `timerEnabled` field. -/
def sampleFlag (timerEnabled : JsVal) : Alert :=
  { timerEnabled := timerEnabled, message := "", alertTime := .invalid "" }

/-- The match `findSessionByName` tests for: both day values are truthy, the day
labels agree and the names agree. -/
def sessionMatches (sessionName : String) (activityDay : JsVal) (a : Activity) (s : Session) :
    Prop :=
  a.day.truthy = true ∧ activityDay.truthy = true ∧ labelsAgree a.day activityDay ∧
    namesAgree s.name sessionName

/-- A calendar whose planning week has one activity with the given day label,
holding the given sessions. -/
def sampleCalendarOn (day : JsVal) (sessions : List Session) : Calendar :=
  { PI_1 :=
    { startDate := .iso 0
      endDate := .iso 1000000000
      PI_PlanningAndInnovation :=
        [{ startDate := .iso 0, endDate := .iso 1000000, name := "Planning",
           activities := [{ day := day, name := "Day", sessions := sessions }] }]
      PI_Iterations := [] } }

/-- A period named `name` from the time value `start` to the time value `stop`. -/
def samplePeriod (name : String) (start stop : Int) : Period :=
  { startDate := .iso start, endDate := .iso stop, name := name, activities := [] }

/-- An iteration named `name` from the time value `start` to the time value `stop`. -/
def sampleIteration (name : String) (start stop : Int) : Iteration :=
  { startDate := .iso start, endDate := .iso stop, name := name }

/-! ## Numbers -/

/-- A JavaScript number: `NaN`, the two infinities, or a finite double given by
its exact rational value (the two zeros are identified). -/
inductive JsNum where
  | nan
  | posInf
  | negInf
  | fin (q : ℚ)
  deriving DecidableEq

/-- The rational `2 ^ k` for an integer exponent. -/
def twoPow (k : Int) : ℚ :=
  if 0 ≤ k then (2 : ℚ) ^ k.toNat else 1 / (2 : ℚ) ^ (-k).toNat

/-- The nearest integer to `n / d`, the even one on a tie. -/
def roundHalfEven (n d : Nat) : Nat :=
  if 2 * (n % d) < d then n / d
  else if d < 2 * (n % d) then n / d + 1
  else if n / d % 2 = 0 then n / d else n / d + 1

/-- The number of binary digits of `n`, by halving at most `fuel` times. -/
def bitLength : Nat → Nat → Nat
  | 0, _ => 0
  | fuel + 1, n => if n = 0 then 0 else bitLength fuel (n / 2) + 1

/-- The exponent of the leading binary digit of a positive `n`. -/
def floorLog2 (n : Nat) : Nat := bitLength n n - 1

/-- The exponent `e` with `2 ^ e ≤ a / b < 2 ^ (e + 1)`, for positive `a` and `b`. -/
def binade (a b : Nat) : Int :=
  if twoPow ((floorLog2 a : Int) - (floorLog2 b : Int)) ≤ (a : ℚ) / (b : ℚ) then
    (floorLog2 a : Int) - (floorLog2 b : Int)
  else (floorLog2 a : Int) - (floorLog2 b : Int) - 1

/-- The spacing of the doubles around the non-zero rational `q`: `2 ^ (e - 52)`
for the exponent `e` of `q`, and `2 ^ (-1074)` in the subnormal range. -/
def quantum (q : ℚ) : ℚ :=
  twoPow (max (binade q.num.natAbs q.den) (-1022) - 52)

/-- The magnitude of the double nearest to the non-zero rational `q`. -/
def roundedMagnitude (q : ℚ) : ℚ :=
  (roundHalfEven (|q| / quantum q).num.natAbs (|q| / quantum q).den : ℚ) * quantum q

/-- Rounding of an exact result to a double (IEEE 754 binary64, round to nearest,
ties to even, overflow to infinity). -/
def roundToDouble (q : ℚ) : JsNum :=
  if q = 0 then .fin 0
  else if twoPow 1024 ≤ roundedMagnitude q then (if 0 < q then .posInf else .negInf)
  else .fin (if 0 < q then roundedMagnitude q else -roundedMagnitude q)

/-- An integer as a number (exact below `2 ^ 53`). -/
def JsNum.ofInt (n : Int) : JsNum := .fin n

/-- The unary operator `-` on numbers. -/
def JsNum.neg : JsNum → JsNum
  | .nan => .nan
  | .posInf => .negInf
  | .negInf => .posInf
  | .fin a => .fin (-a)

/-- The operator `+` on numbers. -/
def JsNum.add : JsNum → JsNum → JsNum
  | .nan, _ => .nan
  | _, .nan => .nan
  | .posInf, .negInf => .nan
  | .negInf, .posInf => .nan
  | .posInf, _ => .posInf
  | _, .posInf => .posInf
  | .negInf, _ => .negInf
  | _, .negInf => .negInf
  | .fin a, .fin b => roundToDouble (a + b)

/-- The operator `-` on numbers. -/
def JsNum.sub : JsNum → JsNum → JsNum
  | .nan, _ => .nan
  | _, .nan => .nan
  | .posInf, .posInf => .nan
  | .negInf, .negInf => .nan
  | .posInf, _ => .posInf
  | _, .negInf => .posInf
  | .negInf, _ => .negInf
  | _, .posInf => .negInf
  | .fin a, .fin b => roundToDouble (a - b)

/-- The sign of an infinity times a finite factor. -/
def JsNum.scaleInf (positive : Bool) (b : ℚ) : JsNum :=
  if b = 0 then .nan else if (0 < b) = positive then .posInf else .negInf

/-- The operator `*` on numbers. -/
def JsNum.mul : JsNum → JsNum → JsNum
  | .nan, _ => .nan
  | _, .nan => .nan
  | .posInf, .posInf => .posInf
  | .posInf, .negInf => .negInf
  | .negInf, .posInf => .negInf
  | .negInf, .negInf => .posInf
  | .posInf, .fin b => JsNum.scaleInf true b
  | .negInf, .fin b => JsNum.scaleInf false b
  | .fin a, .posInf => JsNum.scaleInf true a
  | .fin a, .negInf => JsNum.scaleInf false a
  | .fin a, .fin b => roundToDouble (a * b)

/-- The operator `/` on numbers; a finite non-zero number divided by zero is
an infinity and `0 / 0` is `NaN`. -/
def JsNum.div : JsNum → JsNum → JsNum
  | .nan, _ => .nan
  | _, .nan => .nan
  | .fin _, .posInf => .fin 0
  | .fin _, .negInf => .fin 0
  | .posInf, .fin b => if 0 ≤ b then .posInf else .negInf
  | .negInf, .fin b => if 0 ≤ b then .negInf else .posInf
  | .fin a, .fin b =>
    if b = 0 then (if a = 0 then .nan else if 0 < a then .posInf else .negInf)
    else roundToDouble (a / b)
  | _, _ => .nan

/-- The function `Math.max` on two numbers. -/
def JsNum.max : JsNum → JsNum → JsNum
  | .nan, _ => .nan
  | _, .nan => .nan
  | .posInf, _ => .posInf
  | _, .posInf => .posInf
  | .negInf, b => b
  | a, .negInf => a
  | .fin a, .fin b => .fin (Max.max a b)

/-- The operator `<` on numbers. -/
def JsNum.lt : JsNum → JsNum → Bool
  | .nan, _ => false
  | _, .nan => false
  | .posInf, _ => false
  | _, .negInf => false
  | .negInf, _ => true
  | _, .posInf => true
  | .fin a, .fin b => decide (a < b)

/-- The operator `<=` on numbers. -/
def JsNum.le : JsNum → JsNum → Bool
  | .nan, _ => false
  | _, .nan => false
  | .negInf, _ => true
  | _, .posInf => true
  | .posInf, _ => false
  | _, .negInf => false
  | .fin a, .fin b => decide (a ≤ b)

/-- The constant `Math.PI`, the double nearest to π. -/
def mathPI : JsNum := .fin (884279719003555 / 281474976710656)
/-! ## Progress display -/

/-- Offset of the timezone Asia/Kolkata from UTC in milliseconds (it has no
daylight-saving time). -/
def istOffsetMs : Int := 19800000

/-- The calendar day of a time value in Asia/Kolkata (days since 1970-01-01). -/
def istDay (now : Int) : Int := (now + istOffsetMs) / msPerDay

/-- The object `getRemainingTimeInDayIST` returns. -/
structure RemainingTime where
  hours : Int
  minutes : Int
  deriving DecidableEq, Repr

/-- The function `getRemainingTimeInDayIST()` run at the instant `now` on a host
whose timezone offset is the constant `tz`: the wall-clock reading of
Asia/Kolkata, which `toLocaleString` gives to the second, is parsed back as a
local date, and the time from it to 23:59:59.999 of its day is split into whole
hours and minutes.  `Host.getRemainingTimeInDayIST` is the function on any
host. -/
def getRemainingTimeInDayIST (tz now : Int) : RemainingTime :=
  let istNow := (now + istOffsetMs) / 1000 * 1000
  let nowDate := istNow + tz * 60000
  let endOfDay := midnight tz nowDate + (23 * 3600000 + 59 * 60000 + 59 * 1000 + 999)
  let remainingTime := endOfDay - nowDate
  { hours := remainingTime / (1000 * 60 * 60)
    minutes := remainingTime % (1000 * 60 * 60) / (1000 * 60) }

/-- The function `calculateWorkingDays` on `Date` objects that may be invalid:
a comparison with `NaN` is false, so the loop is not entered. -/
def calculateWorkingDaysOf (tz : Int) (startDate endDate : Option Int) : Int :=
  match startDate, endDate with
  | some s, some e => calculateWorkingDays tz s e
  | _, _ => 0

/-- What `updateProgress` computes and writes to the page. -/
structure ProgressDisplay where
  elapsedDays : Int
  remainingDays : Int
  remainingTimeInCurrentDay : RemainingTime
  remainingPercentage : JsNum
  elementId : String
  textContent : String
  circumference : JsNum
  dashOffset : JsNum
  strokeDasharray : JsNum
  strokeDashoffset : JsNum

/-- The exported function
`updateProgress(timerId, startDate, decrementPerDay, totalDays, circleRadius)`
(the second declaration in `commonFunctions.js`), run at the instant `now`. -/
def updateProgress (tz now : Int) (timerId : Nat) (startDate : Option Int)
    (decrementPerDay : JsNum) (totalDays : Int) (circleRadius : JsNum) : ProgressDisplay :=
  let started : Bool :=
    match startDate with
    | some s => decide (now > s)
    | none => false
  let elapsedDays := if started then calculateWorkingDaysOf tz startDate (some now) - 1 else 0
  let remainingTimeInCurrentDay : RemainingTime :=
    if started then getRemainingTimeInDayIST tz now else { hours := 0, minutes := 0 }
  let remainingDays := if started then totalDays - elapsedDays - 1 else totalDays
  let totalRemainingTime :=
    ((JsNum.ofInt remainingDays).mul decrementPerDay).add
        ((JsNum.ofInt remainingTimeInCurrentDay.hours).div (.fin 24)) |>.add
      ((JsNum.ofInt remainingTimeInCurrentDay.minutes).div ((JsNum.fin 24).mul (.fin 60)))
  let remainingPercentage := totalRemainingTime.max (.fin 0)
  let circumference := ((JsNum.fin 2).mul mathPI).mul circleRadius
  let dashOffset := circumference.mul ((JsNum.fin 1).sub (remainingPercentage.div (.fin 100)))
  { elapsedDays := elapsedDays
    remainingDays := remainingDays
    remainingTimeInCurrentDay := remainingTimeInCurrentDay
    remainingPercentage := remainingPercentage
    elementId := "timer" ++ toString timerId
    textContent := toString remainingDays ++ " Days " ++
      toString remainingTimeInCurrentDay.hours ++ " Hours " ++
      toString remainingTimeInCurrentDay.minutes ++ " Minutes left"
    circumference := circumference
    dashOffset := dashOffset
    strokeDasharray := circumference
    strokeDashoffset := dashOffset }

/-- The first declaration of `updateProgress` in `commonFunctions.js`, which the
second one replaces: the same statements without the log line, and the other
formula for the dash offset. -/
def updateProgressEarlier (tz now : Int) (timerId : Nat) (startDate : Option Int)
    (decrementPerDay : JsNum) (totalDays : Int) (circleRadius : JsNum) : ProgressDisplay :=
  let started : Bool :=
    match startDate with
    | some s => decide (now > s)
    | none => false
  let elapsedDays := if started then calculateWorkingDaysOf tz startDate (some now) - 1 else 0
  let remainingTimeInCurrentDay : RemainingTime :=
    if started then getRemainingTimeInDayIST tz now else { hours := 0, minutes := 0 }
  let remainingDays := if started then totalDays - elapsedDays - 1 else totalDays
  let totalRemainingTime :=
    ((JsNum.ofInt remainingDays).mul decrementPerDay).add
        ((JsNum.ofInt remainingTimeInCurrentDay.hours).div (.fin 24)) |>.add
      ((JsNum.ofInt remainingTimeInCurrentDay.minutes).div ((JsNum.fin 24).mul (.fin 60)))
  let remainingPercentage := totalRemainingTime.max (.fin 0)
  let circumference := ((JsNum.fin 2).mul mathPI).mul circleRadius
  let dashOffset := circumference.mul (remainingPercentage.div (.fin 100))
  { elapsedDays := elapsedDays
    remainingDays := remainingDays
    remainingTimeInCurrentDay := remainingTimeInCurrentDay
    remainingPercentage := remainingPercentage
    elementId := "timer" ++ toString timerId
    textContent := toString remainingDays ++ " Days " ++
      toString remainingTimeInCurrentDay.hours ++ " Hours " ++
      toString remainingTimeInCurrentDay.minutes ++ " Minutes left"
    circumference := circumference
    dashOffset := dashOffset
    strokeDasharray := circumference
    strokeDashoffset := dashOffset }

/-! ## Renderer handlers -/

/-- Observable actions of a window script, in the order they happen. -/
inductive RenderEffect where
  | consoleLog (text : String)
  | consoleError (text : String)
  | updateProgress (timerId : Nat) (startDate : Option Int) (decrementPerDay : JsNum)
      (totalDays : Int) (circleRadius : JsNum)
  | setInterval (timerId : Nat) (startDate : Option Int) (decrementPerDay : JsNum)
      (totalDays : Int) (circleRadius : JsNum) (period : Int)
  | setTextContent (elementId text : String)
  deriving DecidableEq

/-- Result of running a window script function: its effects in order and the
error thrown, if any. -/
structure RenderOutcome where
  effects : List RenderEffect
  error : Option JsError
  deriving DecidableEq

/-- The timer part shared by the two copies of `handleSmallBatchTimer`: the
total is computed, divided into 100, and handed to `updateProgress` now and
once a day. -/
def smallBatchTimer (tz : Int) (currentArtActivity : ArtActivity) (circleRadius : JsNum) :
    List RenderEffect :=
  let activityStartDate := currentArtActivity.startDate.getTime
  let activityEndDate := currentArtActivity.endDate.getTime
  let totalDays := calculateWorkingDaysOf tz activityStartDate activityEndDate
  let decrementPerDay := (JsNum.fin 100).div (.ofInt totalDays)
  [.updateProgress 2 activityStartDate decrementPerDay totalDays circleRadius,
    .setInterval 2 activityStartDate decrementPerDay totalDays circleRadius
      (24 * 60 * 60 * 1000),
    .setTextContent "timer2-description" currentArtActivity.name]

/-- The function `handleSmallBatchTimer()` of `primaryWindow.js`. -/
def PrimaryWindow.handleSmallBatchTimer (tz now : Int) (piPlanningAndInnovation : List Period)
    (piIterations : List Iteration) : RenderOutcome :=
  match identifyCurrentArtActivity tz now piPlanningAndInnovation piIterations with
  | .error e => ⟨[], some e⟩
  | .ok none => ⟨[.consoleError "Failed to identify the current ART activity."], none⟩
  | .ok (some currentArtActivity) => ⟨smallBatchTimer tz currentArtActivity (.fin 160), none⟩

/-- The function `handleSmallBatchTimer()` of `secondaryWindow.js`. -/
def SecondaryWindow.handleSmallBatchTimer (tz now : Int)
    (piPlanningAndInnovation : List Period) (piIterations : List Iteration) : RenderOutcome :=
  match identifyCurrentArtActivity tz now piPlanningAndInnovation piIterations with
  | .error e => ⟨[.consoleLog "Handling Small Batch Timer"], some e⟩
  | .ok none =>
    ⟨[.consoleLog "Handling Small Batch Timer",
        .consoleError "Failed to identify the current ART activity."], none⟩
  | .ok (some currentArtActivity) =>
    ⟨[.consoleLog "Handling Small Batch Timer", .consoleLog "Current ART Activity:"] ++
        smallBatchTimer tz currentArtActivity (.fin 80), none⟩

/-- The function `mainHandler()` of `primaryWindow.js`, with the globals
`artStartDate`, `artEndDate`, `piPlanningAndInnovation` and `piIterations` as
arguments. -/
def PrimaryWindow.mainHandler (tz now : Int) (artStartDate artEndDate : Option Int)
    (piPlanningAndInnovation : List Period) (piIterations : List Iteration) : RenderOutcome :=
  let artTotalDays := calculateWorkingDaysOf tz artStartDate artEndDate
  if artTotalDays ≤ 0 then
    ⟨[.consoleError "Invalid ART dates. Please check the input parameters."], none⟩
  else
    let artDecrementPerDay := (JsNum.fin 100).div (.ofInt artTotalDays)
    let small := PrimaryWindow.handleSmallBatchTimer tz now piPlanningAndInnovation piIterations
    ⟨[.updateProgress 1 artStartDate artDecrementPerDay artTotalDays (.fin 160),
        .setInterval 1 artStartDate artDecrementPerDay artTotalDays (.fin 160)
          (24 * 60 * 60 * 1000)] ++ small.effects,
      small.error⟩

/-- A planning week (Monday 2023-01-02 to Friday 2023-01-06) and an innovation
week (Monday 2023-01-09 to Friday 2023-01-13), as UTC midnights. -/
def sampleWeeks : List Period :=
  [samplePeriod "Planning" 1672617600000 1672963200000,
    samplePeriod "Innovation" 1673222400000 1673568000000]

/-- An iteration that lies on a weekend: Saturday 2023-01-14 to Sunday
2023-01-15, as UTC midnights. -/
def weekendIteration : Iteration :=
  sampleIteration "Weekend" 1673654400000 1673740800000

/-! ## Countdown text -/

/-- The function `formatTimeRemaining(milliseconds)` of `primaryWindow.js`, on a
whole number of milliseconds; the operator `%` takes the sign of the dividend. -/
def formatTimeRemaining (milliseconds : Int) : String :=
  let totalSeconds := milliseconds / 1000
  let days := totalSeconds / (24 * 3600)
  let hours := (totalSeconds.tmod (24 * 3600)) / 3600
  let minutes := (totalSeconds.tmod 3600) / 60
  if days > 0 then
    toString days ++ "d " ++ toString hours ++ "h " ++ toString minutes ++ "m"
  else
    toString hours ++ "h " ++ toString minutes ++ "m"

/-! ## Session countdown bars -/

/-- The largest time value a `Date` can hold: 100 000 000 days either side of
the epoch. -/
def maxTimeValue : Int := 8640000000000000

/-- The number a `Date` becomes in arithmetic: its time value, `NaN` when the
date is invalid. -/
def JsNum.ofTime : Option Int → JsNum
  | none => .nan
  | some t => .ofInt t

/-- The function `calculateDurationInMinutes(startDate, endDate)` of
`commonFunctions.js` (its two declarations are the same), on the time values of
`new Date(startDate)` and `new Date(endDate)`. -/
def calculateDurationInMinutes (startDate endDate : Option Int) : JsNum :=
  let start := JsNum.ofTime startDate
  let finish := JsNum.ofTime endDate
  let duration := ((finish.sub start).div (.fin 1000)).div (.fin 60)
  duration

/-- The branch of the loop body of `updateCountdowns` that ran. -/
inductive CountdownBranch where
  | notStarted
  | inProgress
  | completed
  deriving DecidableEq, Repr

/-- What one pass of the loop of `updateCountdowns` writes for one session: the
colour of the label, the `formatTimeRemaining` text inside a `Starts in` label,
and the width (a percentage) and colour of the bar when they are set.  The other
parts of the label text are not recorded. -/
structure CountdownBar where
  branch : CountdownBranch
  textFill : String
  startsIn : Option String
  width : Option JsNum
  barFill : Option String

/-- The body of the loop of `updateCountdowns()` of `primaryWindow.js` for one
entry of `sessionTimers`, at the instant `now`; the label and the bar of the
entry exist. -/
def updateCountdown (now : Int) (startTime endTime : Option Int) : CountdownBar :=
  if JsNum.lt (.ofInt now) (.ofTime startTime) then
    { branch := .notStarted
      textFill := "white"
      startsIn := startTime.map (fun s => formatTimeRemaining (s - now))
      width := none
      barFill := none }
  else if JsNum.le (.ofTime startTime) (.ofInt now) && JsNum.le (.ofInt now) (.ofTime endTime)
  then
    let remainingTime := (calculateDurationInMinutes (some now) endTime).mul (.fin 60)
    let totalDuration := (calculateDurationInMinutes startTime endTime).mul (.fin 60)
    let remainingPercentage := (remainingTime.div totalDuration).mul (.fin 100)
    { branch := .inProgress
      textFill := "#9cd6ff"
      startsIn := none
      width := some remainingPercentage
      barFill := some "#0C8DE8" }
  else
    { branch := .completed
      textFill := "white"
      startsIn := none
      width := some (.fin 100)
      barFill := some "#28A745" }

/-- The function `updateCountdowns()` of `primaryWindow.js`: every entry of
`sessionTimers` (its start and end time) is updated at the same instant. -/
def updateCountdowns (now : Int) (sessionTimers : List (Option Int × Option Int)) :
    List CountdownBar :=
  sessionTimers.map (fun timer => updateCountdown now timer.1 timer.2)

/-! ## Timers of the runtime -/

/-- The largest delay a timer of Node.js (the runtime of the Electron main
process) holds: `2 ^ 31 - 1` ms, about 24.8 days. -/
def timeoutMax : Int := 2147483647

/-- The delay after which the runtime runs the callback of
`setTimeout(callback, delay)`: Node.js replaces a delay outside
`1 .. 2 ^ 31 - 1` by 1 ms (with a `TimeoutOverflowWarning` for a larger one). -/
def nodeTimerDelay (delay : Int) : Int :=
  if 1 ≤ delay ∧ delay ≤ timeoutMax then delay else 1

/-- The delays, in order, after which the runtime runs the callbacks of the
timers set in a list of effects. -/
def timersDue : List Effect → List Int
  | [] => []
  | .setTimeout _ delay :: rest => nodeTimerDelay delay :: timersDue rest
  | _ :: rest => timersDue rest

/-! ## Hosts whose clock changes -/

/-- The local time of a host, as `Date` uses it: `localOf t` is the local
wall-clock value (milliseconds since 1970-01-01T00:00 on the wall clock) of the
instant `t`, and `utcOf w` is the instant `Date` gives the wall-clock value `w`
when it parses a local date-time or sets local fields; at a wall-clock hour that
a clock change skips or repeats it uses the offset in force before the change. -/
structure Host where
  localOf : Int → Int
  utcOf : Int → Int

/-- A host whose offset from UTC never changes; `tz` is its
`getTimezoneOffset()`. -/
def Host.fixed (tz : Int) : Host :=
  { localOf := fun t => t - tz * 60000
    utcOf := fun w => w + tz * 60000 }

/-- A host in the `Europe/Paris` timezone, with the clock changes of 2023:
UTC+1 until 2023-03-26T01:00Z, UTC+2 until 2023-10-29T01:00Z, UTC+1 after. -/
def europeParis : Host :=
  { localOf := fun t =>
      if t < 1679792400000 then t + 3600000
      else if t < 1698541200000 then t + 7200000
      else t + 3600000
    utcOf := fun w =>
      if w < 1679792400000 + 7200000 then w - 3600000
      else if w < 1698541200000 + 7200000 then w - 7200000
      else w - 3600000 }

/-- The result of `Date.prototype.getDay` on a host. -/
def Host.getDay (host : Host) (t : Int) : Int := weekdayOfDay (host.localOf t / msPerDay)

/-- The `while` loop of `calculateWorkingDays` on a host:
`setDate(getDate() + 1)` moves the wall clock one calendar day on and gives the
result back to the host's clock; `fuel` bounds the number of iterations. -/
def Host.calculateWorkingDaysLoop (host : Host) (endDate : Int) : Nat → Int × Int → Int × Int
  | 0, s => s
  | fuel + 1, (currentDate, totalDays) =>
    if currentDate ≤ endDate then
      let dayOfWeek := host.getDay currentDate
      let totalDays := if dayOfWeek ≥ 1 ∧ dayOfWeek ≤ 5 then totalDays + 1 else totalDays
      Host.calculateWorkingDaysLoop host endDate fuel
        (host.utcOf (host.localOf currentDate + msPerDay), totalDays)
    else (currentDate, totalDays)

/-- A bound on the iterations of the loop on a host: one per started hour
between the two instants and one more, enough wherever a calendar day lasts at
least an hour. -/
def Host.loopFuel (startDate endDate : Int) : Nat :=
  ((endDate - startDate) / 3600000 + 2).toNat

/-- The final values of `(currentDate, totalDays)` in
`calculateWorkingDays(startDate, endDate)` on a host. -/
def Host.calculateWorkingDaysState (host : Host) (startDate endDate : Int) : Int × Int :=
  Host.calculateWorkingDaysLoop host endDate (Host.loopFuel startDate endDate) (startDate, 0)

/-- The function `calculateWorkingDays(startDate, endDate)` on a host. -/
def Host.calculateWorkingDays (host : Host) (startDate endDate : Int) : Int :=
  (Host.calculateWorkingDaysState host startDate endDate).2

/-- The function `getRemainingTimeInDayIST()` on a host, at the instant
`clock`: the wall clock of Asia/Kolkata, printed to the second, is parsed back
as a local date-time of the host, and `setHours(23, 59, 59, 999)` sets the end
of that day on the host's clock. -/
def Host.getRemainingTimeInDayIST (host : Host) (clock : Int) : RemainingTime :=
  let istNow := (clock + istOffsetMs) / 1000 * 1000
  let now := host.utcOf istNow
  let endOfDay :=
    host.utcOf (host.localOf now / msPerDay * msPerDay +
      (23 * 3600000 + 59 * 60000 + 59 * 1000 + 999))
  let remainingTime := endOfDay - now
  { hours := remainingTime / (1000 * 60 * 60)
    minutes := remainingTime % (1000 * 60 * 60) / (1000 * 60) }

/-! ## Scheduling at start-up -/

theorem scheduleAllReminders_at (file : Calendar) (planning : Period) (rest : List Period)
    (A1 A2 : List Activity) (act : Activity) (S1 S2 : List Session) (s : Session)
    (L1 L2 : List Alert) (al : Alert) (now : Int) (alive : Bool)
    (hfile : file.PI_1.PI_PlanningAndInnovation = planning :: rest)
    (hact : planning.activities = A1 ++ act :: A2)
    (hses : act.sessions = S1 ++ s :: S2)
    (hal : s.alerts = some (L1 ++ al :: L2)) :
    scheduleAllReminders file now alive =
      .ok ((A1.flatMap (scheduleActivity now alive) ++ S1.flatMap (scheduleSession now alive) ++
              L1.flatMap (scheduleAlert now alive s)) ++
            scheduleAlert now alive s al ++
            (L2.flatMap (scheduleAlert now alive s) ++ S2.flatMap (scheduleSession now alive) ++
              A2.flatMap (scheduleActivity now alive))) := by
  have hs : scheduleSession now alive s =
      L1.flatMap (scheduleAlert now alive s) ++ scheduleAlert now alive s al ++
        L2.flatMap (scheduleAlert now alive s) := by
    simp [scheduleSession, hal, List.flatMap_append]
  have ha : scheduleActivity now alive act =
      S1.flatMap (scheduleSession now alive) ++ scheduleSession now alive s ++
        S2.flatMap (scheduleSession now alive) := by
    simp [scheduleActivity, hses, List.flatMap_append]
  have hall : scheduleAllReminders file now alive =
      .ok (planning.activities.flatMap (scheduleActivity now alive)) := by
    simp only [scheduleAllReminders, hfile]
    rfl
  rw [hall, hact, List.flatMap_append, List.flatMap_cons, ha, hs]
  simp [List.append_assoc]

theorem scheduleAlert_armed (now t : Int) (alive : Bool) (s : Session) (al : Alert)
    (hen : al.timerEnabled = .str "true") (ht : al.alertTime.getTime = some t)
    (hd : t - now > 0) :
    scheduleAlert now alive s al =
      [.consoleLog "Found alert:", .consoleLog "Scheduling alert for",
        .setTimeout (scheduledCallback s al) (t - now)] := by
  simp [scheduleAlert, hen, ht, hd]

theorem scheduleAlert_fired (now t : Int) (alive : Bool) (s : Session) (al : Alert)
    (hen : al.timerEnabled = .str "true") (ht : al.alertTime.getTime = some t)
    (hd : -300000 < t - now) (hd0 : t - now ≤ 0) :
    scheduleAlert now alive s al =
      [.consoleLog "Found alert:", .consoleLog "Missed alert, triggering immediately:",
        .showNotification ("Reminder: " ++ s.name.toStr) al.message] ++
        (if alive then [.sendToMainWindow "reminder-triggered" s.name] else []) := by
  have h1 : ¬ (t - now > 0) := by omega
  have h2 : t - now > -5 * 60 * 1000 := by omega
  simp only [scheduleAlert, hen, ht, if_true, if_neg h1, if_pos h2]
  rfl

theorem scheduleAlert_skipped (now t : Int) (alive : Bool) (s : Session) (al : Alert)
    (hen : al.timerEnabled = .str "true") (ht : al.alertTime.getTime = some t)
    (hd : t - now ≤ -300000) :
    scheduleAlert now alive s al =
      [.consoleLog "Found alert:", .consoleLog "Alert time is in the past:"] := by
  have h1 : ¬ (t - now > 0) := by omega
  have h2 : ¬ (t - now > -5 * 60 * 1000) := by omega
  simp only [scheduleAlert, hen, ht, if_true, if_neg h1, if_neg h2]

/-- In a run of `scheduleAllReminders` the effects contributed by an enabled
alert with a valid time are exactly those of the loop body for that alert, in
document order between the effects of the earlier and of the later alerts; with
`delay = alertTime - now` the body calls `setTimeout` once, with `delay`, and
shows nothing when `delay > 0`, shows the notification at once (and sets no
timer) when `-300000 < delay ≤ 0`, and does neither when `delay ≤ -300000`. -/
theorem scheduleAllReminders_classifies (file : Calendar) (planning : Period)
    (rest : List Period) (A1 A2 : List Activity) (act : Activity) (S1 S2 : List Session)
    (s : Session) (L1 L2 : List Alert) (al : Alert) (now t : Int) (alive : Bool)
    (hfile : file.PI_1.PI_PlanningAndInnovation = planning :: rest)
    (hact : planning.activities = A1 ++ act :: A2)
    (hses : act.sessions = S1 ++ s :: S2)
    (hal : s.alerts = some (L1 ++ al :: L2))
    (hen : al.timerEnabled = .str "true") (ht : al.alertTime.getTime = some t) :
    scheduleAllReminders file now alive =
      .ok ((A1.flatMap (scheduleActivity now alive) ++ S1.flatMap (scheduleSession now alive) ++
              L1.flatMap (scheduleAlert now alive s)) ++
            scheduleAlert now alive s al ++
            (L2.flatMap (scheduleAlert now alive s) ++ S2.flatMap (scheduleSession now alive) ++
              A2.flatMap (scheduleActivity now alive))) ∧
    (t - now > 0 →
      scheduleAlert now alive s al =
        [.consoleLog "Found alert:", .consoleLog "Scheduling alert for",
          .setTimeout (scheduledCallback s al) (t - now)]) ∧
    (-300000 < t - now ∧ t - now ≤ 0 →
      scheduleAlert now alive s al =
        [.consoleLog "Found alert:", .consoleLog "Missed alert, triggering immediately:",
          .showNotification ("Reminder: " ++ s.name.toStr) al.message] ++
          (if alive then [.sendToMainWindow "reminder-triggered" s.name] else [])) ∧
    (t - now ≤ -300000 →
      scheduleAlert now alive s al =
        [.consoleLog "Found alert:", .consoleLog "Alert time is in the past:"]) :=
  ⟨scheduleAllReminders_at file planning rest A1 A2 act S1 S2 s L1 L2 al now alive
      hfile hact hses hal,
    scheduleAlert_armed now t alive s al hen ht,
    fun h => scheduleAlert_fired now t alive s al hen ht h.1 h.2,
    scheduleAlert_skipped now t alive s al hen ht⟩

/-- The three branches at `now = 1000000`, on sessions holding one alert: the
one due two minutes ago fires, the one due ten minutes ago is skipped, and for
the one due in an hour `setTimeout` is called with 3600000 ms. -/
theorem scheduleAllReminders_classifies_example :
    scheduleAlert 1000000 true (sampleSession (some [sampleAlert 880000])) (sampleAlert 880000) =
        [.consoleLog "Found alert:", .consoleLog "Missed alert, triggering immediately:",
          .showNotification "Reminder: Kickoff" "go",
          .sendToMainWindow "reminder-triggered" (.str "Kickoff")] ∧
      scheduleAlert 1000000 true (sampleSession (some [sampleAlert 400000])) (sampleAlert 400000) =
        [.consoleLog "Found alert:", .consoleLog "Alert time is in the past:"] ∧
      scheduleAlert 1000000 true (sampleSession (some [sampleAlert 4600000]))
          (sampleAlert 4600000) =
        [.consoleLog "Found alert:", .consoleLog "Scheduling alert for",
          .setTimeout
            (scheduledCallback (sampleSession (some [sampleAlert 4600000])) (sampleAlert 4600000))
            3600000] :=
  ⟨(scheduleAllReminders_classifies
      (sampleCalendar [sampleSession (some [sampleAlert 880000])])
      _ [] [] [] _ [] [] (sampleSession (some [sampleAlert 880000])) [] []
      (sampleAlert 880000) 1000000 880000 true
      rfl rfl rfl rfl rfl rfl).2.2.1 ⟨by decide, by decide⟩,
    (scheduleAllReminders_classifies
      (sampleCalendar [sampleSession (some [sampleAlert 400000])])
      _ [] [] [] _ [] [] (sampleSession (some [sampleAlert 400000])) [] []
      (sampleAlert 400000) 1000000 400000 true
      rfl rfl rfl rfl rfl rfl).2.2.2 (by decide),
    (scheduleAllReminders_classifies
      (sampleCalendar [sampleSession (some [sampleAlert 4600000])])
      _ [] [] [] _ [] [] (sampleSession (some [sampleAlert 4600000])) [] []
      (sampleAlert 4600000) 1000000 4600000 true
      rfl rfl rfl rfl rfl rfl).2.1 (by decide)⟩

/-! ## Reminder submission -/

theorem setReminder_success (env : Env) (st : Store) (req : ReminderRequest)
    (ref : SessionRef) (result : Session) (start : Int) (element : String)
    (hfocus : env.focusedTitle = some element) (hne : element ≠ "")
    (hfind : findSessionByName st.data req.name (.str req.day) = .ok (some (ref, result)))
    (hstart : result.startDate.getTime = some start) :
    setReminder env st req =
      if env.mainWindowAlive then
        ⟨⟨modifySession
              (modifySession st.data ref (fun s => { s with alerts := some (s.alerts.getD []) }))
              ref
              (fun s => { s with alerts := some (s.alerts.getD [] ++ [newAlert env.tz start req]) }),
            modifySession
              (modifySession st.data ref (fun s => { s with alerts := some (s.alerts.getD []) }))
              ref
              (fun s => { s with alerts := some (s.alerts.getD [] ++ [newAlert env.tz start req]) })⟩,
          [Effect.consoleLog "set-reminder called with:",
            .writeFileSync (modifySession
              (modifySession st.data ref (fun s => { s with alerts := some (s.alerts.getD []) }))
              ref
              (fun s =>
                { s with alerts := some (s.alerts.getD [] ++ [newAlert env.tz start req]) }))] ++
            (if resultDateTime start req - env.now > 0 then
              [Effect.setTimeout (reminderCallback req element)
                (resultDateTime start req - env.now)]
             else []) ++
            [.sendToMainWindow "reminder-added" (.str element), .closeFocusedWindow],
          none⟩
      else
        ⟨⟨modifySession
              (modifySession st.data ref (fun s => { s with alerts := some (s.alerts.getD []) }))
              ref
              (fun s => { s with alerts := some (s.alerts.getD [] ++ [newAlert env.tz start req]) }),
            modifySession
              (modifySession st.data ref (fun s => { s with alerts := some (s.alerts.getD []) }))
              ref
              (fun s => { s with alerts := some (s.alerts.getD [] ++ [newAlert env.tz start req]) })⟩,
          [Effect.consoleLog "set-reminder called with:",
            .writeFileSync (modifySession
              (modifySession st.data ref (fun s => { s with alerts := some (s.alerts.getD []) }))
              ref
              (fun s =>
                { s with alerts := some (s.alerts.getD [] ++ [newAlert env.tz start req]) }))] ++
            (if resultDateTime start req - env.now > 0 then
              [Effect.setTimeout (reminderCallback req element)
                (resultDateTime start req - env.now)]
             else []),
          some .typeError⟩ := by
  simp only [setReminder, hfocus, hfind, hstart, if_neg hne]

theorem setReminder_effects_armed (env : Env) (st : Store) (req : ReminderRequest)
    (ref : SessionRef) (result : Session) (start : Int) (element : String)
    (hfocus : env.focusedTitle = some element) (hne : element ≠ "")
    (hfind : findSessionByName st.data req.name (.str req.day) = .ok (some (ref, result)))
    (hstart : result.startDate.getTime = some start)
    (hd : resultDateTime start req - env.now > 0) :
    (setReminder env st req).effects.filter (fun e => e.isArm || e.isFire) =
      [.setTimeout (reminderCallback req element) (resultDateTime start req - env.now)] ∧
    firingAction (setReminder env st req).effects =
      .armed (resultDateTime start req - env.now) := by
  rw [setReminder_success env st req ref result start element hfocus hne hfind hstart]
  cases env.mainWindowAlive <;>
    simp [hd, firingAction, armedDelay, Effect.isArm, Effect.isFire]

theorem setReminder_effects_idle (env : Env) (st : Store) (req : ReminderRequest)
    (ref : SessionRef) (result : Session) (start : Int) (element : String)
    (hfocus : env.focusedTitle = some element) (hne : element ≠ "")
    (hfind : findSessionByName st.data req.name (.str req.day) = .ok (some (ref, result)))
    (hstart : result.startDate.getTime = some start)
    (hd : resultDateTime start req - env.now ≤ 0) :
    (setReminder env st req).effects.filter (fun e => e.isArm || e.isFire) = [] ∧
    firingAction (setReminder env st req).effects = .skipped := by
  have hd' : ¬ (resultDateTime start req - env.now > 0) := by omega
  rw [setReminder_success env st req ref result start element hfocus hne hfind hstart]
  cases env.mainWindowAlive <;>
    simp [hd', firingAction, armedDelay, Effect.isArm, Effect.isFire]

theorem firingAction_scheduleAlert (now t : Int) (alive : Bool) (s : Session) (al : Alert)
    (hen : al.timerEnabled = .str "true") (ht : al.alertTime.getTime = some t) :
    firingAction (scheduleAlert now alive s al) =
      if t - now > 0 then .armed (t - now)
      else if t - now > -300000 then .firedNow else .skipped := by
  by_cases h1 : t - now > 0
  · rw [scheduleAlert_armed now t alive s al hen ht h1]
    simp [firingAction, armedDelay, h1]
  · by_cases h2 : t - now > -300000
    · rw [scheduleAlert_fired now t alive s al hen ht h2 (by omega)]
      cases alive <;> simp [firingAction, armedDelay, Effect.isFire, h1, h2]
    · rw [scheduleAlert_skipped now t alive s al hen ht (by omega)]
      simp [firingAction, armedDelay, Effect.isFire, h1, h2]

/-- On a successful submission, with `delay = resultDateTime - now` as the
handler computes it, the handler calls `setTimeout` once, with `delay`, when
`delay > 0` and neither sets a timer nor fires when `delay ≤ 0`; these are the
calls `scheduleAllReminders` makes for an enabled alert due at `resultDateTime`
whenever `delay > 0` or `delay ≤ -300000`, and for `-300000 < delay ≤ 0` the
handler does nothing where `scheduleAllReminders` fires at once. -/
theorem setReminder_firing (env : Env) (st : Store) (req : ReminderRequest)
    (ref : SessionRef) (result : Session) (start : Int) (element : String) (al : Alert)
    (hfocus : env.focusedTitle = some element) (hne : element ≠ "")
    (hfind : findSessionByName st.data req.name (.str req.day) = .ok (some (ref, result)))
    (hstart : result.startDate.getTime = some start)
    (hen : al.timerEnabled = .str "true")
    (hdue : al.alertTime.getTime = some (resultDateTime start req)) :
    (resultDateTime start req - env.now > 0 →
      (setReminder env st req).effects.filter (fun e => e.isArm || e.isFire) =
        [.setTimeout (reminderCallback req element) (resultDateTime start req - env.now)]) ∧
    (resultDateTime start req - env.now ≤ 0 →
      (setReminder env st req).effects.filter (fun e => e.isArm || e.isFire) = []) ∧
    (resultDateTime start req - env.now > 0 ∨ resultDateTime start req - env.now ≤ -300000 →
      firingAction (setReminder env st req).effects =
        firingAction (scheduleAlert env.now env.mainWindowAlive result al)) ∧
    (-300000 < resultDateTime start req - env.now ∧ resultDateTime start req - env.now ≤ 0 →
      firingAction (setReminder env st req).effects = .skipped ∧
      firingAction (scheduleAlert env.now env.mainWindowAlive result al) = .firedNow) := by
  have harm := setReminder_effects_armed env st req ref result start element hfocus hne hfind hstart
  have hidle := setReminder_effects_idle env st req ref result start element hfocus hne hfind hstart
  have hsched := firingAction_scheduleAlert env.now (resultDateTime start req)
    env.mainWindowAlive result al hen hdue
  refine ⟨fun h => (harm h).1, fun h => (hidle h).1, ?_, ?_⟩
  · rintro (h | h)
    · rw [(harm h).2, hsched, if_pos h]
    · rw [(hidle (by omega)).2, hsched, if_neg (by omega), if_neg (by omega)]
  · rintro ⟨h1, h2⟩
    refine ⟨(hidle h2).2, ?_⟩
    rw [hsched, if_neg (by omega), if_pos (by omega)]

/-- For a reminder ten minutes after the start of a session that begins now the
handler calls `setTimeout` with 600000 ms. -/
theorem setReminder_firing_example :
    (setReminder (sampleEnv 600000 0)
        ⟨sampleCalendar [sampleSession none], sampleCalendar [sampleSession none]⟩
        (sampleRequest (-10))).effects.filter (fun e => e.isArm || e.isFire) =
      [.setTimeout (reminderCallback (sampleRequest (-10)) "Kickoff") 600000] :=
  (setReminder_firing (sampleEnv 600000 0)
    ⟨sampleCalendar [sampleSession none], sampleCalendar [sampleSession none]⟩
    (sampleRequest (-10)) ⟨0, 0⟩ (sampleSession none) 600000 "Kickoff" (sampleAlert 1200000)
    rfl (by decide) rfl rfl rfl (by decide)).1 (by decide)

/-- C3 fails on the code: the string `convertToUTC(d)` denotes the instant
`d - tz * 60000`, not `d`, so reading the stored `alertTime` back the way
`scheduleAllReminders` does returns the instant the submission used only when
the host timezone offset is zero; for Asia/Kolkata (`tz = -330`) the stored
instant is 19800000 ms late. -/
theorem convertToUTC_getTime (tz d start : Int) (req : ReminderRequest) :
    (convertToUTC tz d).getTime = some (d - tz * 60000) ∧
    ((convertToUTC tz d).getTime = some d ↔ tz = 0) ∧
    (newAlert tz start req).alertTime.getTime = some (resultDateTime start req - tz * 60000) ∧
    (convertToUTC (-330) 1735705800000).getTime = some 1735725600000 := by
  refine ⟨rfl, ?_, rfl, rfl⟩
  simp only [convertToUTC, toISOString, DateStr.getTime, Option.some.injEq]
  omega

/-- C4: on a resolved session whose `startDate` parses to `start`, the instant
the handler computes is `start` minus the offset in milliseconds, taken from the
session's `startDate`; it is the instant whose distance to `now` is the delay of
the timer the handler arms; all-zero offsets give `start`, and offsets that are
all non-positive and not all zero give an instant after `start`. -/
theorem setReminder_alert_instant (env : Env) (st : Store) (req : ReminderRequest)
    (ref : SessionRef) (result : Session) (start : Int) (element : String)
    (hfocus : env.focusedTitle = some element) (hne : element ≠ "")
    (hfind : findSessionByName st.data req.name (.str req.day) = .ok (some (ref, result)))
    (hstart : result.startDate.getTime = some start) :
    resultDateTime start req =
      start - (req.alertDays * 86400000 + req.alertHours * 3600000 + req.alertMinutes * 60000) ∧
    (start - (req.alertDays * 86400000 + req.alertHours * 3600000 + req.alertMinutes * 60000)
        - env.now > 0 →
      (setReminder env st req).effects.filter Effect.isArm =
        [.setTimeout (reminderCallback req element)
          (start - (req.alertDays * 86400000 + req.alertHours * 3600000 +
            req.alertMinutes * 60000) - env.now)]) ∧
    (req.alertDays = 0 → req.alertHours = 0 → req.alertMinutes = 0 →
      resultDateTime start req = start) ∧
    (req.alertDays ≤ 0 → req.alertHours ≤ 0 → req.alertMinutes ≤ 0 →
      req.alertDays < 0 ∨ req.alertHours < 0 ∨ req.alertMinutes < 0 →
      start < resultDateTime start req) := by
  have hr : resultDateTime start req =
      start - (req.alertDays * 86400000 + req.alertHours * 3600000 + req.alertMinutes * 60000) := by
    simp only [resultDateTime]
    omega
  refine ⟨hr, ?_, ?_, ?_⟩
  · intro hd
    rw [← hr] at hd ⊢
    rw [setReminder_success env st req ref result start element hfocus hne hfind hstart]
    cases env.mainWindowAlive <;> simp [hd, Effect.isArm]
  · intro h1 h2 h3
    rw [hr, h1, h2, h3]
    simp
  · intro h1 h2 h3 h4
    rw [hr]
    omega

/-- Witness for C4: three days, two hours and five minutes before a session
starting at 600000 is the instant 600000 - 266700000. -/
theorem setReminder_alert_instant_witness :
    resultDateTime 600000
      { message := "go", alertDays := 3, alertHours := 2, alertMinutes := 5,
        name := "kickoff", day := "1" } = -266100000 :=
  (setReminder_alert_instant (sampleEnv 0 0)
    ⟨sampleCalendar [sampleSession none], sampleCalendar [sampleSession none]⟩
    { message := "go", alertDays := 3, alertHours := 2, alertMinutes := 5,
      name := "kickoff", day := "1" }
    ⟨0, 0⟩ (sampleSession none) 600000 "Kickoff" rfl (by decide) rfl rfl).1

/-- C5: when `findSessionByName` returns `null` the handler leaves the in-memory
document and the persisted document as they were, throws nothing, and its only
effects are console output: no file write, no timer, no notification and no
message to the main window. -/
theorem setReminder_session_not_found (env : Env) (st : Store) (req : ReminderRequest)
    (hfind : findSessionByName st.data req.name (.str req.day) = .ok none) :
    (setReminder env st req).store = st ∧
    (setReminder env st req).error = none ∧
    (∀ e ∈ (setReminder env st req).effects,
      e.isWrite = false ∧ e.isArm = false ∧ e.isFire = false ∧ e.isSend = false) := by
  cases hf : env.focusedTitle with
  | none => simp [setReminder, hf, Effect.isWrite, Effect.isArm, Effect.isFire, Effect.isSend]
  | some element =>
    by_cases hne : element = ""
    · simp [setReminder, hf, hne, Effect.isWrite, Effect.isArm, Effect.isFire, Effect.isSend]
    · simp [setReminder, hf, hne, hfind, Effect.isWrite, Effect.isArm, Effect.isFire,
        Effect.isSend]

/-- Witness for C5: a reminder for a session name the calendar does not hold. -/
theorem setReminder_session_not_found_witness :
    (setReminder (sampleEnv 0 0)
        ⟨sampleCalendar [sampleSession none], sampleCalendar [sampleSession none]⟩
        { sampleRequest 5 with name := "retro" }).store =
      ⟨sampleCalendar [sampleSession none], sampleCalendar [sampleSession none]⟩ :=
  (setReminder_session_not_found (sampleEnv 0 0)
    ⟨sampleCalendar [sampleSession none], sampleCalendar [sampleSession none]⟩
    { sampleRequest 5 with name := "retro" } rfl).1

/-- C7: an enabled alert that a run at `now1` skips because its delay is at most
`-300000` is skipped by every run at a later instant `now2`: the delay is still
at most `-300000` and the loop body neither shows a notification nor arms a
timer. -/
theorem scheduleAlert_missed_stays_missed (now1 now2 t : Int) (alive : Bool) (s : Session)
    (al : Alert) (hen : al.timerEnabled = .str "true") (ht : al.alertTime.getTime = some t)
    (hle : now1 ≤ now2) (hskip : t - now1 ≤ -300000) :
    t - now2 ≤ -300000 ∧
    scheduleAlert now2 alive s al =
      [.consoleLog "Found alert:", .consoleLog "Alert time is in the past:"] ∧
    firingAction (scheduleAlert now1 alive s al) = .skipped ∧
    firingAction (scheduleAlert now2 alive s al) = .skipped := by
  have h2 : t - now2 ≤ -300000 := by omega
  refine ⟨h2, scheduleAlert_skipped now2 t alive s al hen ht h2, ?_, ?_⟩
  · rw [firingAction_scheduleAlert now1 t alive s al hen ht, if_neg (by omega),
      if_neg (by omega)]
  · rw [firingAction_scheduleAlert now2 t alive s al hen ht, if_neg (by omega),
      if_neg (by omega)]

/-- Witness for C7: an alert due at 400000 is skipped at 1000000 and at 5000000. -/
theorem scheduleAlert_missed_stays_missed_witness :
    scheduleAlert 5000000 true (sampleSession none) (sampleAlert 400000) =
      [.consoleLog "Found alert:", .consoleLog "Alert time is in the past:"] :=
  (scheduleAlert_missed_stays_missed 1000000 5000000 400000 true (sampleSession none)
    (sampleAlert 400000) rfl rfl (by decide) (by decide)).2.1

/-! ## The frame of a reminder submission -/

theorem modifyAt_append {α : Type} (f : α → α) (l1 l2 : List α) (a : α) :
    modifyAt f (l1 ++ a :: l2) l1.length = l1 ++ f a :: l2 := by
  induction l1 with
  | nil => rfl
  | cons b l1 ih => simp [modifyAt, ih]

theorem findInSessions_split (sessionName : String) (l : List Session) (j0 j : Nat)
    (s : Session) (h : findInSessions sessionName l j0 = some (j, s)) :
    ∃ S1 S2, l = S1 ++ s :: S2 ∧ j = j0 + S1.length := by
  induction l generalizing j0 with
  | nil => simp [findInSessions] at h
  | cons x rest ih =>
    by_cases hx : nameMatches x.name sessionName = true
    · simp only [findInSessions, hx, if_true, Option.some.injEq, Prod.mk.injEq] at h
      exact ⟨[], rest, by simp [h.2], by simp [h.1]⟩
    · simp only [findInSessions, hx] at h
      obtain ⟨S1, S2, h1, h2⟩ := ih (j0 + 1) h
      exact ⟨x :: S1, S2, by simp [h1], by simp [h2]; omega⟩

theorem findInActivities_split (sessionName : String) (activityDay : JsVal)
    (l : List Activity) (i0 : Nat) (ref : SessionRef) (s : Session)
    (h : findInActivities sessionName activityDay l i0 = some (ref, s)) :
    ∃ A1 act A2 S1 S2, l = A1 ++ act :: A2 ∧ ref.activityIdx = i0 + A1.length ∧
      act.sessions = S1 ++ s :: S2 ∧ ref.sessionIdx = S1.length := by
  induction l generalizing i0 with
  | nil => simp [findInActivities] at h
  | cons a rest ih =>
    have hrest : findInActivities sessionName activityDay rest (i0 + 1) = some (ref, s) →
        ∃ A1 act A2 S1 S2, a :: rest = A1 ++ act :: A2 ∧ ref.activityIdx = i0 + A1.length ∧
          act.sessions = S1 ++ s :: S2 ∧ ref.sessionIdx = S1.length := by
      intro h'
      obtain ⟨A1, act, A2, S1, S2, h1, h2, h3, h4⟩ := ih (i0 + 1) h'
      exact ⟨a :: A1, act, A2, S1, S2, by simp [h1], by simp [h2]; omega, h3, h4⟩
    by_cases hd : dayMatches a.day activityDay = true
    · cases hs : findInSessions sessionName a.sessions 0 with
      | none =>
        simp only [findInActivities, hd, if_true, hs] at h
        exact hrest h
      | some js =>
        obtain ⟨j, s'⟩ := js
        simp only [findInActivities, hd, if_true, hs, Option.some.injEq, Prod.mk.injEq] at h
        obtain ⟨S1, S2, h1, h2⟩ := findInSessions_split sessionName a.sessions 0 j s' hs
        obtain ⟨href, hss⟩ := h
        subst hss
        subst href
        exact ⟨[], a, rest, S1, S2, rfl, by simp, h1, by simp [h2]⟩
    · simp only [findInActivities, hd] at h
      exact hrest h

theorem modifySession_at (data : Calendar) (planning : Period) (rest : List Period)
    (A1 A2 : List Activity) (act : Activity) (S1 S2 : List Session) (s : Session)
    (ref : SessionRef) (f : Session → Session)
    (hdata : data.PI_1.PI_PlanningAndInnovation = planning :: rest)
    (hact : planning.activities = A1 ++ act :: A2) (hi : ref.activityIdx = A1.length)
    (hses : act.sessions = S1 ++ s :: S2) (hj : ref.sessionIdx = S1.length) :
    modifySession data ref f =
      { PI_1 := { data.PI_1 with
          PI_PlanningAndInnovation :=
            { planning with
              activities := A1 ++ { act with sessions := S1 ++ f s :: S2 } :: A2 } :: rest } } := by
  simp only [modifySession, hdata, hact, hi, hj, modifyAt_append, hses]

theorem setReminder_store (env : Env) (st : Store) (req : ReminderRequest)
    (ref : SessionRef) (result : Session) (start : Int) (element : String)
    (hfocus : env.focusedTitle = some element) (hne : element ≠ "")
    (hfind : findSessionByName st.data req.name (.str req.day) = .ok (some (ref, result)))
    (hstart : result.startDate.getTime = some start) :
    (setReminder env st req).store.data =
      modifySession
        (modifySession st.data ref (fun s => { s with alerts := some (s.alerts.getD []) }))
        ref
        (fun s => { s with alerts := some (s.alerts.getD [] ++ [newAlert env.tz start req]) }) ∧
    (setReminder env st req).store.file = (setReminder env st req).store.data := by
  rw [setReminder_success env st req ref result start element hfocus hne hfind hstart]
  cases env.mainWindowAlive <;> simp

/-- C6: on a successful submission the resolved session sits at one place of the
document (activities `A1 ++ act :: A2` of the planning week, sessions
`S1 ++ result :: S2` of `act`), and the document afterwards, in memory and on
disk, is the same document with the alerts of that one session replaced by the
old list (empty when the session had no alerts array) followed by the one new
alert with `timerEnabled` the string `true`, the submitted message and the
converted alert time; every stored alert keeps its index. -/
theorem setReminder_frame (env : Env) (st : Store) (req : ReminderRequest)
    (ref : SessionRef) (result : Session) (start : Int) (element : String)
    (hfocus : env.focusedTitle = some element) (hne : element ≠ "")
    (hfind : findSessionByName st.data req.name (.str req.day) = .ok (some (ref, result)))
    (hstart : result.startDate.getTime = some start) :
    ∃ (planning : Period) (rest : List Period) (A1 A2 : List Activity) (act : Activity)
        (S1 S2 : List Session),
      st.data.PI_1.PI_PlanningAndInnovation = planning :: rest ∧
      planning.activities = A1 ++ act :: A2 ∧ A1.length = ref.activityIdx ∧
      act.sessions = S1 ++ result :: S2 ∧ S1.length = ref.sessionIdx ∧
      (setReminder env st req).store.data =
        { PI_1 := { st.data.PI_1 with
            PI_PlanningAndInnovation :=
              { planning with
                activities := A1 ++
                  { act with
                    sessions := S1 ++
                      { result with
                        alerts := some (result.alerts.getD [] ++
                          [{ timerEnabled := .str "true"
                             message := req.message
                             alertTime := convertToUTC env.tz (resultDateTime start req) }]) }
                      :: S2 } :: A2 } :: rest } } ∧
      (setReminder env st req).store.file = (setReminder env st req).store.data ∧
      ∀ (k : Nat) (a : Alert), (result.alerts.getD [])[k]? = some a →
        (result.alerts.getD [] ++
          [{ timerEnabled := .str "true"
             message := req.message
             alertTime := convertToUTC env.tz (resultDateTime start req) }])[k]? = some a := by
  obtain ⟨hdata, hfile⟩ :=
    setReminder_store env st req ref result start element hfocus hne hfind hstart
  cases hp : st.data.PI_1.PI_PlanningAndInnovation with
  | nil => simp [findSessionByName, hp] at hfind
  | cons planning rest =>
    simp only [findSessionByName, hp, Except.ok.injEq] at hfind
    obtain ⟨A1, act, A2, S1, S2, hact, hi, hses, hj⟩ :=
      findInActivities_split req.name (.str req.day) planning.activities 0 ref result hfind
    have hi' : ref.activityIdx = A1.length := by omega
    refine ⟨planning, rest, A1, A2, act, S1, S2, rfl, hact, hi'.symm, hses, hj.symm, ?_,
      hfile, ?_⟩
    · rw [hdata, modifySession_at st.data planning rest A1 A2 act S1 S2 result ref _ hp hact
        hi' hses hj]
      rw [modifySession_at _ _ rest A1 A2 _ S1 S2 _ ref _ rfl rfl hi' rfl hj]
      simp [newAlert]
    · intro k a hk
      rw [List.getElem?_append_left]
      · exact hk
      · exact (List.getElem?_eq_some_iff.mp hk).1

/-- Witness for C6: a reminder for the only session of the sample calendar. -/
theorem setReminder_frame_witness :
    ∃ (planning : Period) (rest : List Period) (A1 A2 : List Activity) (act : Activity)
        (S1 S2 : List Session),
      (sampleCalendar [sampleSession none]).PI_1.PI_PlanningAndInnovation = planning :: rest ∧
      planning.activities = A1 ++ act :: A2 ∧ A1.length = 0 ∧
      act.sessions = S1 ++ sampleSession none :: S2 ∧ S1.length = 0 ∧
      (setReminder (sampleEnv 0 0)
          ⟨sampleCalendar [sampleSession none], sampleCalendar [sampleSession none]⟩
          (sampleRequest 5)).store.data =
        { PI_1 := { (sampleCalendar [sampleSession none]).PI_1 with
            PI_PlanningAndInnovation :=
              { planning with
                activities := A1 ++
                  { act with
                    sessions := S1 ++
                      { sampleSession none with
                        alerts := some ([] ++
                          [{ timerEnabled := .str "true"
                             message := "go"
                             alertTime := .iso 300000 }]) }
                      :: S2 } :: A2 } :: rest } } :=
  (setReminder_frame (sampleEnv 0 0)
    ⟨sampleCalendar [sampleSession none], sampleCalendar [sampleSession none]⟩
    (sampleRequest 5) ⟨0, 0⟩ (sampleSession none) 600000 "Kickoff"
    rfl (by decide) rfl rfl).imp fun _ h => h.imp fun _ h => h.imp fun _ h => h.imp fun _ h =>
      h.imp fun _ h => h.imp fun _ h => h.imp fun _ h =>
        ⟨h.1, h.2.1, h.2.2.1, h.2.2.2.1, h.2.2.2.2.1, h.2.2.2.2.2.1⟩

/-! ## Working days -/

theorem localDay_add_day (tz t : Int) : localDay tz (t + msPerDay) = localDay tz t + 1 := by
  simp only [localDay, localMs, msPerDay]
  omega

theorem calculateWorkingDaysLoop_eq (tz e : Int) (n : Nat) :
    ∀ (c acc : Int), (0 < n → c + ((n : Int) - 1) * msPerDay ≤ e) →
      e < c + (n : Int) * msPerDay →
      calculateWorkingDaysLoop tz e n (c, acc) =
        (c + (n : Int) * msPerDay, acc + (weekdayCountFrom (localDay tz c) n : Int)) := by
  induction n with
  | zero =>
    intro c acc _ _
    simp [calculateWorkingDaysLoop, weekdayCountFrom]
  | succ n ih =>
    intro c acc h1 h2
    have hD : msPerDay = 86400000 := rfl
    have hc : c ≤ e := by
      have := h1 (Nat.succ_pos n)
      push_cast at this
      rw [hD] at this
      omega
    have hstep := ih (c + msPerDay)
      (if getDay tz c ≥ 1 ∧ getDay tz c ≤ 5 then acc + 1 else acc)
      (by
        intro _
        have := h1 (Nat.succ_pos n)
        push_cast at this
        rw [hD] at this ⊢
        omega)
      (by
        push_cast at h2
        rw [hD] at h2 ⊢
        omega)
    simp only [calculateWorkingDaysLoop, if_pos hc]
    rw [hstep, localDay_add_day]
    refine Prod.ext ?_ ?_
    · simp only
      push_cast
      rw [hD]
      omega
    · simp only [weekdayCountFrom, getDay, isWorkingDay]
      split_ifs <;> push_cast <;> omega

theorem loopFuel_spec (s e : Int) :
    (0 < loopFuel s e → s + ((loopFuel s e : Int) - 1) * msPerDay ≤ e) ∧
      e < s + (loopFuel s e : Int) * msPerDay := by
  simp only [loopFuel, msPerDay]
  omega

theorem calculateWorkingDaysState_eq (tz s e : Int) :
    calculateWorkingDaysState tz s e =
      (s + (loopFuel s e : Int) * msPerDay,
        (weekdayCountFrom (localDay tz s) (loopFuel s e) : Int)) := by
  rw [calculateWorkingDaysState,
    calculateWorkingDaysLoop_eq tz e (loopFuel s e) s 0 (loopFuel_spec s e).1 (loopFuel_spec s e).2]
  simp

theorem calculateWorkingDays_eq (tz s e : Int) :
    calculateWorkingDays tz s e = (weekdayCountFrom (localDay tz s) (loopFuel s e) : Int) := by
  rw [calculateWorkingDays, calculateWorkingDaysState_eq]

theorem calculateWorkingDaysLoop_done (tz e : Int) (n : Nat) (c acc : Int) (h : e < c) :
    calculateWorkingDaysLoop tz e n (c, acc) = (c, acc) := by
  cases n with
  | zero => rfl
  | succ n => simp [calculateWorkingDaysLoop, not_le.mpr h]

theorem calculateWorkingDaysLoop_add (tz e : Int) (n k : Nat) :
    ∀ (st : Int × Int), calculateWorkingDaysLoop tz e (n + k) st =
      calculateWorkingDaysLoop tz e k (calculateWorkingDaysLoop tz e n st) := by
  induction n with
  | zero =>
    intro st
    simp [calculateWorkingDaysLoop]
  | succ n ih =>
    rintro ⟨c, acc⟩
    by_cases hc : c ≤ e
    · rw [show n + 1 + k = (n + k) + 1 by omega]
      simp only [calculateWorkingDaysLoop, if_pos hc]
      exact ih _
    · rw [show n + 1 + k = (n + k) + 1 by omega]
      simp only [calculateWorkingDaysLoop, if_neg hc]
      rw [calculateWorkingDaysLoop_done tz e k c acc (by omega)]

theorem calculateWorkingDaysLoop_fuel (tz s e : Int) (k : Nat) :
    calculateWorkingDaysLoop tz e (loopFuel s e + k) (s, 0) = calculateWorkingDaysState tz s e ∧
      e < (calculateWorkingDaysState tz s e).1 := by
  have hexit : e < (calculateWorkingDaysState tz s e).1 := by
    rw [calculateWorkingDaysState_eq]
    exact (loopFuel_spec s e).2
  refine ⟨?_, hexit⟩
  rw [calculateWorkingDaysLoop_add]
  show calculateWorkingDaysLoop tz e k (calculateWorkingDaysState tz s e) = _
  exact calculateWorkingDaysLoop_done tz e k _ _ hexit

theorem weekdayCountFrom_eq (n : Nat) :
    ∀ d : Int, weekdayCountFrom d n = weekdaysInRange d (d + (n : Int) - 1) := by
  induction n with
  | zero =>
    intro d
    simp [weekdayCountFrom, weekdaysInRange]
  | succ n ih =>
    intro d
    have hIcc : Finset.Icc d (d + ((n + 1 : Nat) : Int) - 1) =
        insert d (Finset.Icc (d + 1) (d + 1 + (n : Int) - 1)) := by
      ext x
      simp only [Finset.mem_Icc, Finset.mem_insert]
      push_cast
      omega
    have hnot : d ∉ Finset.Icc (d + 1) (d + 1 + (n : Int) - 1) := by
      simp
    rw [weekdayCountFrom, ih (d + 1), weekdaysInRange, weekdaysInRange, hIcc,
      Finset.filter_insert]
    by_cases hw : isWorkingDay d
    · rw [if_pos hw, if_pos hw, Finset.card_insert_of_not_mem]
      · omega
      · intro hmem
        exact hnot (Finset.mem_filter.mp hmem).1
    · rw [if_neg hw, if_neg hw]
      omega

theorem loopFuel_of_timeOfDay_le (tz s e : Int) (hle : s ≤ e)
    (htod : timeOfDay tz s ≤ timeOfDay tz e) :
    (loopFuel s e : Int) = localDay tz e - localDay tz s + 1 := by
  simp only [loopFuel, timeOfDay, localDay, localMs, msPerDay] at *
  omega

theorem loopFuel_of_timeOfDay_gt (tz s e : Int) (hle : s ≤ e)
    (htod : timeOfDay tz e < timeOfDay tz s) :
    (loopFuel s e : Int) = localDay tz e - localDay tz s := by
  simp only [loopFuel, timeOfDay, localDay, localMs, msPerDay] at *
  omega

theorem localDay_midnight (tz t : Int) : localDay tz (midnight tz t) = localDay tz t := by
  simp only [midnight, timeOfDay, localDay, localMs, msPerDay]
  omega

theorem loopFuel_midnight (tz s e : Int) :
    (loopFuel (midnight tz s) (midnight tz e) : Int) =
      max (localDay tz e - localDay tz s + 1) 0 := by
  simp only [loopFuel, midnight, timeOfDay, localDay, localMs, msPerDay]
  omega

theorem loopFuel_midnight_pred (tz s e : Int) :
    (loopFuel (midnight tz s) (midnight tz e - msPerDay) : Int) =
      max (localDay tz e - localDay tz s) 0 := by
  simp only [loopFuel, midnight, timeOfDay, localDay, localMs, msPerDay]
  omega

/-- C8: for `start ≤ end` carrying the same local time of day,
`calculateWorkingDays(start, end)` is the number of calendar days in the
inclusive range from the date of `start` to the date of `end` whose weekday is
Monday to Friday, and the loop stops because it has left the range; a
single-day range gives 1 on a weekday and 0 otherwise. -/
theorem calculateWorkingDays_counts_weekdays (tz s e : Int) (hle : s ≤ e)
    (htod : timeOfDay tz s = timeOfDay tz e) :
    calculateWorkingDays tz s e = (weekdaysInRange (localDay tz s) (localDay tz e) : Int) ∧
    e < (calculateWorkingDaysState tz s e).1 ∧
    calculateWorkingDays tz s s = (if isWorkingDay (localDay tz s) then 1 else 0) := by
  have hn := loopFuel_of_timeOfDay_le tz s e hle (le_of_eq htod)
  have h1 := loopFuel_of_timeOfDay_le tz s s le_rfl le_rfl
  have h1' : loopFuel s s = 1 := by omega
  refine ⟨?_, (calculateWorkingDaysLoop_fuel tz s e 0).2, ?_⟩
  · rw [calculateWorkingDays_eq, weekdayCountFrom_eq, hn]
    congr 2
    omega
  · rw [calculateWorkingDays_eq, h1']
    simp only [weekdayCountFrom]
    split_ifs <;> simp

/-- Witness for C8 in UTC: Monday 2023-01-02 to Friday 2023-01-06 gives 5, to
Monday 2023-01-09 gives 6, Friday to Monday gives 2, Monday alone gives 1. -/
theorem calculateWorkingDays_counts_weekdays_witness :
    calculateWorkingDays 0 1672617600000 1672963200000 = 5 ∧
    calculateWorkingDays 0 1672617600000 1673222400000 = 6 ∧
    calculateWorkingDays 0 1672963200000 1673222400000 = 2 ∧
    calculateWorkingDays 0 1672617600000 1672617600000 = 1 :=
  ⟨(calculateWorkingDays_counts_weekdays 0 1672617600000 1672963200000
      (by decide) (by decide)).1.trans (by decide),
    (calculateWorkingDays_counts_weekdays 0 1672617600000 1673222400000
      (by decide) (by decide)).1.trans (by decide),
    (calculateWorkingDays_counts_weekdays 0 1672963200000 1673222400000
      (by decide) (by decide)).1.trans (by decide),
    (calculateWorkingDays_counts_weekdays 0 1672617600000 1672617600000
      (by decide) (by decide)).2.2.trans (by decide)⟩

/-- C9, as stated, fails: from Monday 2023-01-02 12:00 to Tuesday 2023-01-03
00:00 (UTC) the loop visits Monday only and returns 1, while between the two
midnights it returns 2. -/
theorem calculateWorkingDays_ignores_time_counterexample :
    ¬ ∀ tz s e : Int, s ≤ e →
        calculateWorkingDays tz s e =
          calculateWorkingDays tz (midnight tz s) (midnight tz e) := by
  intro h
  have h0 := h 0 1672660800000 1672704000000 (by decide)
  revert h0
  decide

/-- C9, amended: for `start ≤ end`, when the time of day of `start` is not
later than that of `end`, `calculateWorkingDays(start, end)` equals its value
between the midnights of the two dates (so 2023-01-02 00:00 to 23:59 gives 1);
when the time of day of `start` is later, the date of `end` is left out and the
value is that between the midnight of `start` and the midnight before `end`. -/
theorem calculateWorkingDays_time_of_day (tz s e : Int) (hle : s ≤ e) :
    (timeOfDay tz s ≤ timeOfDay tz e →
      calculateWorkingDays tz s e =
        calculateWorkingDays tz (midnight tz s) (midnight tz e)) ∧
    (timeOfDay tz e < timeOfDay tz s →
      calculateWorkingDays tz s e =
        calculateWorkingDays tz (midnight tz s) (midnight tz e - msPerDay)) := by
  constructor
  · intro htod
    have h1 := loopFuel_of_timeOfDay_le tz s e hle htod
    have h2 := loopFuel_midnight tz s e
    have hn : loopFuel (midnight tz s) (midnight tz e) = loopFuel s e := by omega
    rw [calculateWorkingDays_eq, calculateWorkingDays_eq, localDay_midnight, hn]
  · intro htod
    have h1 := loopFuel_of_timeOfDay_gt tz s e hle htod
    have h2 := loopFuel_midnight_pred tz s e
    have hn : loopFuel (midnight tz s) (midnight tz e - msPerDay) = loopFuel s e := by omega
    rw [calculateWorkingDays_eq, calculateWorkingDays_eq, localDay_midnight, hn]

/-- Witness for the amended C9: Monday 2023-01-02 00:00 to 23:59 (UTC) gives 1,
the value between the two midnights. -/
theorem calculateWorkingDays_time_of_day_witness :
    calculateWorkingDays 0 1672617600000 1672703940000 = 1 :=
  ((calculateWorkingDays_time_of_day 0 1672617600000 1672703940000 (by decide)).1
    (by decide)).trans (by decide)

/-- C10: when `end < start` the loop of `calculateWorkingDays` is not entered,
its variables keep their initial values and the result is 0; for all inputs the
function returns a number, and that number is never negative. -/
theorem calculateWorkingDays_inverted (tz s e : Int) :
    (e < s → calculateWorkingDaysState tz s e = (s, 0) ∧ calculateWorkingDays tz s e = 0) ∧
    0 ≤ calculateWorkingDays tz s e := by
  constructor
  · intro h
    have hn : loopFuel s e = 0 := by
      simp only [loopFuel, msPerDay]
      omega
    have hst : calculateWorkingDaysState tz s e = (s, 0) := by
      simp [calculateWorkingDaysState, hn, calculateWorkingDaysLoop]
    exact ⟨hst, by rw [calculateWorkingDays, hst]⟩
  · rw [calculateWorkingDays_eq]
    exact Int.natCast_nonneg _

/-- Witness for C10: from Friday 2023-01-06 back to Monday 2023-01-02 the result
is 0. -/
theorem calculateWorkingDays_inverted_witness :
    calculateWorkingDays 0 1672963200000 1672617600000 = 0 :=
  ((calculateWorkingDays_inverted 0 1672963200000 1672617600000).1 (by decide)).2

/-! ## Session lookup -/

theorem dayMatches_iff (day activityDay : JsVal) :
    dayMatches day activityDay = true ↔
      day.truthy = true ∧ activityDay.truthy = true ∧ labelsAgree day activityDay := by
  simp [dayMatches, labelsAgree, and_assoc]

theorem nameMatches_iff (name : JsVal) (sessionName : String) :
    nameMatches name sessionName = true ↔ namesAgree name sessionName := by
  cases name <;> simp [nameMatches, namesAgree]

theorem findInSessions_first (sessionName : String) (l : List Session) (j0 j : Nat)
    (s : Session) (h : findInSessions sessionName l j0 = some (j, s)) :
    ∃ S1 S2, l = S1 ++ s :: S2 ∧ j = j0 + S1.length ∧
      nameMatches s.name sessionName = true ∧
      ∀ x ∈ S1, nameMatches x.name sessionName = false := by
  induction l generalizing j0 with
  | nil => simp [findInSessions] at h
  | cons x rest ih =>
    by_cases hx : nameMatches x.name sessionName = true
    · simp only [findInSessions, hx, if_true, Option.some.injEq, Prod.mk.injEq] at h
      obtain ⟨hj, hs⟩ := h
      subst hs
      exact ⟨[], rest, rfl, by simp [hj], hx, by simp⟩
    · simp only [findInSessions, hx] at h
      obtain ⟨S1, S2, h1, h2, h3, h4⟩ := ih (j0 + 1) h
      refine ⟨x :: S1, S2, by simp [h1], by simp [h2]; omega, h3, ?_⟩
      intro y hy
      rcases List.mem_cons.mp hy with hy | hy
      · subst hy
        simpa using hx
      · exact h4 y hy

theorem findInSessions_none (sessionName : String) (l : List Session) (j0 : Nat) :
    findInSessions sessionName l j0 = none ↔ ∀ x ∈ l, nameMatches x.name sessionName = false := by
  induction l generalizing j0 with
  | nil => simp [findInSessions]
  | cons x rest ih =>
    by_cases hx : nameMatches x.name sessionName = true
    · simp [findInSessions, hx]
    · have hx' : nameMatches x.name sessionName = false := by simpa using hx
      rw [findInSessions, if_neg hx, ih (j0 + 1)]
      simp [hx']

theorem findInActivities_first (sessionName : String) (activityDay : JsVal)
    (l : List Activity) (i0 : Nat) (ref : SessionRef) (s : Session)
    (h : findInActivities sessionName activityDay l i0 = some (ref, s)) :
    ∃ A1 act A2 S1 S2, l = A1 ++ act :: A2 ∧ ref.activityIdx = i0 + A1.length ∧
      act.sessions = S1 ++ s :: S2 ∧ ref.sessionIdx = S1.length ∧
      dayMatches act.day activityDay = true ∧ nameMatches s.name sessionName = true ∧
      (∀ x ∈ S1, nameMatches x.name sessionName = false) ∧
      (∀ a ∈ A1, ∀ x ∈ a.sessions,
        ¬ (dayMatches a.day activityDay = true ∧ nameMatches x.name sessionName = true)) := by
  induction l generalizing i0 with
  | nil => simp [findInActivities] at h
  | cons a rest ih =>
    have hrest : findInActivities sessionName activityDay rest (i0 + 1) = some (ref, s) →
        (∀ x ∈ a.sessions,
          ¬ (dayMatches a.day activityDay = true ∧ nameMatches x.name sessionName = true)) →
        ∃ A1 act A2 S1 S2, a :: rest = A1 ++ act :: A2 ∧ ref.activityIdx = i0 + A1.length ∧
          act.sessions = S1 ++ s :: S2 ∧ ref.sessionIdx = S1.length ∧
          dayMatches act.day activityDay = true ∧ nameMatches s.name sessionName = true ∧
          (∀ x ∈ S1, nameMatches x.name sessionName = false) ∧
          (∀ a' ∈ A1, ∀ x ∈ a'.sessions,
            ¬ (dayMatches a'.day activityDay = true ∧
              nameMatches x.name sessionName = true)) := by
      intro h' hno
      obtain ⟨A1, act, A2, S1, S2, h1, h2, h3, h4, h5, h6, h7, h8⟩ := ih (i0 + 1) h'
      refine ⟨a :: A1, act, A2, S1, S2, by simp [h1], by simp [h2]; omega, h3, h4, h5, h6, h7, ?_⟩
      intro a' ha'
      rcases List.mem_cons.mp ha' with ha' | ha'
      · subst ha'
        exact hno
      · exact h8 a' ha'
    by_cases hd : dayMatches a.day activityDay = true
    · cases hs : findInSessions sessionName a.sessions 0 with
      | none =>
        simp only [findInActivities, hd, if_true, hs] at h
        refine hrest h ?_
        intro x hx hboth
        have := (findInSessions_none sessionName a.sessions 0).mp hs x hx
        rw [this] at hboth
        exact Bool.false_ne_true hboth.2
      | some js =>
        obtain ⟨j, s'⟩ := js
        simp only [findInActivities, hd, if_true, hs, Option.some.injEq, Prod.mk.injEq] at h
        obtain ⟨S1, S2, h1, h2, h3, h4⟩ := findInSessions_first sessionName a.sessions 0 j s' hs
        obtain ⟨href, hss⟩ := h
        subst hss
        subst href
        exact ⟨[], a, rest, S1, S2, rfl, by simp, h1, by simp [h2], hd, h3, h4, by simp⟩
    · simp only [findInActivities, hd] at h
      refine hrest h ?_
      intro x _ hboth
      exact hd hboth.1

theorem findInActivities_none (sessionName : String) (activityDay : JsVal)
    (l : List Activity) (i0 : Nat) :
    findInActivities sessionName activityDay l i0 = none ↔
      ∀ a ∈ l, ∀ x ∈ a.sessions,
        ¬ (dayMatches a.day activityDay = true ∧ nameMatches x.name sessionName = true) := by
  induction l generalizing i0 with
  | nil => simp [findInActivities]
  | cons a rest ih =>
    by_cases hd : dayMatches a.day activityDay = true
    · cases hs : findInSessions sessionName a.sessions 0 with
      | none =>
        have hno := (findInSessions_none sessionName a.sessions 0).mp hs
        simp only [findInActivities, hd, if_true, hs, ih (i0 + 1)]
        constructor
        · intro hr a' ha'
          rcases List.mem_cons.mp ha' with ha' | ha'
          · subst ha'
            intro x hx hboth
            rw [hno x hx] at hboth
            exact Bool.false_ne_true hboth.2
          · exact hr a' ha'
        · intro hall a' ha'
          exact hall a' (List.mem_cons_of_mem _ ha')
      | some js =>
        obtain ⟨j, s'⟩ := js
        obtain ⟨S1, S2, h1, _, h3, _⟩ := findInSessions_first sessionName a.sessions 0 j s' hs
        simp only [findInActivities, hd, if_true, hs]
        constructor
        · intro hfalse
          cases hfalse
        · intro hall
          exact absurd ⟨hd, h3⟩ (hall a (List.mem_cons_self _ _) s' (by simp [h1]))
    · rw [findInActivities, if_neg hd, ih (i0 + 1)]
      constructor
      · intro hr a' ha'
        rcases List.mem_cons.mp ha' with ha' | ha'
        · subst ha'
          intro x _ hboth
          exact hd hboth.1
        · exact hr a' ha'
      · intro hall a' ha'
        exact hall a' (List.mem_cons_of_mem _ ha')

theorem sessionMatches_iff (sessionName : String) (activityDay : JsVal) (a : Activity)
    (s : Session) :
    sessionMatches sessionName activityDay a s ↔
      (dayMatches a.day activityDay = true ∧ nameMatches s.name sessionName = true) := by
  rw [sessionMatches, dayMatches_iff, nameMatches_iff]
  tauto

/-- C11, as stated, fails: an activity whose day label is the integer 0 is never
matched, although its label converted to a string equals the requested day
`0`, because the lookup first tests the label for truthiness. -/
theorem findSessionByName_first_match_counterexample :
    ¬ ∀ (data : Calendar) (planning : Period) (rest : List Period) (sessionName : String)
        (activityDay : JsVal),
        data.PI_1.PI_PlanningAndInnovation = planning :: rest →
        (∀ a ∈ planning.activities, a.day.isLabel) →
        (findSessionByName data sessionName activityDay = .ok none ↔
          ¬ ∃ a ∈ planning.activities, ∃ s ∈ a.sessions,
            labelsAgree a.day activityDay ∧ namesAgree s.name sessionName) := by
  intro h
  have h0 := h (sampleCalendarOn (.num 0) [sampleSession none]) _ [] "kickoff" (.str "0") rfl
    (by simp [sampleCalendarOn, JsVal.isLabel])
  have hnone : findSessionByName (sampleCalendarOn (.num 0) [sampleSession none]) "kickoff"
      (.str "0") = .ok none := rfl
  refine h0.mp hnone ⟨_, List.mem_cons_self _ _, sampleSession none, List.mem_cons_self _ _, ?_, ?_⟩
  · show jsTrim (JsVal.num 0).toStr = jsTrim (JsVal.str "0").toStr
    decide
  · exact ⟨"Kickoff", rfl, by decide⟩

/-- C11, amended: on a document with a planning week `findSessionByName` returns;
it returns `null` exactly when no activity and session of it match, and
otherwise returns the first match in document order (no earlier session of the
same activity and no session of an earlier activity matches), where a match
requires that the activity's day label and `activityDay` are both truthy, that
the label converted to a string and trimmed equals the trimmed `activityDay`,
and that the session's name is a string equal, trimmed and lower-cased, to the
trimmed lower-cased `sessionName`. -/
theorem findSessionByName_first_match (data : Calendar) (planning : Period)
    (rest : List Period) (sessionName : String) (activityDay : JsVal)
    (hp : data.PI_1.PI_PlanningAndInnovation = planning :: rest) :
    ∃ result, findSessionByName data sessionName activityDay = .ok result ∧
      (result = none ↔
        ∀ a ∈ planning.activities, ∀ s ∈ a.sessions,
          ¬ sessionMatches sessionName activityDay a s) ∧
      (∀ ref s, result = some (ref, s) →
        ∃ A1 act A2 S1 S2, planning.activities = A1 ++ act :: A2 ∧
          ref.activityIdx = A1.length ∧ act.sessions = S1 ++ s :: S2 ∧
          ref.sessionIdx = S1.length ∧
          sessionMatches sessionName activityDay act s ∧
          (∀ x ∈ S1, ¬ sessionMatches sessionName activityDay act x) ∧
          (∀ a ∈ A1, ∀ x ∈ a.sessions, ¬ sessionMatches sessionName activityDay a x)) := by
  refine ⟨findInActivities sessionName activityDay planning.activities 0, ?_, ?_, ?_⟩
  · simp [findSessionByName, hp]
  · rw [findInActivities_none]
    simp only [sessionMatches_iff]
  · intro ref s hres
    obtain ⟨A1, act, A2, S1, S2, h1, h2, h3, h4, h5, h6, h7, h8⟩ :=
      findInActivities_first sessionName activityDay planning.activities 0 ref s hres
    refine ⟨A1, act, A2, S1, S2, h1, by omega, h3, h4, ?_, ?_, ?_⟩
    · exact (sessionMatches_iff _ _ _ _).mpr ⟨h5, h6⟩
    · intro x hx hm
      have := ((sessionMatches_iff _ _ _ _).mp hm).2
      rw [h7 x hx] at this
      exact Bool.false_ne_true this
    · intro a ha x hx hm
      exact h8 a ha x hx ((sessionMatches_iff _ _ _ _).mp hm)

/-- Witness for the amended C11: the lookup of `kickoff` on day `1` in the sample
calendar returns, and the day label 0 is not found. -/
theorem findSessionByName_first_match_witness :
    (∃ result, findSessionByName (sampleCalendar [sampleSession none]) " kickoff" (.str "1 ") =
      .ok result) ∧
    findSessionByName (sampleCalendar [sampleSession none]) " kickoff" (.str "1 ") =
      .ok (some (⟨0, 0⟩, sampleSession none)) :=
  ⟨(findSessionByName_first_match (sampleCalendar [sampleSession none]) _ [] " kickoff"
      (.str "1 ") rfl).imp fun _ h => h.1, rfl⟩

/-! ## The current activity -/

theorem isWithinDateRange_iff (tz now s e : Int) (startDate endDate : DateStr)
    (hs : startDate.getTime = some s) (he : endDate.getTime = some e) :
    isWithinDateRange tz (midnight tz now) startDate endDate = true ↔
      localDay tz s ≤ localDay tz now ∧ localDay tz now ≤ localDay tz e := by
  simp only [isWithinDateRange, hs, he, Bool.and_eq_true, decide_eq_true_eq, midnight,
    timeOfDay, localDay, localMs, msPerDay]
  omega

/-- C12: given the planning week at index 0 and the innovation week at index 1,
`identifyCurrentArtActivity` returns the planning week whenever it contains
today, whatever else contains today; otherwise the innovation week if it
contains today; otherwise the first iteration in list order that contains
today; and it returns `undefined` exactly when none of them contains today. -/
theorem identifyCurrentArtActivity_priority (tz now : Int) (pp : List Period)
    (its : List Iteration) (planningWeek innovationWeek : Period)
    (h0 : pp[0]? = some planningWeek) (h1 : pp[1]? = some innovationWeek) :
    (isWithinDateRange tz (midnight tz now) planningWeek.startDate planningWeek.endDate = true →
      identifyCurrentArtActivity tz now pp its = .ok (some (.week planningWeek))) ∧
    (isWithinDateRange tz (midnight tz now) planningWeek.startDate planningWeek.endDate = false →
      isWithinDateRange tz (midnight tz now) innovationWeek.startDate innovationWeek.endDate
        = true →
      identifyCurrentArtActivity tz now pp its = .ok (some (.week innovationWeek))) ∧
    (isWithinDateRange tz (midnight tz now) planningWeek.startDate planningWeek.endDate = false →
      isWithinDateRange tz (midnight tz now) innovationWeek.startDate innovationWeek.endDate
        = false →
      ∀ (before after : List Iteration) (it : Iteration), its = before ++ it :: after →
        (∀ x ∈ before,
          isWithinDateRange tz (midnight tz now) x.startDate x.endDate = false) →
        isWithinDateRange tz (midnight tz now) it.startDate it.endDate = true →
        identifyCurrentArtActivity tz now pp its = .ok (some (.iteration it))) ∧
    (identifyCurrentArtActivity tz now pp its = .ok none ↔
      isWithinDateRange tz (midnight tz now) planningWeek.startDate planningWeek.endDate
          = false ∧
        isWithinDateRange tz (midnight tz now) innovationWeek.startDate innovationWeek.endDate
          = false ∧
        ∀ x ∈ its, isWithinDateRange tz (midnight tz now) x.startDate x.endDate = false) := by
  refine ⟨?_, ?_, ?_, ?_⟩
  · intro hp
    simp [identifyCurrentArtActivity, h0, hp]
  · intro hp hi
    simp [identifyCurrentArtActivity, h0, h1, hp, hi]
  · intro hp hi before after it hits hbefore hit
    have hfind : its.find? (fun iteration =>
        isWithinDateRange tz (midnight tz now) iteration.startDate iteration.endDate) =
        some it := by
      rw [hits, List.find?_append]
      have hnone : before.find? (fun iteration =>
          isWithinDateRange tz (midnight tz now) iteration.startDate iteration.endDate) =
          none := by
        rw [List.find?_eq_none]
        intro x hx
        simp [hbefore x hx]
      rw [hnone]
      simp [List.find?_cons, hit]
    simp [identifyCurrentArtActivity, h0, h1, hp, hi, hfind]
  · by_cases hp : isWithinDateRange tz (midnight tz now) planningWeek.startDate
        planningWeek.endDate = true
    · simp [identifyCurrentArtActivity, h0, hp]
    · by_cases hi : isWithinDateRange tz (midnight tz now) innovationWeek.startDate
          innovationWeek.endDate = true
      · simp [identifyCurrentArtActivity, h0, h1, hp, hi]
      · simp only [Bool.not_eq_true] at hp hi
        simp [identifyCurrentArtActivity, h0, h1, hp, hi, List.find?_eq_none]

/-- Witness for C12 in UTC, on Tuesday 2023-01-03: with a planning week, an
innovation week and an iteration that all contain the day, the planning week is
returned. -/
theorem identifyCurrentArtActivity_priority_witness :
    identifyCurrentArtActivity 0 1672750800000
        [samplePeriod "Planning" 1672617600000 1672963200000,
          samplePeriod "Innovation" 1672617600000 1673222400000]
        [sampleIteration "Iteration 1" 1672617600000 1673222400000] =
      .ok (some (.week (samplePeriod "Planning" 1672617600000 1672963200000))) :=
  (identifyCurrentArtActivity_priority 0 1672750800000
    [samplePeriod "Planning" 1672617600000 1672963200000,
      samplePeriod "Innovation" 1672617600000 1673222400000]
    [sampleIteration "Iteration 1" 1672617600000 1673222400000]
    (samplePeriod "Planning" 1672617600000 1672963200000)
    (samplePeriod "Innovation" 1672617600000 1673222400000) rfl rfl).1 (by decide)

/-- C13: with today moved to local midnight, as `identifyCurrentArtActivity` does,
and bounds that are valid dates, `isWithinDateRange` holds exactly when the
calendar day of `startDate` is at most today's calendar day and today's calendar
day is at most the calendar day of `endDate`, whatever the times of day; so it
holds on the start day and on the end day and fails on the day before the start
and on the day after the end. -/
theorem isWithinDateRange_inclusive (tz now s e : Int) (startDate endDate : DateStr)
    (hs : startDate.getTime = some s) (he : endDate.getTime = some e) :
    (isWithinDateRange tz (midnight tz now) startDate endDate = true ↔
      localDay tz s ≤ localDay tz now ∧ localDay tz now ≤ localDay tz e) ∧
    (localDay tz s ≤ localDay tz e → localDay tz now = localDay tz s →
      isWithinDateRange tz (midnight tz now) startDate endDate = true) ∧
    (localDay tz s ≤ localDay tz e → localDay tz now = localDay tz e →
      isWithinDateRange tz (midnight tz now) startDate endDate = true) ∧
    (localDay tz now = localDay tz s - 1 →
      isWithinDateRange tz (midnight tz now) startDate endDate = false) ∧
    (localDay tz now = localDay tz e + 1 →
      isWithinDateRange tz (midnight tz now) startDate endDate = false) := by
  have hiff := isWithinDateRange_iff tz now s e startDate endDate hs he
  refine ⟨hiff, ?_, ?_, ?_, ?_⟩
  · intro hse hnow
    exact hiff.mpr (by omega)
  · intro hse hnow
    exact hiff.mpr (by omega)
  · intro hnow
    rw [← Bool.not_eq_true, hiff]
    omega
  · intro hnow
    rw [← Bool.not_eq_true, hiff]
    omega

/-- Witness for C13 in UTC: for the range Monday 2023-01-02 09:00 to Friday
2023-01-06 09:00, Friday 23:00 is inside and Saturday 00:30 is outside. -/
theorem isWithinDateRange_inclusive_witness :
    isWithinDateRange 0 (midnight 0 1673046000000) (.iso 1672650000000) (.iso 1672995600000)
        = true ∧
      isWithinDateRange 0 (midnight 0 1673051400000) (.iso 1672650000000) (.iso 1672995600000)
        = false :=
  ⟨(isWithinDateRange_inclusive 0 1673046000000 1672650000000 1672995600000
      (.iso 1672650000000) (.iso 1672995600000) rfl rfl).2.2.1 (by decide) (by decide),
    (isWithinDateRange_inclusive 0 1673051400000 1672650000000 1672995600000
      (.iso 1672650000000) (.iso 1672995600000) rfl rfl).2.2.2.2 (by decide)⟩

/-- C14: `isAlertSet(node)` is true exactly when `node.alerts` is an array holding
at least one alert whose `timerEnabled` is the string `true`; it is false for a
node without alerts, with an empty array, and with an array whose alerts all
carry another value, and true for an array with one enabled alert. -/
theorem isAlertSet_iff (node : Session) :
    (isAlertSet node = true ↔
      ∃ alerts, node.alerts = some alerts ∧ ∃ a ∈ alerts, a.timerEnabled = .str "true") ∧
    isAlertSet (sampleNode none) = false ∧
    isAlertSet (sampleNode (some [])) = false ∧
    isAlertSet (sampleNode (some [sampleFlag (.str "false")])) = false ∧
    isAlertSet (sampleNode (some [sampleFlag (.str "true")])) = true := by
  refine ⟨?_, by decide, by decide, by decide, by decide⟩
  cases h : node.alerts with
  | none => simp [isAlertSet, h]
  | some alerts => simp [isAlertSet, h]

/-! ## Rounding to a double -/

theorem twoPow_eq (k : Int) : twoPow k = (2 : ℚ) ^ k := by
  unfold twoPow
  split_ifs with h
  · conv_rhs => rw [← Int.toNat_of_nonneg h]
    rw [zpow_natCast]
  · have hk : k = -((-k).toNat : Int) := by omega
    conv_rhs => rw [hk]
    rw [zpow_neg, zpow_natCast, one_div]

theorem twoPow_pos (k : Int) : 0 < twoPow k := by
  rw [twoPow_eq]
  positivity

theorem twoPow_le (j k : Int) (h : j ≤ k) : twoPow j ≤ twoPow k := by
  rw [twoPow_eq, twoPow_eq]
  exact zpow_le_zpow_right₀ (by norm_num) h

theorem twoPow_lt_iff (j k : Int) : twoPow j < twoPow k ↔ j < k := by
  rw [twoPow_eq, twoPow_eq]
  exact zpow_lt_zpow_iff_right₀ (by norm_num)

theorem twoPow_succ (k : Int) : twoPow (k + 1) = 2 * twoPow k := by
  rw [twoPow_eq, twoPow_eq, zpow_add_one₀ (by norm_num)]
  ring

theorem twoPow_sub (j k : Int) : twoPow (j - k) = twoPow j / twoPow k := by
  rw [twoPow_eq, twoPow_eq, twoPow_eq, zpow_sub₀ (by norm_num)]

theorem twoPow_natCast (n : Nat) : twoPow (n : Int) = (2 : ℚ) ^ n := by
  rw [twoPow_eq, zpow_natCast]

theorem bitLength_spec (fuel : Nat) :
    ∀ n : Nat, n ≤ fuel → 0 < n →
      2 ^ (bitLength fuel n - 1) ≤ n ∧ n < 2 ^ bitLength fuel n := by
  induction fuel with
  | zero =>
    intro n hn hpos
    omega
  | succ fuel ih =>
    intro n hn hpos
    have hne : n ≠ 0 := by omega
    simp only [bitLength, if_neg hne, Nat.add_sub_cancel]
    by_cases hhalf : n / 2 = 0
    · have h1 : n = 1 := by omega
      subst h1
      cases fuel with
      | zero => simp [bitLength]
      | succ f => simp [bitLength]
    · have hle : n / 2 ≤ fuel := by omega
      obtain ⟨h1, h2⟩ := ih (n / 2) hle (by omega)
      have hL : 0 < bitLength fuel (n / 2) := by
        rcases Nat.eq_zero_or_pos (bitLength fuel (n / 2)) with h0 | h0
        · rw [h0] at h2
          omega
        · exact h0
      have hpow : 2 ^ bitLength fuel (n / 2) = 2 * 2 ^ (bitLength fuel (n / 2) - 1) := by
        conv_lhs => rw [← Nat.sub_add_cancel hL]
        rw [Nat.pow_succ]
        ring
      constructor
      · rw [hpow]
        omega
      · rw [Nat.pow_succ]
        omega

theorem floorLog2_spec (n : Nat) (hpos : 0 < n) :
    ((2 : ℚ) ^ floorLog2 n ≤ n) ∧ ((n : ℚ) < 2 ^ (floorLog2 n + 1)) := by
  obtain ⟨h1, h2⟩ := bitLength_spec n n le_rfl hpos
  have hL : 0 < bitLength n n := by
    rcases Nat.eq_zero_or_pos (bitLength n n) with h0 | h0
    · rw [h0] at h2
      omega
    · exact h0
  have hsucc : floorLog2 n + 1 = bitLength n n := by
    unfold floorLog2
    omega
  constructor
  · unfold floorLog2
    exact_mod_cast h1
  · rw [hsucc]
    exact_mod_cast h2

theorem roundHalfEven_close (n d : Nat) (hd : 0 < d) :
    |(roundHalfEven n d : ℚ) - (n : ℚ) / (d : ℚ)| ≤ 1 / 2 := by
  have hdq : (0 : ℚ) < d := by exact_mod_cast hd
  have hn : (n : ℚ) = (d : ℚ) * ((n / d : Nat) : ℚ) + ((n % d : Nat) : ℚ) := by
    exact_mod_cast (Nat.div_add_mod n d).symm
  have hr : ((n % d : Nat) : ℚ) < d := by exact_mod_cast Nat.mod_lt n hd
  have hr0 : (0 : ℚ) ≤ ((n % d : Nat) : ℚ) := by positivity
  have key : ∀ R : ℚ, |R * d - n| ≤ d / 2 → |R - (n : ℚ) / d| ≤ 1 / 2 := by
    intro R hR
    have : R - (n : ℚ) / d = (R * d - n) / d := by
      field_simp
    rw [this, abs_div, abs_of_pos hdq, div_le_iff₀ hdq]
    linarith
  apply key
  unfold roundHalfEven
  split_ifs with h1 h2 h3
  · have h1' : (2 : ℚ) * ((n % d : Nat) : ℚ) < d := by exact_mod_cast h1
    rw [abs_le]
    constructor <;> nlinarith
  · have h2' : (d : ℚ) < 2 * ((n % d : Nat) : ℚ) := by exact_mod_cast h2
    push_cast
    rw [abs_le]
    constructor <;> nlinarith
  · have h3' : (2 : ℚ) * ((n % d : Nat) : ℚ) = d := by
      have : 2 * (n % d) = d := by omega
      exact_mod_cast this
    rw [abs_le]
    constructor <;> nlinarith
  · have h3' : (2 : ℚ) * ((n % d : Nat) : ℚ) = d := by
      have : 2 * (n % d) = d := by omega
      exact_mod_cast this
    push_cast
    rw [abs_le]
    constructor <;> nlinarith

theorem abs_eq_natAbs_div_den (q : ℚ) : |q| = (q.num.natAbs : ℚ) / (q.den : ℚ) := by
  have hden : (0 : ℚ) < q.den := by exact_mod_cast q.den_pos
  conv_lhs => rw [← Rat.num_div_den q]
  rw [abs_div, abs_of_pos hden, Nat.cast_natAbs, Int.cast_abs]

theorem binade_le (a b : Nat) : binade a b ≤ (floorLog2 a : Int) - (floorLog2 b : Int) := by
  unfold binade
  split_ifs <;> omega

theorem quantum_pos (q : ℚ) : 0 < quantum q := twoPow_pos _

theorem quantum_le (q : ℚ) (hq : q ≠ 0) (K : Int) (hK : |q| ≤ twoPow K) :
    quantum q ≤ twoPow (max K (-1022) - 52) := by
  have hnum : 0 < q.num.natAbs := Int.natAbs_pos.mpr (Rat.num_ne_zero.mpr hq)
  have hden : 0 < q.den := q.den_pos
  obtain ⟨ha, _⟩ := floorLog2_spec q.num.natAbs hnum
  obtain ⟨_, hb⟩ := floorLog2_spec q.den hden
  have hdenq : (0 : ℚ) < q.den := by exact_mod_cast hden
  have hlow : twoPow ((floorLog2 q.num.natAbs : Int) - (floorLog2 q.den : Int) - 1) < |q| := by
    rw [abs_eq_natAbs_div_den, lt_div_iff₀ hdenq]
    have hsplit : (floorLog2 q.num.natAbs : Int) - (floorLog2 q.den : Int) - 1 =
        (floorLog2 q.num.natAbs : Int) - ((floorLog2 q.den + 1 : Nat) : Int) := by
      push_cast
      ring
    rw [hsplit, twoPow_sub, twoPow_natCast, twoPow_natCast]
    have hpos : (0 : ℚ) < 2 ^ (floorLog2 q.den + 1) := by positivity
    rw [div_mul_eq_mul_div, div_lt_iff₀ hpos]
    have h2 : (0 : ℚ) < 2 ^ floorLog2 q.num.natAbs := by positivity
    calc (2 : ℚ) ^ floorLog2 q.num.natAbs * q.den
        < 2 ^ floorLog2 q.num.natAbs * 2 ^ (floorLog2 q.den + 1) :=
          mul_lt_mul_of_pos_left hb h2
      _ ≤ (q.num.natAbs : ℚ) * 2 ^ (floorLog2 q.den + 1) :=
          mul_le_mul_of_nonneg_right ha hpos.le
  have hlt : (floorLog2 q.num.natAbs : Int) - (floorLog2 q.den : Int) - 1 < K :=
    (twoPow_lt_iff _ _).mp (lt_of_lt_of_le hlow hK)
  have hbin := binade_le q.num.natAbs q.den
  unfold quantum
  apply twoPow_le
  have : max (binade q.num.natAbs q.den) (-1022) ≤ max K (-1022) :=
    max_le_max (by omega) le_rfl
  omega

theorem roundedMagnitude_close (q : ℚ) :
    |roundedMagnitude q - abs q| ≤ quantum q / 2 := by
  have hqu := quantum_pos q
  have hx0 : 0 ≤ |q| / quantum q := div_nonneg (abs_nonneg q) hqu.le
  have hnum : ((|q| / quantum q).num.natAbs : ℚ) = ((|q| / quantum q).num : ℚ) := by
    rw [Nat.cast_natAbs, Int.cast_abs, abs_of_nonneg]
    exact_mod_cast Rat.num_nonneg.mpr hx0
  have hclose := roundHalfEven_close (|q| / quantum q).num.natAbs (|q| / quantum q).den
    (|q| / quantum q).den_pos
  rw [hnum, Rat.num_div_den] at hclose
  have hsplit : roundedMagnitude q - |q| =
      ((roundHalfEven (|q| / quantum q).num.natAbs (|q| / quantum q).den : ℚ) -
        |q| / quantum q) * quantum q := by
    unfold roundedMagnitude
    field_simp
  rw [hsplit, abs_mul, abs_of_pos hqu]
  calc |(roundHalfEven (|q| / quantum q).num.natAbs (|q| / quantum q).den : ℚ) -
          |q| / quantum q| * quantum q
      ≤ 1 / 2 * quantum q := mul_le_mul_of_nonneg_right hclose hqu.le
    _ = quantum q / 2 := by ring

theorem roundToDouble_close (q : ℚ) (K : Int) (hK1 : -1022 ≤ K) (hK2 : K ≤ 1022)
    (h : |q| ≤ twoPow K) :
    ∃ v, roundToDouble q = .fin v ∧ |v - q| ≤ twoPow (K - 53) := by
  by_cases hq : q = 0
  · refine ⟨0, by simp [roundToDouble, hq], ?_⟩
    rw [hq]
    simpa using (twoPow_pos (K - 53)).le
  · have hquant := quantum_le q hq K h
    rw [max_eq_left hK1] at hquant
    have hclose := roundedMagnitude_close q
    have hhalf : twoPow (K - 52) / 2 = twoPow (K - 53) := by
      have : K - 52 = (K - 53) + 1 := by ring
      rw [this, twoPow_succ]
      ring
    have herr : |roundedMagnitude q - abs q| ≤ twoPow (K - 53) := by
      rw [← hhalf]
      linarith
    have hsmall : twoPow (K - 53) ≤ twoPow K := twoPow_le _ _ (by omega)
    have hnoover : ¬ twoPow 1024 ≤ roundedMagnitude q := by
      have h1 : roundedMagnitude q ≤ |q| + twoPow (K - 53) := by
        have := (abs_le.mp herr).2
        linarith
      have h2 : twoPow (K + 1) ≤ twoPow 1024 := twoPow_le _ _ (by omega)
      have h3 : twoPow (K + 1) = 2 * twoPow K := twoPow_succ K
      have h4 := twoPow_pos (K - 53)
      have h5 : twoPow (K - 53) < twoPow K := (twoPow_lt_iff _ _).mpr (by omega)
      intro hover
      linarith
    by_cases hpos : 0 < q
    · refine ⟨roundedMagnitude q, by simp [roundToDouble, hq, hnoover, hpos], ?_⟩
      rw [abs_of_pos hpos] at herr
      exact herr
    · have hneg : q < 0 := lt_of_le_of_ne (not_lt.mp hpos) hq
      refine ⟨-roundedMagnitude q, by simp [roundToDouble, hq, hnoover, hpos], ?_⟩
      rw [abs_of_neg hneg] at herr
      have : -roundedMagnitude q - q = -(roundedMagnitude q - -q) := by ring
      rw [this, abs_neg]
      exact herr

theorem roundToDouble_near (q : ℚ) (h : |q| ≤ 256) :
    ∃ v, roundToDouble q = .fin v ∧ |v - q| ≤ 1 / 2 ^ 45 := by
  have h8 : twoPow 8 = 256 := by decide!
  have h45 : twoPow (8 - 53) = 1 / 2 ^ 45 := by decide!
  have := roundToDouble_close q 8 (by norm_num) (by norm_num) (by rw [h8]; exact h)
  rwa [h45] at this

/-! ## Progress display -/

theorem getRemainingTimeInDayIST_bounds (tz now : Int) :
    0 ≤ (getRemainingTimeInDayIST tz now).hours ∧ (getRemainingTimeInDayIST tz now).hours ≤ 23 ∧
    0 ≤ (getRemainingTimeInDayIST tz now).minutes ∧
    (getRemainingTimeInDayIST tz now).minutes ≤ 59 := by
  simp only [getRemainingTimeInDayIST, midnight, timeOfDay, localMs, msPerDay, istOffsetMs]
  omega

theorem getRemainingTimeInDayIST_mono (tz now1 now2 : Int) (hle : now1 ≤ now2)
    (hday : istDay now1 = istDay now2) :
    60 * (getRemainingTimeInDayIST tz now2).hours + (getRemainingTimeInDayIST tz now2).minutes ≤
      60 * (getRemainingTimeInDayIST tz now1).hours +
        (getRemainingTimeInDayIST tz now1).minutes := by
  simp only [getRemainingTimeInDayIST, midnight, timeOfDay, localMs, msPerDay, istOffsetMs,
    istDay] at *
  omega

theorem weekdayCountFrom_mono (n : Nat) :
    ∀ (d : Int) (m : Nat), n ≤ m → weekdayCountFrom d n ≤ weekdayCountFrom d m := by
  induction n with
  | zero =>
    intro d m _
    simp [weekdayCountFrom]
  | succ n ih =>
    intro d m hm
    cases m with
    | zero => omega
    | succ m =>
      simp only [weekdayCountFrom]
      have := ih (d + 1) m (by omega)
      omega

theorem loopFuel_mono (s e1 e2 : Int) (h : e1 ≤ e2) : loopFuel s e1 ≤ loopFuel s e2 := by
  simp only [loopFuel, msPerDay]
  omega

theorem calculateWorkingDays_mono (tz s e1 e2 : Int) (h : e1 ≤ e2) :
    calculateWorkingDays tz s e1 ≤ calculateWorkingDays tz s e2 := by
  rw [calculateWorkingDays_eq, calculateWorkingDays_eq]
  exact_mod_cast weekdayCountFrom_mono _ _ _ (loopFuel_mono s e1 e2 h)

theorem calculateWorkingDays_nonneg (tz s e : Int) : 0 ≤ calculateWorkingDays tz s e := by
  rw [calculateWorkingDays_eq]
  exact Int.natCast_nonneg _

theorem updateProgress_started (tz now : Int) (timerId : Nat) (s : Int) (dec : JsNum)
    (T : Int) (radius : JsNum) (h : s < now) :
    (updateProgress tz now timerId (some s) dec T radius).elapsedDays =
        calculateWorkingDays tz s now - 1 ∧
      (updateProgress tz now timerId (some s) dec T radius).remainingDays =
        T - (calculateWorkingDays tz s now - 1) - 1 ∧
      (updateProgress tz now timerId (some s) dec T radius).remainingTimeInCurrentDay =
        getRemainingTimeInDayIST tz now ∧
      (updateProgress tz now timerId (some s) dec T radius).remainingPercentage =
        ((((JsNum.ofInt (T - (calculateWorkingDays tz s now - 1) - 1)).mul dec).add
            ((JsNum.ofInt (getRemainingTimeInDayIST tz now).hours).div (.fin 24))).add
          ((JsNum.ofInt (getRemainingTimeInDayIST tz now).minutes).div
            ((JsNum.fin 24).mul (.fin 60)))).max (.fin 0) ∧
      (updateProgress tz now timerId (some s) dec T radius).textContent =
        toString (T - (calculateWorkingDays tz s now - 1) - 1) ++ " Days " ++
          toString (getRemainingTimeInDayIST tz now).hours ++ " Hours " ++
          toString (getRemainingTimeInDayIST tz now).minutes ++ " Minutes left" := by
  have h' : now > s := h
  simp [updateProgress, h', calculateWorkingDaysOf]

theorem updateProgress_not_started (tz now : Int) (timerId : Nat) (startDate : Option Int)
    (dec : JsNum) (T : Int) (radius : JsNum) (h : ∀ s, startDate = some s → now ≤ s) :
    (updateProgress tz now timerId startDate dec T radius).elapsedDays = 0 ∧
      (updateProgress tz now timerId startDate dec T radius).remainingDays = T ∧
      (updateProgress tz now timerId startDate dec T radius).remainingTimeInCurrentDay =
        { hours := 0, minutes := 0 } ∧
      (updateProgress tz now timerId startDate dec T radius).remainingPercentage =
        ((((JsNum.ofInt T).mul dec).add ((JsNum.ofInt 0).div (.fin 24))).add
          ((JsNum.ofInt 0).div ((JsNum.fin 24).mul (.fin 60)))).max (.fin 0) ∧
      (updateProgress tz now timerId startDate dec T radius).textContent =
        toString T ++ " Days " ++ toString (0 : Int) ++ " Hours " ++ toString (0 : Int) ++
          " Minutes left" := by
  cases startDate with
  | none => simp [updateProgress]
  | some s =>
    have h' : ¬ now > s := not_lt.mpr (h s rfl)
    simp [updateProgress, h']

theorem minutesPerDay_eq : (JsNum.fin 24).mul (.fin 60) = .fin 1440 := by decide!

theorem totalRemaining_near (d : ℚ) (r h m : Int) (hr : |(r : ℚ) * d| ≤ 200)
    (hh0 : 0 ≤ h) (hh : h ≤ 23) (hm0 : 0 ≤ m) (hm : m ≤ 59) :
    ∃ p, (((JsNum.ofInt r).mul (.fin d)).add ((JsNum.ofInt h).div (.fin 24))).add
          ((JsNum.ofInt m).div ((JsNum.fin 24).mul (.fin 60))) = .fin p ∧
      |p - ((r : ℚ) * d + (h : ℚ) / 24 + (m : ℚ) / 1440)| ≤ 5 / 2 ^ 45 := by
  have hhq0 : (0 : ℚ) ≤ h := by exact_mod_cast hh0
  have hhq : (h : ℚ) ≤ 23 := by exact_mod_cast hh
  have hmq0 : (0 : ℚ) ≤ m := by exact_mod_cast hm0
  have hmq : (m : ℚ) ≤ 59 := by exact_mod_cast hm
  have heps : (1 : ℚ) / 2 ^ 45 ≤ 1 := by norm_num
  obtain ⟨v1, e1, b1⟩ := roundToDouble_near ((r : ℚ) * d) (by linarith)
  obtain ⟨v2, e2, b2⟩ := roundToDouble_near ((h : ℚ) / 24) (by
    rw [abs_le]
    constructor
    · have : (0 : ℚ) ≤ (h : ℚ) / 24 := by positivity
      linarith
    · rw [div_le_iff₀ (by norm_num)]
      linarith)
  have hv1 := abs_le.mp b1
  have hv2 := abs_le.mp b2
  have hr' := abs_le.mp hr
  have hh24 : (0 : ℚ) ≤ (h : ℚ) / 24 ∧ (h : ℚ) / 24 ≤ 1 := by
    constructor
    · positivity
    · rw [div_le_iff₀ (by norm_num)]
      linarith
  have hm1440 : (0 : ℚ) ≤ (m : ℚ) / 1440 ∧ (m : ℚ) / 1440 ≤ 1 := by
    constructor
    · positivity
    · rw [div_le_iff₀ (by norm_num)]
      linarith
  obtain ⟨v3, e3, b3⟩ := roundToDouble_near (v1 + v2) (by
    rw [abs_le]
    constructor <;> linarith [hv1.1, hv1.2, hv2.1, hv2.2, hr'.1, hr'.2, hh24.1, hh24.2])
  obtain ⟨v4, e4, b4⟩ := roundToDouble_near ((m : ℚ) / 1440) (by
    rw [abs_le]
    constructor <;> linarith [hm1440.1, hm1440.2])
  have hv3 := abs_le.mp b3
  have hv4 := abs_le.mp b4
  obtain ⟨v5, e5, b5⟩ := roundToDouble_near (v3 + v4) (by
    rw [abs_le]
    constructor <;>
      linarith [hv1.1, hv1.2, hv2.1, hv2.2, hv3.1, hv3.2, hv4.1, hv4.2, hr'.1, hr'.2,
        hh24.1, hh24.2, hm1440.1, hm1440.2])
  have hv5 := abs_le.mp b5
  refine ⟨v5, ?_, ?_⟩
  · have h24 : ¬ ((24 : ℚ) = 0) := by norm_num
    have h1440 : ¬ ((1440 : ℚ) = 0) := by norm_num
    have hmul : (JsNum.ofInt r).mul (.fin d) = .fin v1 := by
      simp only [JsNum.ofInt, JsNum.mul, e1]
    have hdiv1 : (JsNum.ofInt h).div (.fin 24) = .fin v2 := by
      simp only [JsNum.ofInt, JsNum.div, if_neg h24, e2]
    have hadd1 : (JsNum.fin v1).add (.fin v2) = .fin v3 := by
      simp only [JsNum.add, e3]
    have hdiv2 : (JsNum.ofInt m).div (.fin 1440) = .fin v4 := by
      simp only [JsNum.ofInt, JsNum.div, if_neg h1440, e4]
    have hadd2 : (JsNum.fin v3).add (.fin v4) = .fin v5 := by
      simp only [JsNum.add, e5]
    rw [minutesPerDay_eq, hmul, hdiv1, hadd1, hdiv2, hadd2]
  · rw [abs_le]
    constructor <;>
      linarith [hv1.1, hv1.2, hv2.1, hv2.2, hv3.1, hv3.2, hv4.1, hv4.2, hv5.1, hv5.2]

theorem percentage_mono (d : ℚ) (r r' h h' m m' : Int) (hd : 1 / 2 ^ 20 ≤ d)
    (hr0 : 0 ≤ r') (hrr : r' ≤ r) (hrd : (r : ℚ) * d ≤ 200)
    (hh0 : 0 ≤ h) (hh : h ≤ 23) (hm0 : 0 ≤ m) (hm : m ≤ 59)
    (hh0' : 0 ≤ h') (hh' : h' ≤ 23) (hm0' : 0 ≤ m') (hm' : m' ≤ 59)
    (hM : 60 * h' + m' ≤ 60 * h + m) :
    JsNum.le
      (((((JsNum.ofInt r').mul (.fin d)).add ((JsNum.ofInt h').div (.fin 24))).add
        ((JsNum.ofInt m').div ((JsNum.fin 24).mul (.fin 60)))).max (.fin 0))
      (((((JsNum.ofInt r).mul (.fin d)).add ((JsNum.ofInt h).div (.fin 24))).add
        ((JsNum.ofInt m).div ((JsNum.fin 24).mul (.fin 60)))).max (.fin 0)) = true := by
  have hdpos : (0 : ℚ) < d := lt_of_lt_of_le (by norm_num) hd
  have hrq0 : (0 : ℚ) ≤ r' := by exact_mod_cast hr0
  have hrrq : (r' : ℚ) ≤ r := by exact_mod_cast hrr
  have hrd' : (r' : ℚ) * d ≤ (r : ℚ) * d := mul_le_mul_of_nonneg_right hrrq hdpos.le
  have hr'd0 : (0 : ℚ) ≤ (r' : ℚ) * d := mul_nonneg hrq0 hdpos.le
  obtain ⟨p, hp, bp⟩ := totalRemaining_near d r h m
    (by rw [abs_le]; constructor <;> linarith) hh0 hh hm0 hm
  obtain ⟨p', hp', bp'⟩ := totalRemaining_near d r' h' m'
    (by rw [abs_le]; constructor <;> linarith) hh0' hh' hm0' hm'
  rw [hp, hp']
  by_cases hsame : r' = r ∧ h' = h ∧ m' = m
  · obtain ⟨h1, h2, h3⟩ := hsame
    subst h1 h2 h3
    have : p' = p := by
      have := hp.symm.trans hp'
      exact (JsNum.fin.inj this).symm
    subst this
    simp [JsNum.max, JsNum.le]
  · have hMq : (60 : ℚ) * h' + m' ≤ 60 * h + m := by exact_mod_cast hM
    have hgap : ((r' : ℚ) * d + (h' : ℚ) / 24 + (m' : ℚ) / 1440) + 10 / 2 ^ 45 ≤
        (r : ℚ) * d + (h : ℚ) / 24 + (m : ℚ) / 1440 := by
      rcases lt_or_eq_of_le hrr with hlt | heq
      · have h1 : (r' : ℚ) + 1 ≤ r := by exact_mod_cast hlt
        have h2 : ((r' : ℚ) + 1) * d ≤ (r : ℚ) * d := mul_le_mul_of_nonneg_right h1 hdpos.le
        have h3 : (10 : ℚ) / 2 ^ 45 ≤ 1 / 2 ^ 20 := by norm_num
        have h4 : (h' : ℚ) / 24 + (m' : ℚ) / 1440 ≤ (h : ℚ) / 24 + (m : ℚ) / 1440 := by
          linarith
        nlinarith
      · have hne : 60 * h' + m' ≠ 60 * h + m := by
          intro hMeq
          apply hsame
          refine ⟨heq, ?_, ?_⟩ <;> omega
        have hlt : 60 * h' + m' + 1 ≤ 60 * h + m := by omega
        have hltq : (60 : ℚ) * h' + m' + 1 ≤ 60 * h + m := by exact_mod_cast hlt
        have h3 : (10 : ℚ) / 2 ^ 45 ≤ 1 / 1440 := by norm_num
        have hreq : (r' : ℚ) = r := by exact_mod_cast heq
        rw [hreq]
        linarith
    have hle : p' ≤ p := by
      have b1 := abs_le.mp bp
      have b2 := abs_le.mp bp'
      linarith [b1.1, b2.2]
    simp only [JsNum.max, JsNum.le, decide_eq_true_eq]
    exact max_le_max hle le_rfl

theorem decrement_near (T : Int) (hT1 : 1 ≤ T) :
    ∃ d, (JsNum.fin 100).div (.ofInt T) = .fin d ∧ |d - 100 / (T : ℚ)| ≤ 1 / 2 ^ 45 := by
  have hTq : (1 : ℚ) ≤ T := by exact_mod_cast hT1
  have hTpos : (0 : ℚ) < T := by linarith
  have hTne : ¬ ((T : ℚ) = 0) := ne_of_gt hTpos
  obtain ⟨d, hd, bd⟩ := roundToDouble_near (100 / (T : ℚ)) (by
    rw [abs_of_pos (by positivity), div_le_iff₀ hTpos]
    linarith)
  exact ⟨d, by simp only [JsNum.ofInt, JsNum.div, if_neg hTne, hd], bd⟩

/-- C17, as stated, fails: on a host in Asia/Kolkata, for an activity of ten
working days starting Monday 2023-01-02, the remaining percentage is 50 on
Friday at 23:59:30 and about 50.9993 one minute later, on Saturday at 00:00:30. -/
theorem updateProgress_monotone_counterexample :
    ¬ ∀ (tz start stop now1 now2 : Int) (timerId : Nat) (radius : JsNum),
        0 < calculateWorkingDays tz start stop → start ≤ now1 → now1 ≤ now2 → now2 ≤ stop →
        JsNum.le
          (updateProgress tz now2 timerId (some start)
            ((JsNum.fin 100).div (.ofInt (calculateWorkingDays tz start stop)))
            (calculateWorkingDays tz start stop) radius).remainingPercentage
          (updateProgress tz now1 timerId (some start)
            ((JsNum.fin 100).div (.ofInt (calculateWorkingDays tz start stop)))
            (calculateWorkingDays tz start stop) radius).remainingPercentage = true := by
  intro h
  have h0 := h (-330) 1672617600000 1673568000000 1673029770000 1673029830000 2 (.fin 160)
    (by decide) (by decide) (by decide) (by decide)
  revert h0
  decide!

/-- C17, amended: holding the calendar fixed, with a total of at most 1000000
working days and `decrementPerDay = 100 / totalDays`, for instants
`activityStart < now1 ≤ now2 ≤ activityEnd` that lie in the same calendar day
of Asia/Kolkata the remaining percentage computed by `updateProgress` at `now2`
is at most the one computed at `now1`. -/
theorem updateProgress_monotone_within_day (tz start stop now1 now2 : Int) (timerId : Nat)
    (radius : JsNum)
    (hT1 : 1 ≤ calculateWorkingDays tz start stop)
    (hT2 : calculateWorkingDays tz start stop ≤ 1000000)
    (h1 : start < now1) (h12 : now1 ≤ now2) (h2 : now2 ≤ stop)
    (hday : istDay now1 = istDay now2) :
    JsNum.le
      (updateProgress tz now2 timerId (some start)
        ((JsNum.fin 100).div (.ofInt (calculateWorkingDays tz start stop)))
        (calculateWorkingDays tz start stop) radius).remainingPercentage
      (updateProgress tz now1 timerId (some start)
        ((JsNum.fin 100).div (.ofInt (calculateWorkingDays tz start stop)))
        (calculateWorkingDays tz start stop) radius).remainingPercentage = true := by
  obtain ⟨d, hd, bd⟩ := decrement_near (calculateWorkingDays tz start stop) hT1
  have hTq1 : (1 : ℚ) ≤ (calculateWorkingDays tz start stop : ℚ) := by exact_mod_cast hT1
  have hTq2 : (calculateWorkingDays tz start stop : ℚ) ≤ 1000000 := by exact_mod_cast hT2
  have hTpos : (0 : ℚ) < (calculateWorkingDays tz start stop : ℚ) := by linarith
  have hbd := abs_le.mp bd
  have hquot : 100 / (1000000 : ℚ) ≤ 100 / (calculateWorkingDays tz start stop : ℚ) :=
    div_le_div_of_nonneg_left (by norm_num) hTpos hTq2
  have hdlow : (1 : ℚ) / 2 ^ 20 ≤ d := by
    have : (1 : ℚ) / 2 ^ 20 + 1 / 2 ^ 45 ≤ 100 / 1000000 := by norm_num
    linarith [hbd.1]
  have hdpos : (0 : ℚ) < d := lt_of_lt_of_le (by norm_num) hdlow
  have hTd : (calculateWorkingDays tz start stop : ℚ) * d ≤ 200 := by
    have hmul : (calculateWorkingDays tz start stop : ℚ) *
        (100 / (calculateWorkingDays tz start stop : ℚ)) = 100 := by
      field_simp
    have hup : d ≤ 100 / (calculateWorkingDays tz start stop : ℚ) + 1 / 2 ^ 45 := by
      linarith [hbd.2]
    have := mul_le_mul_of_nonneg_left hup hTpos.le
    rw [mul_add, hmul] at this
    have hsmall : (calculateWorkingDays tz start stop : ℚ) * (1 / 2 ^ 45) ≤ 100 := by
      nlinarith
    linarith
  have hc1 := calculateWorkingDays_nonneg tz start now1
  have hc12 := calculateWorkingDays_mono tz start now1 now2 h12
  have hc2 := calculateWorkingDays_mono tz start now2 stop h2
  have hb1 := getRemainingTimeInDayIST_bounds tz now1
  have hb2 := getRemainingTimeInDayIST_bounds tz now2
  have hmono := getRemainingTimeInDayIST_mono tz now1 now2 h12 hday
  rw [(updateProgress_started tz now2 timerId start _ _ radius (by omega)).2.2.2.1,
    (updateProgress_started tz now1 timerId start _ _ radius h1).2.2.2.1, hd]
  refine percentage_mono d _ _ _ _ _ _ hdlow (by omega) (by omega) ?_ hb1.1 hb1.2.1 hb1.2.2.1
    hb1.2.2.2 hb2.1 hb2.2.1 hb2.2.2.1 hb2.2.2.2 hmono
  have hr1 : ((calculateWorkingDays tz start stop - (calculateWorkingDays tz start now1 - 1) - 1 :
      Int) : ℚ) ≤ (calculateWorkingDays tz start stop : ℚ) := by
    exact_mod_cast (by omega :
      calculateWorkingDays tz start stop - (calculateWorkingDays tz start now1 - 1) - 1 ≤
        calculateWorkingDays tz start stop)
  calc ((calculateWorkingDays tz start stop - (calculateWorkingDays tz start now1 - 1) - 1 :
          Int) : ℚ) * d
      ≤ (calculateWorkingDays tz start stop : ℚ) * d :=
        mul_le_mul_of_nonneg_right hr1 hdpos.le
    _ ≤ 200 := hTd

/-- Witness for the amended C17 on a host in Asia/Kolkata: within Friday
2023-01-06, from 10:00 to 23:59:30 local time, the remaining percentage of the
ten-day activity does not rise. -/
theorem updateProgress_monotone_within_day_witness :
    JsNum.le
      (updateProgress (-330) 1673029770000 2 (some 1672617600000)
        ((JsNum.fin 100).div (.ofInt (calculateWorkingDays (-330) 1672617600000 1673568000000)))
        (calculateWorkingDays (-330) 1672617600000 1673568000000)
        (.fin 160)).remainingPercentage
      (updateProgress (-330) 1672979400000 2 (some 1672617600000)
        ((JsNum.fin 100).div (.ofInt (calculateWorkingDays (-330) 1672617600000 1673568000000)))
        (calculateWorkingDays (-330) 1672617600000 1673568000000)
        (.fin 160)).remainingPercentage = true :=
  updateProgress_monotone_within_day (-330) 1672617600000 1673568000000 1672979400000
    1673029770000 2 (.fin 160) (by decide) (by decide) (by decide) (by decide) (by decide)
    (by decide)

/-! ## Guards of the window scripts -/

theorem smallBatchTimer_timerId (tz : Int) (act : ArtActivity) (radius : JsNum)
    (s : Option Int) (dec : JsNum) (T : Int) (r : JsNum) :
    RenderEffect.updateProgress 1 s dec T r ∉ smallBatchTimer tz act radius := by
  simp [smallBatchTimer]

theorem handleSmallBatchTimer_timerId (tz now : Int) (pp : List Period) (its : List Iteration)
    (s : Option Int) (dec : JsNum) (T : Int) (r : JsNum) :
    RenderEffect.updateProgress 1 s dec T r ∉
      (PrimaryWindow.handleSmallBatchTimer tz now pp its).effects := by
  unfold PrimaryWindow.handleSmallBatchTimer
  cases hres : identifyCurrentArtActivity tz now pp its with
  | error e => simp
  | ok found =>
    cases found with
    | none => simp
    | some act => simpa using smallBatchTimer_timerId tz act (.fin 160) s dec T r

/-- C15: when the ART total `calculateWorkingDays(artStartDate, artEndDate)` is
zero or negative, `mainHandler` only reports the error and returns: it does not
divide, does not call `updateProgress`, sets no interval and does not start the
small batch timer; and whenever `mainHandler` calls `updateProgress` for the
ART timer (timer 1), the total it divides 100 by is positive and the quotient
is a finite number. -/
theorem mainHandler_guard (tz now : Int) (artStartDate artEndDate : Option Int)
    (pp : List Period) (its : List Iteration) :
    (calculateWorkingDaysOf tz artStartDate artEndDate ≤ 0 →
      PrimaryWindow.mainHandler tz now artStartDate artEndDate pp its =
        ⟨[.consoleError "Invalid ART dates. Please check the input parameters."], none⟩) ∧
    (∀ (s : Option Int) (dec : JsNum) (T : Int) (r : JsNum),
      RenderEffect.updateProgress 1 s dec T r ∈
          (PrimaryWindow.mainHandler tz now artStartDate artEndDate pp its).effects →
        0 < T ∧ T = calculateWorkingDaysOf tz artStartDate artEndDate ∧
          dec = (JsNum.fin 100).div (.ofInt T) ∧ ∃ q, dec = .fin q) := by
  constructor
  · intro h
    simp [PrimaryWindow.mainHandler, h]
  · intro s dec T r hmem
    by_cases h : calculateWorkingDaysOf tz artStartDate artEndDate ≤ 0
    · simp [PrimaryWindow.mainHandler, h] at hmem
    · simp only [PrimaryWindow.mainHandler, if_neg h, List.cons_append, List.nil_append,
        List.mem_cons] at hmem
      rcases hmem with hmem | hmem | hmem
      · injection hmem with _ hs hdec hT hr
        subst hT
        refine ⟨by omega, rfl, hdec, ?_⟩
        obtain ⟨d, hd, _⟩ := decrement_near (calculateWorkingDaysOf tz artStartDate artEndDate)
          (by omega)
        exact ⟨d, by rw [hdec, hd]⟩
      · cases hmem
      · exact absurd hmem (handleSmallBatchTimer_timerId tz now pp its s dec T r)

/-- Witness for C15: with the ART window running from Friday 2023-01-06 back to
Monday 2023-01-02 the total is 0 and `mainHandler` only reports the error. -/
theorem mainHandler_guard_witness :
    PrimaryWindow.mainHandler 0 1672750800000 (some 1672963200000) (some 1672617600000)
        sampleWeeks [] =
      ⟨[.consoleError "Invalid ART dates. Please check the input parameters."], none⟩ :=
  (mainHandler_guard 0 1672750800000 (some 1672963200000) (some 1672617600000)
    sampleWeeks []).1 (by decide)

/-- C16 fails on the code: on Saturday 2023-01-14 (UTC), with the current
activity an iteration from that Saturday to the Sunday after it, both copies of
`handleSmallBatchTimer` compute a total of 0 working days, divide 100 by it and
call `updateProgress` with `decrementPerDay = Infinity`, which then computes
`0 * Infinity = NaN` as the remaining percentage. -/
theorem handleSmallBatchTimer_divides_by_zero :
    PrimaryWindow.handleSmallBatchTimer 0 1673697600000 sampleWeeks [weekendIteration] =
      ⟨[.updateProgress 2 (some 1673654400000) .posInf 0 (.fin 160),
          .setInterval 2 (some 1673654400000) .posInf 0 (.fin 160) 86400000,
          .setTextContent "timer2-description" "Weekend"], none⟩ ∧
    SecondaryWindow.handleSmallBatchTimer 0 1673697600000 sampleWeeks [weekendIteration] =
      ⟨[.consoleLog "Handling Small Batch Timer", .consoleLog "Current ART Activity:",
          .updateProgress 2 (some 1673654400000) .posInf 0 (.fin 80),
          .setInterval 2 (some 1673654400000) .posInf 0 (.fin 80) 86400000,
          .setTextContent "timer2-description" "Weekend"], none⟩ ∧
    (updateProgress 0 1673697600000 2 (some 1673654400000) .posInf 0
      (.fin 160)).remainingPercentage = .nan ∧
    (updateProgress 0 1673697600000 2 (some 1673654400000) .posInf 0
      (.fin 160)).dashOffset = .nan := by
  refine ⟨by decide!, by decide!, by decide!, by decide!⟩

/-! ## Values shown by `updateProgress` -/

theorem JsNum.max_zero_not_negative (x : JsNum) :
    (x.max (.fin 0)).lt (.fin 0) = false ∧
      (x.max (.fin 0) = .nan ∨ JsNum.le (.fin 0) (x.max (.fin 0)) = true) := by
  cases x <;> simp [JsNum.max, JsNum.lt, JsNum.le]

/-- C18: for every input the remaining percentage of `updateProgress` is
`Math.max(remainingDays * decrementPerDay + hours / 24 + minutes / (24 * 60), 0)`
on the remaining days, hours and minutes it shows; it is never less than 0, and
unless it is `NaN` it is at least 0, also when `remainingDays` is negative. -/
theorem updateProgress_percentage_clamped (tz now : Int) (timerId : Nat)
    (startDate : Option Int) (dec : JsNum) (T : Int) (radius : JsNum) :
    (updateProgress tz now timerId startDate dec T radius).remainingPercentage =
      ((((JsNum.ofInt (updateProgress tz now timerId startDate dec T radius).remainingDays).mul
              dec).add
            ((JsNum.ofInt (updateProgress tz now timerId startDate dec T
              radius).remainingTimeInCurrentDay.hours).div (.fin 24))).add
          ((JsNum.ofInt (updateProgress tz now timerId startDate dec T
            radius).remainingTimeInCurrentDay.minutes).div
              ((JsNum.fin 24).mul (.fin 60)))).max (.fin 0) ∧
    (updateProgress tz now timerId startDate dec T radius).remainingPercentage.lt (.fin 0)
      = false ∧
    ((updateProgress tz now timerId startDate dec T radius).remainingPercentage = .nan ∨
      JsNum.le (.fin 0)
        (updateProgress tz now timerId startDate dec T radius).remainingPercentage = true) ∧
    (updateProgress 0 1675209600000 1 (some 1672617600000) ((JsNum.fin 100).div (.fin 5)) 5
      (.fin 160)).remainingPercentage = .fin 0 := by
  have hform : (updateProgress tz now timerId startDate dec T radius).remainingPercentage =
      ((((JsNum.ofInt (updateProgress tz now timerId startDate dec T radius).remainingDays).mul
              dec).add
            ((JsNum.ofInt (updateProgress tz now timerId startDate dec T
              radius).remainingTimeInCurrentDay.hours).div (.fin 24))).add
          ((JsNum.ofInt (updateProgress tz now timerId startDate dec T
            radius).remainingTimeInCurrentDay.minutes).div
              ((JsNum.fin 24).mul (.fin 60)))).max (.fin 0) := rfl
  refine ⟨hform, ?_, ?_, by decide!⟩
  · rw [hform]
    exact (JsNum.max_zero_not_negative _).1
  · rw [hform]
    exact (JsNum.max_zero_not_negative _).2

/-- C19, as stated, fails at the boundary: at `now = activityStart`, a Monday,
`updateProgress` takes the not-started branch and shows all 10 days, while
`totalDays - calculateWorkingDays(activityStart, now)` is 9. -/
theorem updateProgress_in_progress_counterexample :
    ¬ ∀ (tz start now : Int) (timerId : Nat) (dec : JsNum) (T : Int) (radius : JsNum),
        start ≤ now →
        (updateProgress tz now timerId (some start) dec T radius).remainingDays =
          T - calculateWorkingDays tz start now := by
  intro h
  have h0 := h 0 1672617600000 1672617600000 2 (.fin 10) 10 (.fin 160) (by decide)
  revert h0
  decide

/-- C19, amended: for every `now` after `activityStart`, `updateProgress` computes
`elapsedDays = calculateWorkingDays(activityStart, now) - 1` and
`remainingDays = totalDays - elapsedDays - 1`, which is
`totalDays - calculateWorkingDays(activityStart, now)`, takes the hours and
minutes from `getRemainingTimeInDayIST`, and shows the remaining days, hours and
minutes followed by `Days`, `Hours` and `Minutes left`; at `now = activityStart`
it is still in the not-started branch and shows `totalDays` days, 0 hours and 0
minutes. -/
theorem updateProgress_in_progress (tz start now : Int) (timerId : Nat) (dec : JsNum)
    (T : Int) (radius : JsNum) (h : start < now) :
    (updateProgress tz now timerId (some start) dec T radius).elapsedDays =
      calculateWorkingDays tz start now - 1 ∧
    (updateProgress tz now timerId (some start) dec T radius).remainingDays =
      T - (updateProgress tz now timerId (some start) dec T radius).elapsedDays - 1 ∧
    (updateProgress tz now timerId (some start) dec T radius).remainingDays =
      T - calculateWorkingDays tz start now ∧
    (updateProgress tz now timerId (some start) dec T radius).remainingTimeInCurrentDay =
      getRemainingTimeInDayIST tz now ∧
    (updateProgress tz now timerId (some start) dec T radius).textContent =
      toString (T - calculateWorkingDays tz start now) ++ " Days " ++
        toString (getRemainingTimeInDayIST tz now).hours ++ " Hours " ++
        toString (getRemainingTimeInDayIST tz now).minutes ++ " Minutes left" ∧
    (updateProgress tz start timerId (some start) dec T radius).remainingDays = T ∧
    (updateProgress tz start timerId (some start) dec T radius).remainingTimeInCurrentDay =
      { hours := 0, minutes := 0 } := by
  obtain ⟨h1, h2, h3, _, h5⟩ := updateProgress_started tz now timerId start dec T radius h
  obtain ⟨_, g2, g3, _, _⟩ := updateProgress_not_started tz start timerId (some start) dec T
    radius (by
      intro s hs
      cases hs
      exact le_rfl)
  have hsimp : T - (calculateWorkingDays tz start now - 1) - 1 =
      T - calculateWorkingDays tz start now := by omega
  refine ⟨h1, ?_, ?_, h3, ?_, g2, g3⟩
  · rw [h2, h1]
  · rw [h2, hsimp]
  · rw [h5, hsimp]

/-- Witness for the amended C19 in UTC: on Wednesday 2023-01-04 at 10:00 (15:30 in
Asia/Kolkata), three working days into a ten-day activity that started on
Monday, 7 days are left. -/
theorem updateProgress_in_progress_witness :
    (updateProgress 0 1672826400000 2 (some 1672617600000) (.fin 10) 10
      (.fin 160)).remainingDays = 7 ∧
    (updateProgress 0 1672826400000 2 (some 1672617600000) (.fin 10) 10
      (.fin 160)).textContent = "7 Days 8 Hours 29 Minutes left" :=
  ⟨(updateProgress_in_progress 0 1672617600000 1672826400000 2 (.fin 10) 10 (.fin 160)
      (by decide)).2.2.1.trans (by decide),
    (updateProgress_in_progress 0 1672617600000 1672826400000 2 (.fin 10) 10 (.fin 160)
      (by decide)).2.2.2.2.1.trans (by decide)⟩

theorem zero_hours_eq : (JsNum.ofInt 0).div (.fin 24) = .fin 0 := by decide!

theorem zero_minutes_eq : (JsNum.ofInt 0).div ((JsNum.fin 24).mul (.fin 60)) = .fin 0 := by
  decide!

theorem full_circle_eq :
    (JsNum.fin 1).sub ((((JsNum.fin 100).add (.fin 0)).add (.fin 0)).max (.fin 0) |>.div
      (.fin 100)) = .fin 0 ∧
    (((JsNum.fin 100).add (.fin 0)).add (.fin 0)).max (.fin 0) = .fin 100 := by
  constructor <;> decide!

/-- C20, as stated, fails: with `totalDays = 11` the product
`11 * (100 / 11)` is `100 + 2 ^ (-46)` in double arithmetic, so before the start
the remaining percentage is not exactly 100 and the dash offset is not 0. -/
theorem updateProgress_not_started_counterexample :
    ¬ ∀ (tz start now : Int) (timerId : Nat) (T : Int) (radius : JsNum),
        now < start → 0 < T →
        (updateProgress tz now timerId (some start) ((JsNum.fin 100).div (.ofInt T)) T
          radius).remainingPercentage = .fin 100 := by
  intro h
  have h0 := h 0 1672617600000 0 2 11 (.fin 160) (by decide) (by decide)
  revert h0
  decide!

/-- C20, amended: for every `now` not after `activityStart`, `updateProgress`
shows the full count, `remainingDays = totalDays` with 0 hours and 0 minutes and
the text `<totalDays> Days 0 Hours 0 Minutes left`; the remaining percentage is
the double product `totalDays * decrementPerDay` (plus two zero terms): when
that product is exactly 100 the percentage is exactly 100 and the dash offset of
a finite circumference is 0, and for `decrementPerDay = 100 / totalDays` with
`1 ≤ totalDays ≤ 1000000` the percentage is finite and within `2 ^ (-24)` of 100. -/
theorem updateProgress_not_started_full (tz start now : Int) (timerId : Nat) (dec : JsNum)
    (T : Int) (radius : JsNum) (h : now ≤ start) :
    (updateProgress tz now timerId (some start) dec T radius).remainingDays = T ∧
    (updateProgress tz now timerId (some start) dec T radius).remainingTimeInCurrentDay =
      { hours := 0, minutes := 0 } ∧
    (updateProgress tz now timerId (some start) dec T radius).textContent =
      toString T ++ " Days 0 Hours 0 Minutes left" ∧
    ((JsNum.ofInt T).mul dec = .fin 100 →
      (updateProgress tz now timerId (some start) dec T radius).remainingPercentage = .fin 100 ∧
      ∀ c, (updateProgress tz now timerId (some start) dec T radius).circumference = .fin c →
        (updateProgress tz now timerId (some start) dec T radius).dashOffset = .fin 0) ∧
    (1 ≤ T → T ≤ 1000000 → dec = (JsNum.fin 100).div (.ofInt T) →
      ∃ p, (updateProgress tz now timerId (some start) dec T radius).remainingPercentage =
          .fin p ∧ |p - 100| ≤ 1 / 2 ^ 24) := by
  obtain ⟨_, g2, g3, g4, g5⟩ := updateProgress_not_started tz now timerId (some start) dec T
    radius (by
      intro s hs
      cases hs
      exact h)
  refine ⟨g2, g3, ?_, ?_, ?_⟩
  · rw [g5]
    simp only [String.append_assoc]
    rfl
  · intro hprod
    have hpct : (updateProgress tz now timerId (some start) dec T radius).remainingPercentage =
        .fin 100 := by
      rw [g4, hprod, zero_hours_eq, zero_minutes_eq]
      exact full_circle_eq.2
    refine ⟨hpct, ?_⟩
    intro c hc
    have hoff : (updateProgress tz now timerId (some start) dec T radius).dashOffset =
        (updateProgress tz now timerId (some start) dec T radius).circumference.mul
          ((JsNum.fin 1).sub
            ((updateProgress tz now timerId (some start) dec T radius).remainingPercentage.div
              (.fin 100))) := rfl
    have hone : (JsNum.fin 1).sub ((JsNum.fin 100).div (.fin 100)) = .fin 0 := by decide!
    rw [hoff, hc, hpct, hone]
    simp [JsNum.mul, roundToDouble]
  · intro hT1 hT2 hdec
    obtain ⟨d, hd, bd⟩ := decrement_near T hT1
    have hTq1 : (1 : ℚ) ≤ (T : ℚ) := by exact_mod_cast hT1
    have hTq2 : (T : ℚ) ≤ 1000000 := by exact_mod_cast hT2
    have hTpos : (0 : ℚ) < (T : ℚ) := by linarith
    have hbd := abs_le.mp bd
    have hmul : (T : ℚ) * (100 / (T : ℚ)) = 100 := by field_simp
    have hTd1 : (T : ℚ) * d ≤ 100 + (T : ℚ) * (1 / 2 ^ 45) := by
      have hup : d ≤ 100 / (T : ℚ) + 1 / 2 ^ 45 := by linarith [hbd.2]
      have := mul_le_mul_of_nonneg_left hup hTpos.le
      rwa [mul_add, hmul] at this
    have hTd2 : 100 - (T : ℚ) * (1 / 2 ^ 45) ≤ (T : ℚ) * d := by
      have hlow : 100 / (T : ℚ) - 1 / 2 ^ 45 ≤ d := by linarith [hbd.1]
      have := mul_le_mul_of_nonneg_left hlow hTpos.le
      rwa [mul_sub, hmul] at this
    have hsmall : (T : ℚ) * (1 / 2 ^ 45) ≤ 1000000 * (1 / 2 ^ 45) :=
      mul_le_mul_of_nonneg_right hTq2 (by norm_num)
    have hnum : (1000000 : ℚ) * (1 / 2 ^ 45) + 5 / 2 ^ 45 ≤ 1 / 2 ^ 24 := by norm_num
    have hnum2 : (1 : ℚ) / 2 ^ 24 ≤ 1 := by norm_num
    obtain ⟨p, hp, bp⟩ := totalRemaining_near d T 0 0
      (by rw [abs_le]; constructor <;> linarith) le_rfl (by norm_num) le_rfl (by norm_num)
    have hbp := abs_le.mp bp
    simp only [Int.cast_zero, zero_div, add_zero] at hbp
    have hp100 : |p - 100| ≤ 1 / 2 ^ 24 := by
      rw [abs_le]
      constructor <;> linarith [hbp.1, hbp.2]
    have hppos : 0 ≤ p := by
      have := (abs_le.mp hp100).1
      linarith
    refine ⟨p, ?_, hp100⟩
    rw [g4, hdec, hd, hp]
    simp [JsNum.max, max_eq_left hppos]

/-- Witness for the amended C20: the day before a ten-day activity starts the
display reads 10 days, and with `decrementPerDay = 100 / 10` the percentage is
exactly 100 and the dash offset 0. -/
theorem updateProgress_not_started_full_witness :
    (updateProgress 0 1672531200000 2 (some 1672617600000) ((JsNum.fin 100).div (.fin 10)) 10
        (.fin 160)).textContent = "10 Days 0 Hours 0 Minutes left" ∧
      (updateProgress 0 1672531200000 2 (some 1672617600000) ((JsNum.fin 100).div (.fin 10)) 10
        (.fin 160)).remainingPercentage = .fin 100 :=
  ⟨(updateProgress_not_started_full 0 1672617600000 1672531200000 2
      ((JsNum.fin 100).div (.fin 10)) 10 (.fin 160) (by decide)).2.2.1,
    ((updateProgress_not_started_full 0 1672617600000 1672531200000 2
      ((JsNum.fin 100).div (.fin 10)) 10 (.fin 160) (by decide)).2.2.2.1 (by decide!)).1⟩

/-! ## After the end of an activity -/

/-- C21: for `activityStart ≤ activityEnd < now` and
`totalDays = calculateWorkingDays(activityStart, activityEnd)`, the
`remainingDays` of `updateProgress` is
`totalDays - calculateWorkingDays(activityStart, now)` and is at most 0, because
`calculateWorkingDays` does not decrease when its end argument grows. -/
theorem updateProgress_after_end (tz start stop now : Int) (timerId : Nat) (dec : JsNum)
    (radius : JsNum) (h1 : start ≤ stop) (h2 : stop < now) :
    (updateProgress tz now timerId (some start) dec (calculateWorkingDays tz start stop)
        radius).remainingDays =
      calculateWorkingDays tz start stop - calculateWorkingDays tz start now ∧
    (updateProgress tz now timerId (some start) dec (calculateWorkingDays tz start stop)
        radius).remainingDays ≤ 0 ∧
    calculateWorkingDays tz start stop ≤ calculateWorkingDays tz start now := by
  have hmono := calculateWorkingDays_mono tz start stop now (le_of_lt h2)
  have hrem := (updateProgress_started tz now timerId start dec
    (calculateWorkingDays tz start stop) radius (by omega)).2.1
  refine ⟨?_, ?_, hmono⟩
  · rw [hrem]
    omega
  · rw [hrem]
    omega

/-- Witness for C21 in UTC: for the week Monday 2023-01-02 to Friday 2023-01-06,
on the Wednesday after it the remaining days are 5 - 8 = -3. -/
theorem updateProgress_after_end_witness :
    (updateProgress 0 1673431200000 2 (some 1672617600000) (.fin 20)
        (calculateWorkingDays 0 1672617600000 1672963200000) (.fin 160)).remainingDays = -3 :=
  (updateProgress_after_end 0 1672617600000 1672963200000 1673431200000 2 (.fin 20) (.fin 160)
    (by decide) (by decide)).1.trans (by decide)

/-! ## Time left in the day -/

/-- On a host whose timezone offset is constant, with `wall` the milliseconds of
the current Asia/Kolkata day that have passed, `getRemainingTimeInDayIST`
returns `hours = 23 - h` and `minutes = 59 - m` for the wall-clock hour `h` and
minute `m`, both within their ranges, and `hours * 60 + minutes` is the whole
number of minutes from the current instant to 23:59:59.999 of that day; at
15:30:00 it returns 8 hours and 29 minutes. -/
theorem getRemainingTimeInDayIST_spec (tz now : Int) :
    (getRemainingTimeInDayIST tz now).hours =
      23 - (now + istOffsetMs) % msPerDay / 3600000 ∧
    (getRemainingTimeInDayIST tz now).minutes =
      59 - (now + istOffsetMs) % msPerDay % 3600000 / 60000 ∧
    0 ≤ (getRemainingTimeInDayIST tz now).hours ∧ (getRemainingTimeInDayIST tz now).hours ≤ 23 ∧
    0 ≤ (getRemainingTimeInDayIST tz now).minutes ∧
    (getRemainingTimeInDayIST tz now).minutes ≤ 59 ∧
    (getRemainingTimeInDayIST tz now).hours * 60 + (getRemainingTimeInDayIST tz now).minutes =
      (86399999 - (now + istOffsetMs) % msPerDay) / 60000 ∧
    getRemainingTimeInDayIST 0 1672826400000 = { hours := 8, minutes := 29 } := by
  refine ⟨?_, ?_, ?_, ?_, ?_, ?_, ?_, by decide⟩ <;>
    simp only [getRemainingTimeInDayIST, midnight, timeOfDay, localMs, msPerDay, istOffsetMs] <;>
    omega

/-! ## Countdown text -/

/-- C26: for a non-negative whole number of milliseconds, with
`s = floor(ms / 1000)`, `d = floor(s / 86400)`, `h = floor((s mod 86400) / 3600)`
and `m = floor((s mod 3600) / 60)`, `formatTimeRemaining` returns the days,
hours and minutes followed by `d`, `h` and `m` when `d > 0` and the hours and
minutes alone when `d = 0`; `0 ≤ h ≤ 23`, `0 ≤ m ≤ 59` and
`d * 86400 + h * 3600 + m * 60 ≤ s < d * 86400 + h * 3600 + m * 60 + 60`. -/
theorem formatTimeRemaining_spec (ms : Int) (h : 0 ≤ ms) :
    formatTimeRemaining ms =
      (if ms / 1000 / 86400 > 0 then
        toString (ms / 1000 / 86400) ++ "d " ++ toString (ms / 1000 % 86400 / 3600) ++ "h " ++
          toString (ms / 1000 % 3600 / 60) ++ "m"
      else
        toString (ms / 1000 % 86400 / 3600) ++ "h " ++ toString (ms / 1000 % 3600 / 60) ++
          "m") ∧
    0 ≤ ms / 1000 % 86400 / 3600 ∧ ms / 1000 % 86400 / 3600 ≤ 23 ∧
    0 ≤ ms / 1000 % 3600 / 60 ∧ ms / 1000 % 3600 / 60 ≤ 59 ∧
    ms / 1000 / 86400 * 86400 + ms / 1000 % 86400 / 3600 * 3600 + ms / 1000 % 3600 / 60 * 60 ≤
      ms / 1000 ∧
    ms / 1000 <
      ms / 1000 / 86400 * 86400 + ms / 1000 % 86400 / 3600 * 3600 + ms / 1000 % 3600 / 60 * 60 +
        60 := by
  have hs : 0 ≤ ms / 1000 := by omega
  have h1 : (ms / 1000).tmod (24 * 3600) = ms / 1000 % 86400 :=
    Int.tmod_eq_emod hs (by norm_num)
  have h2 : (ms / 1000).tmod 3600 = ms / 1000 % 3600 := Int.tmod_eq_emod hs (by norm_num)
  refine ⟨?_, by omega, by omega, by omega, by omega, by omega, by omega⟩
  simp only [formatTimeRemaining, h1, h2]
  norm_num

/-- Witness for C26: two days give `2d 0h 0m` and three hours give `3h 0m`. -/
theorem formatTimeRemaining_spec_witness :
    formatTimeRemaining (2 * 24 * 60 * 60 * 1000) = "2d 0h 0m" ∧
      formatTimeRemaining (3 * 60 * 60 * 1000) = "3h 0m" :=
  ⟨(formatTimeRemaining_spec (2 * 24 * 60 * 60 * 1000) (by decide)).1.trans (by decide),
    (formatTimeRemaining_spec (3 * 60 * 60 * 1000) (by decide)).1.trans (by decide)⟩

/-! ## Disabled alerts -/

/-- C27: for an alert whose `timerEnabled` is not the string `true` (the string
`false`, the boolean `true`, a missing field, ...) the loop body of
`scheduleAllReminders` only logs the alert, whatever its `alertTime`; a session
without an alerts array contributes no effect; and for every alert the body
arms or fires at most once. -/
theorem scheduleAllReminders_only_enabled (now : Int) (alive : Bool) (s : Session)
    (al : Alert) :
    (al.timerEnabled ≠ .str "true" →
      scheduleAlert now alive s al = [.consoleLog "Found alert:"]) ∧
    (s.alerts = none → scheduleSession now alive s = []) ∧
    ((scheduleAlert now alive s al).filter (fun e => e.isArm || e.isFire)).length ≤ 1 := by
  refine ⟨?_, ?_, ?_⟩
  · intro hne
    simp [scheduleAlert, hne]
  · intro hnone
    simp [scheduleSession, hnone]
  · by_cases hen : al.timerEnabled = .str "true"
    · cases ht : al.alertTime.getTime with
      | none => simp [scheduleAlert, hen, ht, Effect.isArm, Effect.isFire]
      | some t =>
        by_cases h1 : t - now > 0
        · rw [scheduleAlert_armed now t alive s al hen ht h1]
          simp [Effect.isArm, Effect.isFire]
        · by_cases h2 : t - now > -300000
          · rw [scheduleAlert_fired now t alive s al hen ht h2 (by omega)]
            cases alive <;> simp [Effect.isArm, Effect.isFire]
          · rw [scheduleAlert_skipped now t alive s al hen ht (by omega)]
            simp [Effect.isArm, Effect.isFire]
    · simp [scheduleAlert, hen, Effect.isArm, Effect.isFire]

/-- Witness for C27: alerts due now whose `timerEnabled` is the string `false`,
the boolean `true` or missing are only logged. -/
theorem scheduleAllReminders_only_enabled_witness :
    scheduleAlert 1000000 true (sampleSession none)
        { sampleAlert 1000000 with timerEnabled := .str "false" } =
        [.consoleLog "Found alert:"] ∧
      scheduleAlert 1000000 true (sampleSession none)
        { sampleAlert 1000000 with timerEnabled := .bool true } =
        [.consoleLog "Found alert:"] ∧
      scheduleAlert 1000000 true (sampleSession none)
        { sampleAlert 1000000 with timerEnabled := .undefined } =
        [.consoleLog "Found alert:"] ∧
      scheduleSession 1000000 true (sampleSession none) = [] :=
  ⟨(scheduleAllReminders_only_enabled 1000000 true (sampleSession none)
      { sampleAlert 1000000 with timerEnabled := .str "false" }).1 (by decide),
    (scheduleAllReminders_only_enabled 1000000 true (sampleSession none)
      { sampleAlert 1000000 with timerEnabled := .bool true }).1 (by decide),
    (scheduleAllReminders_only_enabled 1000000 true (sampleSession none)
      { sampleAlert 1000000 with timerEnabled := .undefined }).1 (by decide),
    (scheduleAllReminders_only_enabled 1000000 true (sampleSession none)
      (sampleAlert 1000000)).2.1 rfl⟩

/-! ## Whole weeks -/

theorem weekdayCountFrom_add (n : Nat) :
    ∀ (d : Int) (k : Nat),
      weekdayCountFrom d (n + k) = weekdayCountFrom d n + weekdayCountFrom (d + n) k := by
  induction n with
  | zero =>
    intro d k
    simp [weekdayCountFrom]
  | succ n ih =>
    intro d k
    have hnk : n + 1 + k = (n + k) + 1 := by omega
    have hd : d + ((n + 1 : Nat) : Int) = d + 1 + (n : Int) := by
      push_cast
      ring
    rw [hnk, weekdayCountFrom, weekdayCountFrom, ih (d + 1) k, hd]
    omega

theorem weekdayCountFrom_week (d : Int) : weekdayCountFrom d 7 = 5 := by
  simp only [weekdayCountFrom, isWorkingDay, weekdayOfDay]
  split_ifs <;> omega

theorem loopFuel_add_week (s e : Int) (h : s ≤ e) :
    loopFuel s (e + 7 * msPerDay) = loopFuel s e + 7 := by
  simp only [loopFuel, msPerDay]
  omega

/-- On a host whose timezone offset is constant, for `start ≤ end`, moving the
end seven days later adds exactly five to `calculateWorkingDays`, whatever the
weekdays and times of day. -/
theorem calculateWorkingDays_add_week (tz s e : Int) (h : s ≤ e) :
    calculateWorkingDays tz s (e + 7 * msPerDay) = calculateWorkingDays tz s e + 5 := by
  rw [calculateWorkingDays_eq, calculateWorkingDays_eq, loopFuel_add_week s e h,
    weekdayCountFrom_add, weekdayCountFrom_week]
  push_cast
  ring

/-- An instance in UTC: from Monday 2023-01-02 09:00, the count up to
Wednesday 2023-01-11 08:00 is the count up to Wednesday 2023-01-04 08:00 plus 5. -/
theorem calculateWorkingDays_add_week_example :
    calculateWorkingDays 0 1672650000000 (1672819200000 + 7 * msPerDay) = 2 + 5 :=
  calculateWorkingDays_add_week 0 1672650000000 1672819200000 (by decide)

/-! ## Rounding is monotone -/

theorem roundHalfEven_tie (n d : Nat) (hd : 0 < d) :
    |(roundHalfEven n d : ℚ) - (n : ℚ) / (d : ℚ)| < 1 / 2 ∨ roundHalfEven n d % 2 = 0 := by
  have hdq : (0 : ℚ) < d := by exact_mod_cast hd
  have hn : (n : ℚ) = (d : ℚ) * ((n / d : Nat) : ℚ) + ((n % d : Nat) : ℚ) := by
    exact_mod_cast (Nat.div_add_mod n d).symm
  have hr : ((n % d : Nat) : ℚ) < d := by exact_mod_cast Nat.mod_lt n hd
  have hr0 : (0 : ℚ) ≤ ((n % d : Nat) : ℚ) := by positivity
  have key : ∀ R : ℚ, |R * d - n| < d / 2 → |R - (n : ℚ) / d| < 1 / 2 := by
    intro R hR
    have : R - (n : ℚ) / d = (R * d - n) / d := by
      field_simp
    rw [this, abs_div, abs_of_pos hdq, div_lt_iff₀ hdq]
    linarith
  unfold roundHalfEven
  split_ifs with h1 h2 h3
  · left
    apply key
    have h1' : (2 : ℚ) * ((n % d : Nat) : ℚ) < d := by exact_mod_cast h1
    rw [abs_lt]
    constructor <;> nlinarith
  · left
    apply key
    have h2' : (d : ℚ) < 2 * ((n % d : Nat) : ℚ) := by exact_mod_cast h2
    push_cast
    rw [abs_lt]
    constructor <;> nlinarith
  · right
    exact h3
  · right
    omega

theorem roundHalfEven_mono (n1 d1 n2 d2 : Nat) (h1 : 0 < d1) (h2 : 0 < d2)
    (h : (n1 : ℚ) / (d1 : ℚ) ≤ (n2 : ℚ) / (d2 : ℚ)) :
    roundHalfEven n1 d1 ≤ roundHalfEven n2 d2 := by
  by_contra hlt
  have hge : roundHalfEven n2 d2 + 1 ≤ roundHalfEven n1 d1 := by omega
  have hgeq : (roundHalfEven n2 d2 : ℚ) + 1 ≤ (roundHalfEven n1 d1 : ℚ) := by
    exact_mod_cast hge
  have c1 := abs_le.mp (roundHalfEven_close n1 d1 h1)
  have c2 := abs_le.mp (roundHalfEven_close n2 d2 h2)
  have e1 : (roundHalfEven n1 d1 : ℚ) = (roundHalfEven n2 d2 : ℚ) + 1 := by linarith
  have e1n : roundHalfEven n1 d1 = roundHalfEven n2 d2 + 1 := by exact_mod_cast e1
  rcases roundHalfEven_tie n1 d1 h1 with t1 | t1
  · have := abs_lt.mp t1
    linarith
  · rcases roundHalfEven_tie n2 d2 h2 with t2 | t2
    · have := abs_lt.mp t2
      linarith
    · omega

theorem roundHalfEven_natCast (N : Nat) :
    roundHalfEven ((N : ℚ)).num.natAbs ((N : ℚ)).den = N := by
  simp [roundHalfEven, Nat.mod_one]

theorem natAbs_num_div_den (x : ℚ) (hx : 0 ≤ x) : (x.num.natAbs : ℚ) / (x.den : ℚ) = x := by
  rw [← abs_eq_natAbs_div_den, abs_of_nonneg hx]

theorem roundHalfEven_rat_mono (x y : ℚ) (hx : 0 ≤ x) (hxy : x ≤ y) :
    roundHalfEven x.num.natAbs x.den ≤ roundHalfEven y.num.natAbs y.den := by
  apply roundHalfEven_mono _ _ _ _ x.den_pos y.den_pos
  rw [natAbs_num_div_den x hx, natAbs_num_div_den y (le_trans hx hxy)]
  exact hxy

theorem roundHalfEven_le_natCast (x : ℚ) (N : Nat) (hx : 0 ≤ x) (h : x ≤ N) :
    roundHalfEven x.num.natAbs x.den ≤ N := by
  have := roundHalfEven_rat_mono x N hx h
  rwa [roundHalfEven_natCast] at this

theorem natCast_le_roundHalfEven (x : ℚ) (N : Nat) (h : (N : ℚ) ≤ x) :
    N ≤ roundHalfEven x.num.natAbs x.den := by
  have := roundHalfEven_rat_mono N x (by positivity) h
  rwa [roundHalfEven_natCast] at this

theorem binade_lower (a b : Nat) (ha : 0 < a) (hb : 0 < b) :
    twoPow (binade a b) ≤ (a : ℚ) / (b : ℚ) := by
  obtain ⟨ha1, _⟩ := floorLog2_spec a ha
  obtain ⟨_, hb2⟩ := floorLog2_spec b hb
  have hbq : (0 : ℚ) < b := by exact_mod_cast hb
  unfold binade
  split_ifs with h
  · exact h
  · have hsplit : (floorLog2 a : Int) - (floorLog2 b : Int) - 1 =
        (floorLog2 a : Int) - ((floorLog2 b + 1 : Nat) : Int) := by
      push_cast
      ring
    rw [hsplit, twoPow_sub, twoPow_natCast, twoPow_natCast, le_div_iff₀ hbq]
    have hpos : (0 : ℚ) < 2 ^ (floorLog2 b + 1) := by positivity
    rw [div_mul_eq_mul_div, div_le_iff₀ hpos]
    have h2 : (0 : ℚ) < 2 ^ floorLog2 a := by positivity
    calc (2 : ℚ) ^ floorLog2 a * b
        ≤ 2 ^ floorLog2 a * 2 ^ (floorLog2 b + 1) :=
          mul_le_mul_of_nonneg_left hb2.le h2.le
      _ ≤ (a : ℚ) * 2 ^ (floorLog2 b + 1) :=
          mul_le_mul_of_nonneg_right ha1 hpos.le

theorem binade_upper (a b : Nat) (ha : 0 < a) (hb : 0 < b) :
    (a : ℚ) / (b : ℚ) < twoPow (binade a b + 1) := by
  obtain ⟨_, ha2⟩ := floorLog2_spec a ha
  obtain ⟨hb1, _⟩ := floorLog2_spec b hb
  have hbq : (0 : ℚ) < b := by exact_mod_cast hb
  unfold binade
  split_ifs with h
  · have hsplit : (floorLog2 a : Int) - (floorLog2 b : Int) + 1 =
        ((floorLog2 a + 1 : Nat) : Int) - (floorLog2 b : Int) := by
      push_cast
      ring
    rw [hsplit, twoPow_sub, twoPow_natCast, twoPow_natCast, div_lt_iff₀ hbq]
    have hpos : (0 : ℚ) < 2 ^ floorLog2 b := by positivity
    rw [div_mul_eq_mul_div, lt_div_iff₀ hpos]
    have h2 : (0 : ℚ) < 2 ^ (floorLog2 a + 1) := by positivity
    calc (a : ℚ) * 2 ^ floorLog2 b
        < 2 ^ (floorLog2 a + 1) * 2 ^ floorLog2 b :=
          mul_lt_mul_of_pos_right ha2 hpos
      _ ≤ 2 ^ (floorLog2 a + 1) * b :=
          mul_le_mul_of_nonneg_left hb1 h2.le
  · have : (floorLog2 a : Int) - (floorLog2 b : Int) - 1 + 1 =
        (floorLog2 a : Int) - (floorLog2 b : Int) := by ring
    rw [this]
    exact not_le.mp h

theorem quantum_eq (q : ℚ) :
    quantum q = twoPow (max (binade q.num.natAbs q.den) (-1022) - 52) := rfl

theorem quantum_neg (q : ℚ) : quantum (-q) = quantum q := by
  simp [quantum]

theorem roundedMagnitude_neg (q : ℚ) : roundedMagnitude (-q) = roundedMagnitude q := by
  simp [roundedMagnitude, quantum_neg]

theorem roundedMagnitude_nonneg (q : ℚ) : 0 ≤ roundedMagnitude q := by
  unfold roundedMagnitude
  exact mul_nonneg (by positivity) (quantum_pos q).le

theorem binade_abs_lower (q : ℚ) (hq : q ≠ 0) : twoPow (binade q.num.natAbs q.den) ≤ |q| := by
  rw [abs_eq_natAbs_div_den]
  exact binade_lower _ _ (Int.natAbs_pos.mpr (Rat.num_ne_zero.mpr hq)) q.den_pos

theorem binade_abs_upper (q : ℚ) (hq : q ≠ 0) :
    |q| < twoPow (binade q.num.natAbs q.den + 1) := by
  rw [abs_eq_natAbs_div_den]
  exact binade_upper _ _ (Int.natAbs_pos.mpr (Rat.num_ne_zero.mpr hq)) q.den_pos

theorem twoPow_53 : twoPow 53 = ((2 ^ 53 : Nat) : ℚ) := by
  rw [twoPow_eq]
  norm_num

theorem twoPow_52 : twoPow 52 = ((2 ^ 52 : Nat) : ℚ) := by
  rw [twoPow_eq]
  norm_num

theorem twoPow_add (j k : Int) : twoPow (j + k) = twoPow j * twoPow k := by
  rw [twoPow_eq, twoPow_eq, twoPow_eq, zpow_add₀ (by norm_num)]

/-- The rounded magnitude is at most the top of the binade of `q`. -/
theorem roundedMagnitude_le_top (q : ℚ) (hq : q ≠ 0) :
    roundedMagnitude q ≤ twoPow (max (binade q.num.natAbs q.den) (-1022) + 1) := by
  have hu := quantum_pos q
  have hup := binade_abs_upper q hq
  have hE : twoPow (binade q.num.natAbs q.den + 1) ≤
      twoPow (max (binade q.num.natAbs q.den) (-1022) + 1) :=
    twoPow_le _ _ (by omega)
  have htop : twoPow (max (binade q.num.natAbs q.den) (-1022) + 1) =
      twoPow 53 * quantum q := by
    rw [quantum_eq, ← twoPow_add]
    congr 1
    ring
  have hx : |q| / quantum q ≤ ((2 ^ 53 : Nat) : ℚ) := by
    rw [div_le_iff₀ hu, ← twoPow_53, ← htop]
    linarith
  have hR := roundHalfEven_le_natCast (|q| / quantum q) (2 ^ 53)
    (div_nonneg (abs_nonneg q) hu.le) hx
  have hRq : (roundHalfEven (|q| / quantum q).num.natAbs (|q| / quantum q).den : ℚ) ≤
      ((2 ^ 53 : Nat) : ℚ) := by exact_mod_cast hR
  rw [htop, twoPow_53]
  unfold roundedMagnitude
  exact mul_le_mul_of_nonneg_right hRq hu.le

/-- In the normal range the rounded magnitude is at least the bottom of the
binade of `q`. -/
theorem bottom_le_roundedMagnitude (q : ℚ) (hq : q ≠ 0)
    (hb : -1022 ≤ binade q.num.natAbs q.den) :
    twoPow (binade q.num.natAbs q.den) ≤ roundedMagnitude q := by
  have hu := quantum_pos q
  have hlow := binade_abs_lower q hq
  have hquant : quantum q = twoPow (binade q.num.natAbs q.den - 52) := by
    rw [quantum_eq, max_eq_left hb]
  have hbot : twoPow (binade q.num.natAbs q.den) = twoPow 52 * quantum q := by
    rw [hquant, ← twoPow_add]
    congr 1
    ring
  have hx : ((2 ^ 52 : Nat) : ℚ) ≤ |q| / quantum q := by
    rw [le_div_iff₀ hu, ← twoPow_52, ← hbot]
    exact hlow
  have hR := natCast_le_roundHalfEven (|q| / quantum q) (2 ^ 52) hx
  have hRq : ((2 ^ 52 : Nat) : ℚ) ≤
      (roundHalfEven (|q| / quantum q).num.natAbs (|q| / quantum q).den : ℚ) := by
    exact_mod_cast hR
  rw [hbot, twoPow_52]
  unfold roundedMagnitude
  exact mul_le_mul_of_nonneg_right hRq hu.le

theorem roundedMagnitude_mono (q1 q2 : ℚ) (h1 : 0 < q1) (h12 : q1 ≤ q2) :
    roundedMagnitude q1 ≤ roundedMagnitude q2 := by
  have h2 : 0 < q2 := lt_of_lt_of_le h1 h12
  have hq1 : q1 ≠ 0 := ne_of_gt h1
  have hq2 : q2 ≠ 0 := ne_of_gt h2
  have hlow1 := binade_abs_lower q1 hq1
  have hup2 := binade_abs_upper q2 hq2
  rw [abs_of_pos h1] at hlow1
  rw [abs_of_pos h2] at hup2
  have hb : binade q1.num.natAbs q1.den ≤ binade q2.num.natAbs q2.den := by
    have : binade q1.num.natAbs q1.den < binade q2.num.natAbs q2.den + 1 :=
      (twoPow_lt_iff _ _).mp (by linarith)
    omega
  by_cases hE : max (binade q1.num.natAbs q1.den) (-1022) =
      max (binade q2.num.natAbs q2.den) (-1022)
  · have hu : quantum q1 = quantum q2 := by rw [quantum_eq, quantum_eq, hE]
    have hupos := quantum_pos q2
    have hR := roundHalfEven_rat_mono (|q1| / quantum q1) (|q2| / quantum q2)
      (div_nonneg (abs_nonneg q1) (quantum_pos q1).le) (by
        rw [hu, abs_of_pos h1, abs_of_pos h2]
        exact div_le_div_of_nonneg_right h12 hupos.le)
    have hRq : (roundHalfEven (|q1| / quantum q1).num.natAbs (|q1| / quantum q1).den : ℚ) ≤
        (roundHalfEven (|q2| / quantum q2).num.natAbs (|q2| / quantum q2).den : ℚ) := by
      exact_mod_cast hR
    unfold roundedMagnitude
    calc (roundHalfEven (|q1| / quantum q1).num.natAbs (|q1| / quantum q1).den : ℚ) * quantum q1
        ≤ (roundHalfEven (|q2| / quantum q2).num.natAbs (|q2| / quantum q2).den : ℚ) *
            quantum q1 := mul_le_mul_of_nonneg_right hRq (quantum_pos q1).le
      _ = (roundHalfEven (|q2| / quantum q2).num.natAbs (|q2| / quantum q2).den : ℚ) *
            quantum q2 := by rw [hu]
  · have hb2 : -1022 ≤ binade q2.num.natAbs q2.den := by
      by_contra hcon
      apply hE
      rw [max_eq_right (by omega), max_eq_right (by omega)]
    have hstep : max (binade q1.num.natAbs q1.den) (-1022) + 1 ≤
        binade q2.num.natAbs q2.den := by
      rcases le_total (binade q1.num.natAbs q1.den) (-1022) with hc | hc
      · rw [max_eq_right hc]
        rw [max_eq_right hc, max_eq_left hb2] at hE
        omega
      · rw [max_eq_left hc]
        rw [max_eq_left hc, max_eq_left hb2] at hE
        omega
    calc roundedMagnitude q1
        ≤ twoPow (max (binade q1.num.natAbs q1.den) (-1022) + 1) :=
          roundedMagnitude_le_top q1 hq1
      _ ≤ twoPow (binade q2.num.natAbs q2.den) := twoPow_le _ _ hstep
      _ ≤ roundedMagnitude q2 := bottom_le_roundedMagnitude q2 hq2 hb2

theorem roundToDouble_mono (q1 q2 : ℚ) (h : q1 ≤ q2) :
    JsNum.le (roundToDouble q1) (roundToDouble q2) = true := by
  have n1 := roundedMagnitude_nonneg q1
  have n2 := roundedMagnitude_nonneg q2
  rcases lt_trichotomy q1 0 with s1 | s1 | s1
  · have hq1 : q1 ≠ 0 := ne_of_lt s1
    have hn1 : ¬ 0 < q1 := not_lt.mpr s1.le
    rcases lt_trichotomy q2 0 with s2 | s2 | s2
    · have hq2 : q2 ≠ 0 := ne_of_lt s2
      have hn2 : ¬ 0 < q2 := not_lt.mpr s2.le
      have hm := roundedMagnitude_mono (-q2) (-q1) (by linarith) (by linarith)
      rw [roundedMagnitude_neg, roundedMagnitude_neg] at hm
      simp only [roundToDouble, if_neg hq1, if_neg hq2, if_neg hn1, if_neg hn2]
      by_cases o1 : twoPow 1024 ≤ roundedMagnitude q1
      · by_cases o2 : twoPow 1024 ≤ roundedMagnitude q2
        · simp [o1, o2, JsNum.le]
        · simp [o1, o2, JsNum.le]
      · have o2 : ¬ twoPow 1024 ≤ roundedMagnitude q2 := fun o2 => o1 (le_trans o2 hm)
        simp only [if_neg o1, if_neg o2, JsNum.le]
        simpa using hm
    · subst s2
      simp only [roundToDouble, if_neg hq1, if_neg hn1, if_true]
      by_cases o1 : twoPow 1024 ≤ roundedMagnitude q1
      · simp [o1, JsNum.le]
      · simp only [if_neg o1, JsNum.le]
        simpa using n1
    · have hq2 : q2 ≠ 0 := ne_of_gt s2
      simp only [roundToDouble, if_neg hq1, if_neg hq2, if_neg hn1, if_pos s2]
      by_cases o1 : twoPow 1024 ≤ roundedMagnitude q1
      · by_cases o2 : twoPow 1024 ≤ roundedMagnitude q2
        · simp [o1, o2, JsNum.le]
        · simp [o1, o2, JsNum.le]
      · by_cases o2 : twoPow 1024 ≤ roundedMagnitude q2
        · simp [o1, o2, JsNum.le]
        · simp only [if_neg o1, if_neg o2, JsNum.le]
          have : -roundedMagnitude q1 ≤ roundedMagnitude q2 := by linarith
          simpa using this
  · subst s1
    rcases lt_or_eq_of_le h with s2 | s2
    · have hq2 : q2 ≠ 0 := ne_of_gt s2
      simp only [roundToDouble, if_neg hq2, if_pos s2, if_true]
      by_cases o2 : twoPow 1024 ≤ roundedMagnitude q2
      · simp [o2, JsNum.le]
      · simp only [if_neg o2, JsNum.le]
        simpa using n2
    · subst s2
      simp [roundToDouble, JsNum.le]
  · have s2 : 0 < q2 := lt_of_lt_of_le s1 h
    have hq1 : q1 ≠ 0 := ne_of_gt s1
    have hq2 : q2 ≠ 0 := ne_of_gt s2
    have hm := roundedMagnitude_mono q1 q2 s1 h
    simp only [roundToDouble, if_neg hq1, if_neg hq2, if_pos s1, if_pos s2]
    by_cases o2 : twoPow 1024 ≤ roundedMagnitude q2
    · by_cases o1 : twoPow 1024 ≤ roundedMagnitude q1
      · simp [o1, o2, JsNum.le]
      · simp [o1, o2, JsNum.le]
    · have o1 : ¬ twoPow 1024 ≤ roundedMagnitude q1 := fun o1 => o2 (le_trans o1 hm)
      simp only [if_neg o1, if_neg o2, JsNum.le]
      simpa using hm

/-! ## Doubles are fixed by rounding -/

theorem roundToDouble_neg (q : ℚ) : roundToDouble (-q) = (roundToDouble q).neg := by
  rcases lt_trichotomy q 0 with s | s | s
  · have hq : q ≠ 0 := ne_of_lt s
    have hn : ¬ 0 < q := not_lt.mpr s.le
    have hq' : -q ≠ 0 := neg_ne_zero.mpr hq
    have hp' : 0 < -q := by linarith
    simp only [roundToDouble, if_neg hq, if_neg hq', if_neg hn, if_pos hp',
      roundedMagnitude_neg]
    split_ifs <;> simp [JsNum.neg]
  · subst s
    simp [roundToDouble, JsNum.neg]
  · have hq : q ≠ 0 := ne_of_gt s
    have hq' : -q ≠ 0 := neg_ne_zero.mpr hq
    have hn' : ¬ 0 < -q := by
      intro hcon
      linarith
    simp only [roundToDouble, if_neg hq, if_neg hq', if_neg hn', if_pos s,
      roundedMagnitude_neg]
    split_ifs <;> simp [JsNum.neg]

theorem roundedMagnitude_scaled (M : Nat) (k : Int) (hM0 : 0 < M) (hM : M < 2 ^ 53)
    (hk : -1074 ≤ k) :
    roundedMagnitude ((M : ℚ) * twoPow k) = (M : ℚ) * twoPow k := by
  have hMq0 : (0 : ℚ) < M := by exact_mod_cast hM0
  have hMq : (M : ℚ) < ((2 ^ 53 : Nat) : ℚ) := by exact_mod_cast hM
  have hx : 0 < (M : ℚ) * twoPow k := mul_pos hMq0 (twoPow_pos k)
  have hx0 : (M : ℚ) * twoPow k ≠ 0 := ne_of_gt hx
  have hu := quantum_pos ((M : ℚ) * twoPow k)
  have hlow := binade_abs_lower _ hx0
  rw [abs_of_pos hx] at hlow
  have hb : binade ((M : ℚ) * twoPow k).num.natAbs ((M : ℚ) * twoPow k).den < k + 53 := by
    apply (twoPow_lt_iff _ _).mp
    have h53 : twoPow (k + 53) = twoPow 53 * twoPow k := by
      rw [← twoPow_add]
      congr 1
      ring
    rw [h53, twoPow_53]
    exact lt_of_le_of_lt hlow (mul_lt_mul_of_pos_right hMq (twoPow_pos k))
  have hj : 0 ≤ k + 52 -
      max (binade ((M : ℚ) * twoPow k).num.natAbs ((M : ℚ) * twoPow k).den) (-1022) := by
    have : max (binade ((M : ℚ) * twoPow k).num.natAbs ((M : ℚ) * twoPow k).den) (-1022) ≤
        k + 52 := max_le (by omega) (by omega)
    omega
  have hquot : |(M : ℚ) * twoPow k| / quantum ((M : ℚ) * twoPow k) =
      ((M * 2 ^ (k + 52 - max (binade ((M : ℚ) * twoPow k).num.natAbs
        ((M : ℚ) * twoPow k).den) (-1022)).toNat : Nat) : ℚ) := by
    rw [abs_of_pos hx, div_eq_iff (ne_of_gt hu)]
    push_cast
    rw [← twoPow_natCast, Int.toNat_of_nonneg hj, quantum_eq, mul_assoc, ← twoPow_add]
    congr 2
    ring
  have hval : (M : ℚ) * twoPow k =
      ((M * 2 ^ (k + 52 - max (binade ((M : ℚ) * twoPow k).num.natAbs
        ((M : ℚ) * twoPow k).den) (-1022)).toNat : Nat) : ℚ) *
        quantum ((M : ℚ) * twoPow k) := by
    rw [← hquot, abs_of_pos hx, div_mul_cancel₀ _ (ne_of_gt hu)]
  unfold roundedMagnitude
  rw [hquot, roundHalfEven_natCast]
  exact hval.symm

theorem roundToDouble_scaled (M : Nat) (k : Int) (hM : M ≤ 2 ^ 53) (hk : -1074 ≤ k)
    (hlt : (M : ℚ) * twoPow k < twoPow 1024) :
    roundToDouble ((M : ℚ) * twoPow k) = .fin ((M : ℚ) * twoPow k) := by
  rcases Nat.eq_zero_or_pos M with h0 | hpos
  · subst h0
    simp [roundToDouble]
  · have hMq0 : (0 : ℚ) < M := by exact_mod_cast hpos
    have hx : 0 < (M : ℚ) * twoPow k := mul_pos hMq0 (twoPow_pos k)
    have hrm : roundedMagnitude ((M : ℚ) * twoPow k) = (M : ℚ) * twoPow k := by
      rcases Nat.lt_or_ge M (2 ^ 53) with hlt53 | hge53
      · exact roundedMagnitude_scaled M k hpos hlt53 hk
      · have hMeq : M = 2 ^ 53 := le_antisymm hM hge53
        have hre : (M : ℚ) * twoPow k = ((2 ^ 52 : Nat) : ℚ) * twoPow (k + 1) := by
          rw [hMeq, twoPow_succ]
          push_cast
          ring
        rw [hre]
        exact roundedMagnitude_scaled (2 ^ 52) (k + 1) (by norm_num) (by norm_num) (by omega)
    simp only [roundToDouble, if_neg (ne_of_gt hx), hrm, if_neg (not_le.mpr hlt), if_pos hx]

theorem significand_le (q : ℚ) (hq : q ≠ 0) :
    roundHalfEven (|q| / quantum q).num.natAbs (|q| / quantum q).den ≤ 2 ^ 53 := by
  have hu := quantum_pos q
  have hup := binade_abs_upper q hq
  have hE : twoPow (binade q.num.natAbs q.den + 1) ≤
      twoPow (max (binade q.num.natAbs q.den) (-1022) + 1) :=
    twoPow_le _ _ (by omega)
  have htop : twoPow (max (binade q.num.natAbs q.den) (-1022) + 1) =
      twoPow 53 * quantum q := by
    rw [quantum_eq, ← twoPow_add]
    congr 1
    ring
  have hx : |q| / quantum q ≤ ((2 ^ 53 : Nat) : ℚ) := by
    rw [div_le_iff₀ hu, ← twoPow_53, ← htop]
    linarith
  exact roundHalfEven_le_natCast (|q| / quantum q) (2 ^ 53)
    (div_nonneg (abs_nonneg q) hu.le) hx

theorem roundToDouble_roundedMagnitude (q : ℚ) (hq : q ≠ 0)
    (hlt : roundedMagnitude q < twoPow 1024) :
    roundToDouble (roundedMagnitude q) = .fin (roundedMagnitude q) := by
  have hsig := significand_le q hq
  have hk : -1074 ≤ max (binade q.num.natAbs q.den) (-1022) - 52 := by
    have := le_max_right (binade q.num.natAbs q.den) (-1022)
    omega
  have hform : roundedMagnitude q =
      (roundHalfEven (|q| / quantum q).num.natAbs (|q| / quantum q).den : ℚ) *
        twoPow (max (binade q.num.natAbs q.den) (-1022) - 52) := rfl
  rw [hform] at hlt ⊢
  exact roundToDouble_scaled _ _ hsig hk hlt

/-- Every finite result of a rounding is rounded to itself. -/
theorem roundToDouble_idem (q v : ℚ) (h : roundToDouble q = .fin v) :
    roundToDouble v = .fin v := by
  by_cases hq : q = 0
  · subst hq
    have hv : v = 0 := by
      simp [roundToDouble] at h
      exact h.symm
    subst hv
    simp [roundToDouble]
  · by_cases hover : twoPow 1024 ≤ roundedMagnitude q
    · simp only [roundToDouble, if_neg hq, if_pos hover] at h
      split_ifs at h
    · have hidem := roundToDouble_roundedMagnitude q hq (not_le.mp hover)
      simp only [roundToDouble, if_neg hq, if_neg hover] at h
      have hv := JsNum.fin.inj h
      by_cases hpos : 0 < q
      · rw [if_pos hpos] at hv
        rw [← hv]
        exact hidem
      · rw [if_neg hpos] at hv
        rw [← hv, roundToDouble_neg, hidem]
        rfl

theorem roundToDouble_between (q lo hi : ℚ) (hlo : roundToDouble lo = .fin lo)
    (hhi : roundToDouble hi = .fin hi) (h1 : lo ≤ q) (h2 : q ≤ hi) :
    ∃ v, roundToDouble q = .fin v ∧ lo ≤ v ∧ v ≤ hi := by
  have m1 := roundToDouble_mono lo q h1
  have m2 := roundToDouble_mono q hi h2
  rw [hlo] at m1
  rw [hhi] at m2
  cases hq : roundToDouble q with
  | nan => simp [hq, JsNum.le] at m1
  | posInf => simp [hq, JsNum.le] at m2
  | negInf => simp [hq, JsNum.le] at m1
  | fin v =>
    rw [hq] at m1 m2
    simp only [JsNum.le, decide_eq_true_eq] at m1 m2
    exact ⟨v, rfl, m1, m2⟩

theorem roundToDouble_natCast (N : Nat) (h : N ≤ 2 ^ 53) :
    roundToDouble (N : ℚ) = .fin (N : ℚ) := by
  have h0 : twoPow 0 = 1 := by simp [twoPow]
  have := roundToDouble_scaled N 0 h (by norm_num) (by
    rw [h0, mul_one]
    have h1 : (N : ℚ) ≤ ((2 ^ 53 : Nat) : ℚ) := by exact_mod_cast h
    have h2 : twoPow 53 < twoPow 1024 := (twoPow_lt_iff _ _).mpr (by norm_num)
    rw [← twoPow_53] at h1
    linarith)
  rwa [h0, mul_one] at this

theorem roundToDouble_intCast (n : Int) (h : |n| ≤ 2 ^ 53) :
    roundToDouble (n : ℚ) = .fin (n : ℚ) := by
  rcases le_total 0 n with hn | hn
  · have hN : n.toNat ≤ 2 ^ 53 := by
      rw [abs_of_nonneg hn] at h
      omega
    have := roundToDouble_natCast n.toNat hN
    have hc : ((n.toNat : Nat) : ℚ) = (n : ℚ) := by
      have : ((n.toNat : Nat) : Int) = n := Int.toNat_of_nonneg hn
      exact_mod_cast this
    rwa [hc] at this
  · have hN : (-n).toNat ≤ 2 ^ 53 := by
      rw [abs_of_nonpos hn] at h
      omega
    have := roundToDouble_natCast (-n).toNat hN
    have hc : (((-n).toNat : Nat) : ℚ) = -(n : ℚ) := by
      have : (((-n).toNat : Nat) : Int) = -n := Int.toNat_of_nonneg (by omega)
      exact_mod_cast this
    rw [hc] at this
    have h2 := roundToDouble_neg (-(n : ℚ))
    rw [neg_neg, this] at h2
    rw [h2]
    simp [JsNum.neg]

/-! ## Durations -/

theorem JsNum.neg_neg (x : JsNum) : x.neg.neg = x := by
  cases x <;> simp [JsNum.neg]

theorem JsNum.sub_swap (a b : ℚ) :
    (JsNum.fin b).sub (.fin a) = ((JsNum.fin a).sub (.fin b)).neg := by
  have h : ∀ x y : ℚ, (JsNum.fin x).sub (.fin y) = roundToDouble (x - y) := fun _ _ => rfl
  rw [h, h, ← roundToDouble_neg, neg_sub]

theorem JsNum.neg_div_fin (x : JsNum) (c : ℚ) (hc : 0 < c) :
    x.neg.div (.fin c) = (x.div (.fin c)).neg := by
  have hc0 : c ≠ 0 := ne_of_gt hc
  cases x with
  | nan => simp [JsNum.neg, JsNum.div]
  | posInf => simp [JsNum.neg, JsNum.div, hc.le]
  | negInf => simp [JsNum.neg, JsNum.div, hc.le]
  | fin a =>
    have h1 : (JsNum.fin a).neg = .fin (-a) := rfl
    have h2 : ∀ y : ℚ, (JsNum.fin y).div (.fin c) = roundToDouble (y / c) := by
      intro y
      simp [JsNum.div, hc0]
    rw [h1, h2, h2, neg_div, roundToDouble_neg]

theorem calculateDurationInMinutes_swap (a b : Int) :
    calculateDurationInMinutes (some a) (some b) =
      (calculateDurationInMinutes (some b) (some a)).neg := by
  simp only [calculateDurationInMinutes, JsNum.ofTime, JsNum.ofInt]
  rw [JsNum.sub_swap, JsNum.neg_div_fin _ _ (by norm_num), JsNum.neg_div_fin _ _ (by norm_num)]

theorem JsNum.sub_fin_ne_nan (a b : ℚ) : (JsNum.fin a).sub (.fin b) ≠ .nan := by
  simp only [JsNum.sub, roundToDouble]
  split_ifs <;> simp

theorem JsNum.div_fin_ne_nan (x : JsNum) (c : ℚ) (hx : x ≠ .nan) (hc : 0 < c) :
    x.div (.fin c) ≠ .nan := by
  have hc0 : c ≠ 0 := ne_of_gt hc
  cases x with
  | nan => exact absurd rfl hx
  | posInf => simp [JsNum.div, hc.le]
  | negInf => simp [JsNum.div, hc.le]
  | fin a =>
    simp only [JsNum.div, if_neg hc0, roundToDouble]
    split_ifs <;> simp

/-- C25: for all instants `a` and `b`,
`calculateDurationInMinutes(a, b) = -calculateDurationInMinutes(b, a)`, and
neither side is `NaN`; each of the three roundings of the function is symmetric
under a change of sign. -/
theorem calculateDurationInMinutes_antisymmetric (a b : Int) :
    calculateDurationInMinutes (some a) (some b) =
        (calculateDurationInMinutes (some b) (some a)).neg ∧
      calculateDurationInMinutes (some a) (some b) ≠ .nan := by
  refine ⟨calculateDurationInMinutes_swap a b, ?_⟩
  simp only [calculateDurationInMinutes, JsNum.ofTime, JsNum.ofInt]
  exact JsNum.div_fin_ne_nan _ _
    (JsNum.div_fin_ne_nan _ _ (JsNum.sub_fin_ne_nan _ _) (by norm_num)) (by norm_num)


theorem roundToDouble_rel (q : ℚ) (hlo : twoPow (-1022) ≤ |q|) (hhi : |q| ≤ twoPow 1022) :
    ∃ v, roundToDouble q = .fin v ∧ |v - q| ≤ |q| / 2 ^ 53 := by
  have hq : q ≠ 0 := by
    intro h0
    rw [h0, abs_zero] at hlo
    exact absurd hlo (not_le.mpr (twoPow_pos _))
  obtain ⟨v, hv, -⟩ := roundToDouble_close q 1022 (by norm_num) (by norm_num) hhi
  refine ⟨v, hv, ?_⟩
  have hlow := binade_abs_lower q hq
  have hup := binade_abs_upper q hq
  have hb : -1022 ≤ binade q.num.natAbs q.den := by
    have : (-1022 : Int) < binade q.num.natAbs q.den + 1 :=
      (twoPow_lt_iff _ _).mp (lt_of_le_of_lt hlo hup)
    omega
  have hquant : quantum q / 2 = twoPow (binade q.num.natAbs q.den) / 2 ^ 53 := by
    rw [quantum_eq, max_eq_left hb, twoPow_sub, twoPow_52]
    push_cast
    ring
  have hclose := roundedMagnitude_close q
  rw [hquant] at hclose
  have hbound : twoPow (binade q.num.natAbs q.den) / 2 ^ 53 ≤ |q| / 2 ^ 53 :=
    div_le_div_of_nonneg_right hlow (by positivity)
  have herr : |roundedMagnitude q - abs q| ≤ |q| / 2 ^ 53 := le_trans hclose hbound
  simp only [roundToDouble, if_neg hq] at hv
  by_cases hover : twoPow 1024 ≤ roundedMagnitude q
  · rw [if_pos hover] at hv
    split_ifs at hv
  · rw [if_neg hover] at hv
    have hv' := JsNum.fin.inj hv
    by_cases hpos : 0 < q
    · rw [if_pos hpos] at hv'
      rw [← hv']
      rw [abs_of_pos hpos] at herr ⊢
      exact herr
    · have hneg : q < 0 := lt_of_le_of_ne (not_lt.mp hpos) hq
      rw [if_neg hpos] at hv'
      rw [← hv']
      rw [abs_of_neg hneg] at herr ⊢
      have : -roundedMagnitude q - q = -(roundedMagnitude q - -q) := by ring
      rw [this, abs_neg]
      exact herr

theorem roundToDouble_rel_mid (q : ℚ) (hlo : 1 / 2 ^ 20 ≤ |q|) (hhi : |q| ≤ 2 ^ 60) :
    ∃ v, roundToDouble q = .fin v ∧ |v - q| ≤ |q| / 2 ^ 53 := by
  have h1 : twoPow (-20) = 1 / 2 ^ 20 := by decide!
  have h2 : twoPow 60 = 2 ^ 60 := by decide!
  apply roundToDouble_rel
  · calc twoPow (-1022) ≤ twoPow (-20) := twoPow_le _ _ (by norm_num)
      _ = 1 / 2 ^ 20 := h1
      _ ≤ |q| := hlo
  · calc |q| ≤ 2 ^ 60 := hhi
      _ = twoPow 60 := h2.symm
      _ ≤ twoPow 1022 := twoPow_le _ _ (by norm_num)

theorem roundToDouble_scaled_int (n k : Int) (hn : |n| ≤ 2 ^ 53) (hk : -1074 ≤ k)
    (hlt : |(n : ℚ)| * twoPow k < twoPow 1024) :
    roundToDouble ((n : ℚ) * twoPow k) = .fin ((n : ℚ) * twoPow k) := by
  have hN : n.natAbs ≤ 2 ^ 53 := by
    have h' : (n.natAbs : Int) ≤ 2 ^ 53 := by
      rw [Int.natCast_natAbs]
      exact hn
    exact_mod_cast h'
  have hcast : ((n.natAbs : Nat) : ℚ) = |(n : ℚ)| := by
    rw [Nat.cast_natAbs, Int.cast_abs]
  have hpos := roundToDouble_scaled n.natAbs k hN hk (by rw [hcast]; exact hlt)
  rw [hcast] at hpos
  rcases le_total 0 n with h0 | h0
  · have : |(n : ℚ)| = n := abs_of_nonneg (by exact_mod_cast h0)
    rwa [this] at hpos
  · have habs : |(n : ℚ)| = -(n : ℚ) := abs_of_nonpos (by exact_mod_cast h0)
    rw [habs] at hpos
    have h2 := roundToDouble_neg (-(n : ℚ) * twoPow k)
    rw [hpos] at h2
    have h3 : -(-(n : ℚ) * twoPow k) = (n : ℚ) * twoPow k := by ring
    rw [h3] at h2
    rw [h2]
    simp [JsNum.neg]

theorem roundToDouble_even (n : Int) (hn : |n| ≤ 2 ^ 53) :
    roundToDouble ((2 * n : Int) : ℚ) = .fin ((2 * n : Int) : ℚ) := by
  have h1 : twoPow 1 = 2 := by decide!
  have h54 : (2 : ℚ) ^ 54 < twoPow 1024 := by
    have : twoPow 54 = 2 ^ 54 := by decide!
    rw [← this]
    exact (twoPow_lt_iff _ _).mpr (by norm_num)
  have hq : |(n : ℚ)| ≤ 2 ^ 53 := by exact_mod_cast hn
  have := roundToDouble_scaled_int n 1 hn (by norm_num) (by
    rw [h1]
    linarith)
  rw [h1] at this
  have hc : ((2 * n : Int) : ℚ) = (n : ℚ) * 2 := by
    push_cast
    ring
  rw [hc]
  exact this

theorem calculateDurationInMinutes_eq (a b : Int) :
    calculateDurationInMinutes (some a) (some b) =
      ((roundToDouble ((b - a : Int) : ℚ)).div (.fin 1000)).div (.fin 60) := by
  simp only [calculateDurationInMinutes, JsNum.ofTime, JsNum.ofInt, JsNum.sub]
  push_cast
  rfl

theorem JsNum.fin_div_fin (x c : ℚ) (hc : c ≠ 0) :
    (JsNum.fin x).div (.fin c) = roundToDouble (x / c) := by
  simp [JsNum.div, hc]

theorem roundToDouble_one : roundToDouble 1 = .fin 1 := by decide!

theorem roundToDouble_zero : roundToDouble 0 = .fin 0 := by decide!

theorem roundToDouble_hundred : roundToDouble 100 = .fin 100 := by decide!

theorem roundToDouble_two_pow_64 : roundToDouble (2 ^ 64) = .fin (2 ^ 64) := by decide!

theorem roundToDouble_inv_two_pow_20 : roundToDouble (1 / 2 ^ 20) = .fin (1 / 2 ^ 20) := by
  decide!

/-- A positive difference of at most `2 ^ 54` milliseconds is a positive finite
number of minutes. -/
theorem duration_pos (d : Int) (h1 : 1 ≤ d) (h2 : d ≤ 2 ^ 54) :
    ∃ v, ((roundToDouble (d : ℚ)).div (.fin 1000)).div (.fin 60) = .fin v ∧
      1 / 2 ^ 20 ≤ v ∧ v ≤ 2 ^ 64 := by
  have hd1 : (1 : ℚ) ≤ d := by exact_mod_cast h1
  have hd2 : (d : ℚ) ≤ 2 ^ 54 := by exact_mod_cast h2
  obtain ⟨x1, e1, l1, u1⟩ := roundToDouble_between (d : ℚ) 1 (2 ^ 64) roundToDouble_one
    roundToDouble_two_pow_64 hd1 (by linarith [show (2 : ℚ) ^ 54 ≤ 2 ^ 64 by norm_num])
  obtain ⟨x2, e2, l2, u2⟩ := roundToDouble_between (x1 / 1000) (1 / 2 ^ 20) (2 ^ 64)
    roundToDouble_inv_two_pow_20 roundToDouble_two_pow_64
    (by rw [le_div_iff₀ (by norm_num)]; norm_num; linarith)
    (by rw [div_le_iff₀ (by norm_num)]; linarith)
  have hx1 : (1 : ℚ) / 2 ^ 10 ≤ x1 / 1000 := by
    rw [le_div_iff₀ (by norm_num)]
    norm_num
    linarith
  have hq10 : roundToDouble (1 / 2 ^ 10) = .fin (1 / 2 ^ 10) := by decide!
  obtain ⟨x2', e2', l2', -⟩ := roundToDouble_between (x1 / 1000) (1 / 2 ^ 10) (2 ^ 64)
    hq10 roundToDouble_two_pow_64 hx1 (by rw [div_le_iff₀ (by norm_num)]; linarith)
  have hsame : x2' = x2 := JsNum.fin.inj (e2'.symm.trans e2)
  rw [hsame] at l2'
  obtain ⟨x3, e3, l3, u3⟩ := roundToDouble_between (x2 / 60) (1 / 2 ^ 20) (2 ^ 64)
    roundToDouble_inv_two_pow_20 roundToDouble_two_pow_64
    (by
      rw [le_div_iff₀ (by norm_num)]
      have : (1 : ℚ) / 2 ^ 20 * 60 ≤ 1 / 2 ^ 10 := by norm_num
      linarith)
    (by rw [div_le_iff₀ (by norm_num)]; linarith)
  refine ⟨x3, ?_, l3, u3⟩
  rw [e1, JsNum.fin_div_fin _ _ (by norm_num), e2, JsNum.fin_div_fin _ _ (by norm_num), e3]

theorem duration_neg (d : Int) :
    ((roundToDouble ((-d : Int) : ℚ)).div (.fin 1000)).div (.fin 60) =
      (((roundToDouble (d : ℚ)).div (.fin 1000)).div (.fin 60)).neg := by
  have hc : ((-d : Int) : ℚ) = -(d : ℚ) := by push_cast; ring
  rw [hc, roundToDouble_neg, JsNum.neg_div_fin _ _ (by norm_num),
    JsNum.neg_div_fin _ _ (by norm_num)]

theorem duration_zero :
    ((roundToDouble ((0 : Int) : ℚ)).div (.fin 1000)).div (.fin 60) = .fin 0 := by decide!

/-- The sign of the number of minutes is the sign of the difference. -/
theorem duration_sign (d : Int) (h : |d| ≤ 2 ^ 54) :
    ∃ v, ((roundToDouble (d : ℚ)).div (.fin 1000)).div (.fin 60) = .fin v ∧
      (v < 0 ↔ d < 0) ∧ (v = 0 ↔ d = 0) := by
  have hb := abs_le.mp h
  rcases lt_trichotomy d 0 with hd | hd | hd
  · obtain ⟨v, hv, l, -⟩ := duration_pos (-d) (by omega) (by omega)
    have hpos : (0 : ℚ) < v := lt_of_lt_of_le (by norm_num) l
    refine ⟨-v, ?_, ?_, ?_⟩
    · have := duration_neg (-d)
      rw [neg_neg, hv] at this
      rw [this]
      rfl
    · constructor
      · intro _
        exact hd
      · intro _
        linarith
    · constructor
      · intro h0
        linarith
      · intro h0
        omega
  · subst hd
    exact ⟨0, duration_zero, by simp, by simp⟩
  · obtain ⟨v, hv, l, -⟩ := duration_pos d (by omega) (by omega)
    have hpos : (0 : ℚ) < v := lt_of_lt_of_le (by norm_num) l
    refine ⟨v, hv, ?_, ?_⟩
    · constructor
      · intro h0
        linarith
      · intro h0
        omega
    · constructor
      · intro h0
        linarith
      · intro h0
        omega

/-- A whole number of seconds is divided without an intermediate rounding. -/
theorem duration_whole_seconds (d : Int) (h : |d| ≤ 2 ^ 54) (hs : d % 1000 = 0) :
    ((roundToDouble (d : ℚ)).div (.fin 1000)).div (.fin 60) =
      roundToDouble ((d : ℚ) / 60000) := by
  have hb := abs_le.mp h
  obtain ⟨s, rfl⟩ : ∃ s, d = 1000 * s := ⟨d / 1000, by omega⟩
  have hs1 : |500 * s| ≤ 2 ^ 53 := by
    rw [abs_le]
    constructor <;> omega
  have hs2 : |s| ≤ 2 ^ 53 := by
    rw [abs_le]
    constructor <;> omega
  have he := roundToDouble_even (500 * s) hs1
  have hre : (2 * (500 * s) : Int) = 1000 * s := by ring
  rw [hre] at he
  have hq : ((1000 * s : Int) : ℚ) / 1000 = (s : ℚ) := by
    push_cast
    field_simp
  have hq2 : (s : ℚ) / 60 = ((1000 * s : Int) : ℚ) / 60000 := by
    push_cast
    field_simp
    ring
  rw [he, JsNum.fin_div_fin _ _ (by norm_num), hq, roundToDouble_intCast s hs2,
    JsNum.fin_div_fin _ _ (by norm_num), hq2]

/-- A whole number of minutes is returned exactly. -/
theorem duration_whole_minutes (d : Int) (h : |d| ≤ 2 ^ 54) (hm : d % 60000 = 0) :
    ((roundToDouble (d : ℚ)).div (.fin 1000)).div (.fin 60) =
      .fin ((d / 60000 : Int) : ℚ) := by
  have hb := abs_le.mp h
  rw [duration_whole_seconds d h (by omega)]
  obtain ⟨m, rfl⟩ : ∃ m, d = 60000 * m := ⟨d / 60000, by omega⟩
  have hm2 : |m| ≤ 2 ^ 53 := by
    rw [abs_le]
    constructor <;> omega
  have hq : ((60000 * m : Int) : ℚ) / 60000 = (m : ℚ) := by
    push_cast
    field_simp
  have hdiv : 60000 * m / 60000 = m := by omega
  rw [hq, hdiv]
  exact roundToDouble_intCast m hm2

theorem abs_near (x y e : ℚ) (h : |x - y| ≤ e) : |x| ≤ |y| + e ∧ |y| - e ≤ |x| := by
  have h1 := abs_sub_abs_le_abs_sub x y
  have h2 := abs_sub_abs_le_abs_sub y x
  rw [abs_sub_comm y x] at h2
  constructor <;> linarith

/-- The three roundings together lose less than one part in `2 ^ 51`. -/
theorem duration_near (d : Int) (h : |d| ≤ 2 ^ 54) (v : ℚ)
    (hv : ((roundToDouble (d : ℚ)).div (.fin 1000)).div (.fin 60) = .fin v) :
    |v - (d : ℚ) / 60000| ≤ |(d : ℚ) / 60000| / 2 ^ 51 := by
  by_cases hd : d = 0
  · subst hd
    rw [duration_zero] at hv
    rw [← JsNum.fin.inj hv]
    simp
  · have hA1 : (1 : ℚ) ≤ |(d : ℚ)| := by
      have : (1 : Int) ≤ |d| := Int.one_le_abs hd
      exact_mod_cast this
    have hA2 : |(d : ℚ)| ≤ 2 ^ 54 := by exact_mod_cast h
    obtain ⟨x1, e1, b1⟩ := roundToDouble_rel_mid (d : ℚ)
      (by linarith [show (1 : ℚ) / 2 ^ 20 ≤ 1 by norm_num])
      (by linarith [show (2 : ℚ) ^ 54 ≤ 2 ^ 60 by norm_num])
    obtain ⟨n1u, n1l⟩ := abs_near x1 d _ b1
    have habs2 : |x1 / 1000| = |x1| / 1000 := by
      rw [abs_div, abs_of_pos (by norm_num : (0 : ℚ) < 1000)]
    obtain ⟨x2, e2, b2⟩ := roundToDouble_rel_mid (x1 / 1000)
      (by
        rw [habs2, le_div_iff₀ (by norm_num)]
        norm_num at n1l ⊢
        linarith)
      (by
        rw [habs2, div_le_iff₀ (by norm_num)]
        norm_num at n1u ⊢
        linarith)
    obtain ⟨n2u, n2l⟩ := abs_near x2 (x1 / 1000) _ b2
    rw [habs2] at b2 n2u n2l
    have habs3 : |x2 / 60| = |x2| / 60 := by
      rw [abs_div, abs_of_pos (by norm_num : (0 : ℚ) < 60)]
    obtain ⟨x3, e3, b3⟩ := roundToDouble_rel_mid (x2 / 60)
      (by
        rw [habs3, le_div_iff₀ (by norm_num)]
        norm_num at n1l n2l ⊢
        linarith)
      (by
        rw [habs3, div_le_iff₀ (by norm_num)]
        norm_num at n1u n2u ⊢
        linarith)
    rw [habs3] at b3
    rw [e1, JsNum.fin_div_fin _ _ (by norm_num), e2, JsNum.fin_div_fin _ _ (by norm_num),
      e3] at hv
    have hv3 : x3 = v := JsNum.fin.inj hv
    subst hv3
    have habs : |(d : ℚ) / 60000| = |(d : ℚ)| / 60000 := by
      rw [abs_div, abs_of_pos (by norm_num : (0 : ℚ) < 60000)]
    rw [habs]
    have c1 := abs_le.mp b1
    have c2 := abs_le.mp b2
    have c3 := abs_le.mp b3
    rw [abs_le]
    norm_num at c1 c2 c3 n1u n2u ⊢
    constructor <;> linarith

/-- C24, as stated, fails: for two instants 43 milliseconds apart the function
returns `(43 / 1000) / 60` rounded twice, which is neither `43 / 60000` nor the
double nearest to it, the value of `(end - start) / 60000`. -/
theorem calculateDurationInMinutes_exact_counterexample :
    calculateDurationInMinutes (some 1672567200000) (some 1672567200043) ≠
        ((JsNum.fin 1672567200043).sub (.fin 1672567200000)).div (.fin 60000) ∧
      calculateDurationInMinutes (some 1672567200000) (some 1672567200043) ≠
        .fin (43 / 60000) := by
  constructor <;> decide!

/-- C24, amended: for all instants `start` and `end` in the range of `Date`,
`calculateDurationInMinutes(start, end)` is a finite number, negative exactly
when `end < start` and 0 exactly when the instants are equal; it is the double
nearest to `(end - start) / 60000` when the difference is a whole number of
seconds, exactly `(end - start) / 60000` when it is a whole number of minutes,
and within one part in `2 ^ 51` of `(end - start) / 60000` in every case. -/
theorem calculateDurationInMinutes_value (a b : Int) (ha : |a| ≤ maxTimeValue)
    (hb : |b| ≤ maxTimeValue) :
    ∃ v : ℚ, calculateDurationInMinutes (some a) (some b) = .fin v ∧
      (v < 0 ↔ b < a) ∧ (v = 0 ↔ b = a) ∧
      ((b - a) % 1000 = 0 → JsNum.fin v = roundToDouble (((b - a : Int) : ℚ) / 60000)) ∧
      ((b - a) % 60000 = 0 → v = (((b - a) / 60000 : Int) : ℚ)) ∧
      |v - ((b - a : Int) : ℚ) / 60000| ≤ |((b - a : Int) : ℚ) / 60000| / 2 ^ 51 := by
  have ha' := abs_le.mp ha
  have hb' := abs_le.mp hb
  have hd : |b - a| ≤ 2 ^ 54 := by
    rw [abs_le]
    simp only [maxTimeValue] at ha' hb'
    constructor <;> omega
  obtain ⟨v, hv, hneg, hzero⟩ := duration_sign (b - a) hd
  refine ⟨v, ?_, ?_, ?_, ?_, ?_, ?_⟩
  · rw [calculateDurationInMinutes_eq, hv]
  · rw [hneg]
    omega
  · rw [hzero]
    omega
  · intro hs
    rw [← hv]
    exact duration_whole_seconds (b - a) hd hs
  · intro hm
    have := duration_whole_minutes (b - a) hd hm
    rw [hv] at this
    exact JsNum.fin.inj this
  · exact duration_near (b - a) hd v hv

/-- Witness for C24: 10:00 to 11:30 is 90 minutes, 22:00 to 01:00 the next day
is 180 minutes, equal instants give 0, and 30 seconds are half a minute. -/
theorem calculateDurationInMinutes_value_witness :
    calculateDurationInMinutes (some 1672567200000) (some 1672572600000) = .fin 90 ∧
      calculateDurationInMinutes (some 1672610400000) (some 1672621200000) = .fin 180 ∧
      calculateDurationInMinutes (some 1672567200000) (some 1672567200000) = .fin 0 ∧
      calculateDurationInMinutes (some 1672567200000) (some 1672567230000) = .fin (1 / 2) := by
  refine ⟨?_, ?_, ?_, ?_⟩
  · obtain ⟨v, hv, -, -, -, hm, -⟩ :=
      calculateDurationInMinutes_value 1672567200000 1672572600000 (by decide) (by decide)
    rw [hv, hm (by decide)]
    norm_num
  · obtain ⟨v, hv, -, -, -, hm, -⟩ :=
      calculateDurationInMinutes_value 1672610400000 1672621200000 (by decide) (by decide)
    rw [hv, hm (by decide)]
    norm_num
  · obtain ⟨v, hv, -, hz, -, -, -⟩ :=
      calculateDurationInMinutes_value 1672567200000 1672567200000 (by decide) (by decide)
    rw [hv, hz.mpr rfl]
  · obtain ⟨v, hv, -, -, hs, -, -⟩ :=
      calculateDurationInMinutes_value 1672567200000 1672567230000 (by decide) (by decide)
    rw [hv, hs (by decide)]
    decide!

/-! ## Session countdown bars -/

theorem roundToDouble_mono_fin (q1 q2 v1 v2 : ℚ) (h : q1 ≤ q2)
    (e1 : roundToDouble q1 = .fin v1) (e2 : roundToDouble q2 = .fin v2) : v1 ≤ v2 := by
  have := roundToDouble_mono q1 q2 h
  rw [e1, e2] at this
  simpa [JsNum.le] using this

theorem JsNum.fin_mul_fin (x y : ℚ) : (JsNum.fin x).mul (.fin y) = roundToDouble (x * y) := rfl

theorem roundToDouble_two_pow_70 : roundToDouble (2 ^ 70) = .fin (2 ^ 70) := by decide!

/-- The seconds `calculateDurationInMinutes(...) * 60` of a non-negative
difference of at most `2 ^ 54` milliseconds: finite, not negative, and positive
when the difference is. -/
theorem seconds_nonneg (d : Int) (h0 : 0 ≤ d) (h2 : d ≤ 2 ^ 54) :
    ∃ x, (((roundToDouble (d : ℚ)).div (.fin 1000)).div (.fin 60)).mul (.fin 60) = .fin x ∧
      0 ≤ x ∧ x ≤ 2 ^ 70 ∧ (1 ≤ d → 1 / 2 ^ 20 ≤ x) := by
  rcases lt_or_le d 1 with hd | hd
  · have hz : d = 0 := by omega
    subst hz
    refine ⟨0, by decide!, le_rfl, by norm_num, fun h => absurd h (by norm_num)⟩
  · obtain ⟨v, hv, l, u⟩ := duration_pos d hd h2
    obtain ⟨x, ex, lx, ux⟩ := roundToDouble_between (v * 60) (1 / 2 ^ 20) (2 ^ 70)
      roundToDouble_inv_two_pow_20 roundToDouble_two_pow_70 (by linarith) (by
        have : (2 : ℚ) ^ 64 * 60 ≤ 2 ^ 70 := by norm_num
        linarith)
    refine ⟨x, by rw [hv, JsNum.fin_mul_fin, ex], ?_, ux, fun _ => lx⟩
    have : (0 : ℚ) < 1 / 2 ^ 20 := by norm_num
    linarith

theorem seconds_mono (d1 d2 : Int) (h0 : 0 ≤ d1) (h12 : d1 ≤ d2) (h2 : d2 ≤ 2 ^ 54)
    (x y : ℚ)
    (hx : (((roundToDouble (d1 : ℚ)).div (.fin 1000)).div (.fin 60)).mul (.fin 60) = .fin x)
    (hy : (((roundToDouble (d2 : ℚ)).div (.fin 1000)).div (.fin 60)).mul (.fin 60) = .fin y) :
    x ≤ y := by
  have hq : (d1 : ℚ) ≤ d2 := by exact_mod_cast h12
  have hq0 : (0 : ℚ) ≤ d1 := by exact_mod_cast h0
  have hq2 : (d2 : ℚ) ≤ 2 ^ 64 := by
    have : (d2 : ℚ) ≤ 2 ^ 54 := by exact_mod_cast h2
    linarith [show (2 : ℚ) ^ 54 ≤ 2 ^ 64 by norm_num]
  obtain ⟨a1, ea1, la1, ua1⟩ := roundToDouble_between (d1 : ℚ) 0 (2 ^ 64) roundToDouble_zero
    roundToDouble_two_pow_64 hq0 (le_trans hq hq2)
  obtain ⟨b1, eb1, lb1, ub1⟩ := roundToDouble_between (d2 : ℚ) 0 (2 ^ 64) roundToDouble_zero
    roundToDouble_two_pow_64 (le_trans hq0 hq) hq2
  have m1 := roundToDouble_mono_fin _ _ _ _ hq ea1 eb1
  obtain ⟨a2, ea2, la2, ua2⟩ := roundToDouble_between (a1 / 1000) 0 (2 ^ 64)
    roundToDouble_zero roundToDouble_two_pow_64 (by positivity)
    (by rw [div_le_iff₀ (by norm_num)]; linarith)
  obtain ⟨b2, eb2, lb2, ub2⟩ := roundToDouble_between (b1 / 1000) 0 (2 ^ 64)
    roundToDouble_zero roundToDouble_two_pow_64 (by positivity)
    (by rw [div_le_iff₀ (by norm_num)]; linarith)
  have m2 := roundToDouble_mono_fin _ _ _ _
    (div_le_div_of_nonneg_right m1 (by norm_num : (0 : ℚ) ≤ 1000)) ea2 eb2
  obtain ⟨a3, ea3, la3, ua3⟩ := roundToDouble_between (a2 / 60) 0 (2 ^ 64)
    roundToDouble_zero roundToDouble_two_pow_64 (by positivity)
    (by rw [div_le_iff₀ (by norm_num)]; linarith)
  obtain ⟨b3, eb3, lb3, ub3⟩ := roundToDouble_between (b2 / 60) 0 (2 ^ 64)
    roundToDouble_zero roundToDouble_two_pow_64 (by positivity)
    (by rw [div_le_iff₀ (by norm_num)]; linarith)
  have m3 := roundToDouble_mono_fin _ _ _ _
    (div_le_div_of_nonneg_right m2 (by norm_num : (0 : ℚ) ≤ 60)) ea3 eb3
  rw [ea1, JsNum.fin_div_fin _ _ (by norm_num), ea2, JsNum.fin_div_fin _ _ (by norm_num),
    ea3, JsNum.fin_mul_fin] at hx
  rw [eb1, JsNum.fin_div_fin _ _ (by norm_num), eb2, JsNum.fin_div_fin _ _ (by norm_num),
    eb3, JsNum.fin_mul_fin] at hy
  exact roundToDouble_mono_fin _ _ _ _
    (mul_le_mul_of_nonneg_right m3 (by norm_num : (0 : ℚ) ≤ 60)) hx hy

/-- The seconds of a whole number of minutes are exact. -/
theorem seconds_whole_minutes (d : Int) (h : |d| ≤ 2 ^ 54) (hm : d % 60000 = 0) :
    (((roundToDouble (d : ℚ)).div (.fin 1000)).div (.fin 60)).mul (.fin 60) =
      .fin ((d : ℚ) / 1000) := by
  have hb := abs_le.mp h
  rw [duration_whole_minutes d h hm, JsNum.fin_mul_fin]
  obtain ⟨m, rfl⟩ : ∃ m, d = 60000 * m := ⟨d / 60000, by omega⟩
  have hdiv : 60000 * m / 60000 = m := by omega
  have hm2 : |60 * m| ≤ 2 ^ 53 := by
    rw [abs_le]
    constructor <;> omega
  have h1 : ((m : Int) : ℚ) * 60 = ((60 * m : Int) : ℚ) := by
    push_cast
    ring
  have h2 : ((60000 * m : Int) : ℚ) / 1000 = ((60 * m : Int) : ℚ) := by
    push_cast
    field_simp
    ring
  rw [hdiv, h1, h2]
  exact roundToDouble_intCast _ hm2

/-- The width of the bar of a session in progress, as `updateCountdowns`
computes it from the two differences of time values. -/
theorem updateCountdown_width (now s e : Int) (h1 : s ≤ now) (h2 : now ≤ e) :
    (updateCountdown now (some s) (some e)).branch = .inProgress ∧
      (updateCountdown now (some s) (some e)).width =
        some
          ((((((roundToDouble ((e - now : Int) : ℚ)).div (.fin 1000)).div (.fin 60)).mul
              (.fin 60)).div
            ((((roundToDouble ((e - s : Int) : ℚ)).div (.fin 1000)).div (.fin 60)).mul
              (.fin 60))).mul (.fin 100)) := by
  have hlt : ¬ ((now : ℚ) < (s : ℚ)) := by
    push_neg
    exact_mod_cast h1
  have hle1 : (s : ℚ) ≤ (now : ℚ) := by exact_mod_cast h1
  have hle2 : (now : ℚ) ≤ (e : ℚ) := by exact_mod_cast h2
  simp only [updateCountdown, JsNum.ofTime, JsNum.ofInt, JsNum.lt, JsNum.le, hlt, hle1, hle2,
    decide_True, decide_False, Bool.and_self, if_true, if_false, Bool.false_eq_true,
    ← calculateDurationInMinutes_eq]
  exact ⟨trivial, trivial⟩

theorem updateCountdown_branch (t s e : Int) (hse : s ≤ e) :
    ((updateCountdown t (some s) (some e)).branch = .notStarted ↔ t < s) ∧
      ((updateCountdown t (some s) (some e)).branch = .inProgress ↔ s ≤ t ∧ t ≤ e) ∧
      ((updateCountdown t (some s) (some e)).branch = .completed ↔ e < t) := by
  rcases lt_or_le t s with c1 | c1
  · have hlt : (t : ℚ) < (s : ℚ) := by exact_mod_cast c1
    have hb : (updateCountdown t (some s) (some e)).branch = .notStarted := by
      simp [updateCountdown, JsNum.ofTime, JsNum.ofInt, JsNum.lt, hlt]
    rw [hb]
    refine ⟨by simp [c1], ?_, ?_⟩
    · constructor
      · intro h
        cases h
      · intro h
        omega
    · constructor
      · intro h
        cases h
      · intro h
        omega
  · rcases lt_or_le e t with c2 | c2
    · have hlt : ¬ ((t : ℚ) < (s : ℚ)) := by
        push_neg
        exact_mod_cast c1
      have hle2 : ¬ ((t : ℚ) ≤ (e : ℚ)) := by
        push_neg
        exact_mod_cast c2
      have hb : (updateCountdown t (some s) (some e)).branch = .completed := by
        simp [updateCountdown, JsNum.ofTime, JsNum.ofInt, JsNum.lt, JsNum.le, hlt, hle2]
      rw [hb]
      refine ⟨?_, ?_, by simp [c2]⟩
      · constructor
        · intro h
          cases h
        · intro h
          omega
      · constructor
        · intro h
          cases h
        · intro h
          omega
    · have hb := (updateCountdown_width t s e c1 c2).1
      rw [hb]
      refine ⟨?_, by simp [c1, c2], ?_⟩
      · constructor
        · intro h
          cases h
        · intro h
          omega
      · constructor
        · intro h
          cases h
        · intro h
          omega

theorem seconds_zero :
    (((roundToDouble ((0 : Int) : ℚ)).div (.fin 1000)).div (.fin 60)).mul (.fin 60) = .fin 0 := by
  decide!

/-- The four roundings of the seconds lose less than one part in `2 ^ 50`. -/
theorem seconds_near (d : Int) (h0 : 0 ≤ d) (h2 : d ≤ 2 ^ 54) (x : ℚ)
    (hx : (((roundToDouble (d : ℚ)).div (.fin 1000)).div (.fin 60)).mul (.fin 60) = .fin x) :
    |x - (d : ℚ) / 1000| ≤ (d : ℚ) / 1000 / 2 ^ 50 := by
  rcases lt_or_le d 1 with hd | hd
  · have hz : d = 0 := by omega
    subst hz
    rw [seconds_zero] at hx
    rw [← JsNum.fin.inj hx]
    simp
  · have hd1 : (1 : ℚ) ≤ d := by exact_mod_cast hd
    have hd2 : (d : ℚ) ≤ 2 ^ 54 := by exact_mod_cast h2
    have habsd : |d| ≤ 2 ^ 54 := by
      rw [abs_le]
      constructor <;> omega
    obtain ⟨v, hv, l, u⟩ := duration_pos d hd h2
    have near := duration_near d habsd v hv
    have hD : |(d : ℚ) / 60000| = (d : ℚ) / 60000 := abs_of_nonneg (by positivity)
    rw [hD] at near
    have c := abs_le.mp near
    have hv0 : (0 : ℚ) ≤ v := by
      have : (0 : ℚ) < 1 / 2 ^ 20 := by norm_num
      linarith
    have habs60 : |v * 60| = v * 60 := abs_of_nonneg (by positivity)
    obtain ⟨x', ex', bx'⟩ := roundToDouble_rel_mid (v * 60)
      (by rw [habs60]; linarith)
      (by
        rw [habs60]
        norm_num at c ⊢
        linarith)
    rw [hv, JsNum.fin_mul_fin, ex'] at hx
    have hxx : x' = x := JsNum.fin.inj hx
    subst hxx
    rw [habs60] at bx'
    have c2 := abs_le.mp bx'
    rw [abs_le]
    norm_num at c c2 ⊢
    constructor <;> linarith

theorem ratio_near (x y X Y : ℚ) (hX0 : 0 ≤ X) (hXY : X ≤ Y) (hY : 0 < Y)
    (hx : |x - X| ≤ X / 2 ^ 50) (hy : |y - Y| ≤ Y / 2 ^ 50) :
    |x / y - X / Y| ≤ 1 / 2 ^ 48 := by
  have cx := abs_le.mp hx
  have cy := abs_le.mp hy
  have hypos : 0 < y := by
    have : Y / 2 ^ 50 < Y := by
      rw [div_lt_iff₀ (by positivity)]
      have : Y * 1 < Y * 2 ^ 50 := mul_lt_mul_of_pos_left (by norm_num) hY
      linarith
    linarith
  have hyY : 0 < y * Y := mul_pos hypos hY
  rw [div_sub_div _ _ (ne_of_gt hypos) (ne_of_gt hY), abs_div, abs_of_pos hyY,
    div_le_iff₀ hyY]
  have hP0 : 0 ≤ X * Y := mul_nonneg hX0 hY.le
  have hPQ : X * Y ≤ Y * Y := mul_le_mul_of_nonneg_right hXY hY.le
  have e1 : (x - X) * Y ≤ X / 2 ^ 50 * Y := mul_le_mul_of_nonneg_right cx.2 hY.le
  have e2 : -(X / 2 ^ 50) * Y ≤ (x - X) * Y := mul_le_mul_of_nonneg_right cx.1 hY.le
  have e3 : (y - Y) * X ≤ Y / 2 ^ 50 * X := mul_le_mul_of_nonneg_right cy.2 hX0
  have e4 : -(Y / 2 ^ 50) * X ≤ (y - Y) * X := mul_le_mul_of_nonneg_right cy.1 hX0
  have e5 : -(Y / 2 ^ 50) * Y ≤ (y - Y) * Y := mul_le_mul_of_nonneg_right cy.1 hY.le
  have hsplit : x * Y - y * X = (x - X) * Y - (y - Y) * X := by ring
  have hyYe : y * Y = Y * Y + (y - Y) * Y := by ring
  rw [hsplit, abs_le]
  norm_num at e1 e2 e3 e4 e5 ⊢
  constructor <;> nlinarith

/-- C30, as stated, fails: for a session of 90 minutes with 4088 seconds left,
the bar width computed through `calculateDurationInMinutes(...) * 60` is not the
value of `(endTime - now) / (endTime - startTime) * 100`, in double arithmetic
or exactly. -/
theorem updateCountdown_width_counterexample :
    (updateCountdown 1672654912000 (some 1672653600000) (some 1672659000000)).width ≠
        some (((JsNum.ofInt (1672659000000 - 1672654912000)).div
          (.ofInt (1672659000000 - 1672653600000))).mul (.fin 100)) ∧
      (updateCountdown 1672654912000 (some 1672653600000) (some 1672659000000)).width ≠
        some (.fin (4088000 / 5400000 * 100)) := by
  constructor <;> decide!

/-- C30, amended: in `updateCountdowns`, for a session with `startTime < endTime`
in the range of `Date`, at every instant exactly one branch is taken (not
started when `now < startTime`, in progress when `startTime ≤ now ≤ endTime`,
completed when `now > endTime`), and for `startTime ≤ now ≤ endTime` the bar
width is a finite percentage in `[0, 100]`, exactly 100 at `now = startTime` and
0 at `now = endTime`, within `2 ^ (-40)` of
`(endTime - now) / (endTime - startTime) * 100`, and equal to that expression
evaluated in double arithmetic when both differences are whole minutes. -/
theorem updateCountdown_in_progress (now s e : Int) (hs : |s| ≤ maxTimeValue)
    (he : |e| ≤ maxTimeValue) (hse : s < e) (h1 : s ≤ now) (h2 : now ≤ e) :
    (∀ t : Int,
      ((updateCountdown t (some s) (some e)).branch = .notStarted ↔ t < s) ∧
      ((updateCountdown t (some s) (some e)).branch = .inProgress ↔ s ≤ t ∧ t ≤ e) ∧
      ((updateCountdown t (some s) (some e)).branch = .completed ↔ e < t)) ∧
    ∃ w : ℚ, (updateCountdown now (some s) (some e)).width = some (.fin w) ∧
      0 ≤ w ∧ w ≤ 100 ∧ (now = s → w = 100) ∧ (now = e → w = 0) ∧
      |w - ((e - now : Int) : ℚ) / ((e - s : Int) : ℚ) * 100| ≤ 1 / 2 ^ 40 ∧
      ((e - now) % 60000 = 0 → (e - s) % 60000 = 0 →
        JsNum.fin w = ((JsNum.ofInt (e - now)).div (.ofInt (e - s))).mul (.fin 100)) := by
  refine ⟨fun t => updateCountdown_branch t s e hse.le, ?_⟩
  have hs' := abs_le.mp hs
  have he' := abs_le.mp he
  simp only [maxTimeValue] at hs' he'
  have d2pos : 1 ≤ e - s := by omega
  have d2le : e - s ≤ 2 ^ 54 := by omega
  have d1nn : 0 ≤ e - now := by omega
  have d1le : e - now ≤ e - s := by omega
  obtain ⟨y, hy, y0, -, ypos⟩ := seconds_nonneg (e - s) (by omega) d2le
  obtain ⟨x, hx, x0, -, -⟩ := seconds_nonneg (e - now) d1nn (by omega)
  have hxy := seconds_mono (e - now) (e - s) d1nn d1le d2le x y hx hy
  have hypos : 0 < y := lt_of_lt_of_le (by norm_num) (ypos d2pos)
  have hyne : y ≠ 0 := ne_of_gt hypos
  obtain ⟨r, er, r0, r1⟩ := roundToDouble_between (x / y) 0 1 roundToDouble_zero
    roundToDouble_one (div_nonneg x0 y0) ((div_le_one hypos).mpr hxy)
  obtain ⟨w, ew, w0, w1⟩ := roundToDouble_between (r * 100) 0 100 roundToDouble_zero
    roundToDouble_hundred (by positivity) (by linarith)
  have hwidth : (updateCountdown now (some s) (some e)).width = some (.fin w) := by
    rw [(updateCountdown_width now s e h1 h2).2, hx, hy, JsNum.fin_div_fin _ _ hyne, er,
      JsNum.fin_mul_fin, ew]
  refine ⟨w, hwidth, w0, w1, ?_, ?_, ?_, ?_⟩
  · intro hns
    subst hns
    have hxy' : x = y := JsNum.fin.inj (hx.symm.trans hy)
    rw [hxy', div_self hyne, roundToDouble_one] at er
    rw [← JsNum.fin.inj er, one_mul, roundToDouble_hundred] at ew
    exact (JsNum.fin.inj ew).symm
  · intro hne
    subst hne
    rw [sub_self, seconds_zero] at hx
    rw [← JsNum.fin.inj hx, zero_div, roundToDouble_zero] at er
    rw [← JsNum.fin.inj er, zero_mul, roundToDouble_zero] at ew
    exact (JsNum.fin.inj ew).symm
  · have nx := seconds_near (e - now) d1nn (by omega) x hx
    have ny := seconds_near (e - s) (by omega) d2le y hy
    have hq2 : (0 : ℚ) < ((e - s : Int) : ℚ) := by exact_mod_cast (by omega : 0 < e - s)
    have hq1 : (0 : ℚ) ≤ ((e - now : Int) : ℚ) := by exact_mod_cast d1nn
    have hq12 : ((e - now : Int) : ℚ) ≤ ((e - s : Int) : ℚ) := by exact_mod_cast d1le
    have hrat := ratio_near x y (((e - now : Int) : ℚ) / 1000) (((e - s : Int) : ℚ) / 1000)
      (by positivity) (div_le_div_of_nonneg_right hq12 (by norm_num)) (by positivity) nx ny
    have hsame : ((e - now : Int) : ℚ) / 1000 / (((e - s : Int) : ℚ) / 1000) =
        ((e - now : Int) : ℚ) / ((e - s : Int) : ℚ) := by
      field_simp
    rw [hsame] at hrat
    have h0' : twoPow 0 = 1 := by decide!
    have h53 : twoPow (0 - 53) = 1 / 2 ^ 53 := by decide!
    obtain ⟨r', er', br'⟩ := roundToDouble_close (x / y) 0 (by norm_num) (by norm_num) (by
      rw [h0', abs_of_nonneg (div_nonneg x0 y0)]
      exact (div_le_one hypos).mpr hxy)
    rw [h53] at br'
    have hrr : r' = r := JsNum.fin.inj (er'.symm.trans er)
    subst hrr
    obtain ⟨w', ew', bw'⟩ := roundToDouble_near (r' * 100) (by
      rw [abs_of_nonneg (by positivity)]
      linarith)
    have hww : w' = w := JsNum.fin.inj (ew'.symm.trans ew)
    subst hww
    have c1 := abs_le.mp hrat
    have c2 := abs_le.mp br'
    have c3 := abs_le.mp bw'
    rw [abs_le]
    norm_num at c1 c2 c3 ⊢
    constructor <;> linarith
  · intro hm1 hm2
    have a1 : |e - now| ≤ 2 ^ 54 := by
      rw [abs_le]
      constructor <;> omega
    have a2 : |e - s| ≤ 2 ^ 54 := by
      rw [abs_le]
      constructor <;> omega
    have sx := seconds_whole_minutes (e - now) a1 hm1
    have sy := seconds_whole_minutes (e - s) a2 hm2
    have hq2 : ((e - s : Int) : ℚ) ≠ 0 := by
      have : (0 : ℚ) < ((e - s : Int) : ℚ) := by exact_mod_cast (by omega : 0 < e - s)
      exact ne_of_gt this
    have ex' : x = ((e - now : Int) : ℚ) / 1000 := JsNum.fin.inj (hx.symm.trans sx)
    have ey' : y = ((e - s : Int) : ℚ) / 1000 := JsNum.fin.inj (hy.symm.trans sy)
    have hsame : x / y = ((e - now : Int) : ℚ) / ((e - s : Int) : ℚ) := by
      rw [ex', ey']
      field_simp
    rw [hsame] at er
    simp only [JsNum.ofInt]
    rw [JsNum.fin_div_fin _ _ hq2, er, JsNum.fin_mul_fin, ew]

/-- Witness for C30: a session from 10:00 to 11:30 shows the full bar at 10:00,
a third of it at 11:00 and none of it at 11:30. -/
theorem updateCountdown_in_progress_witness :
    (updateCountdown 1672653600000 (some 1672653600000) (some 1672659000000)).width =
        some (.fin 100) ∧
      (updateCountdown 1672659000000 (some 1672653600000) (some 1672659000000)).width =
        some (.fin 0) ∧
      (updateCountdown 1672657200000 (some 1672653600000) (some 1672659000000)).width =
        some (((JsNum.ofInt 1800000).div (.ofInt 5400000)).mul (.fin 100)) := by
  refine ⟨?_, ?_, ?_⟩
  · obtain ⟨-, w, hw, -, -, hfull, -, -, -⟩ :=
      updateCountdown_in_progress 1672653600000 1672653600000 1672659000000 (by decide)
        (by decide) (by decide) (by decide) (by decide)
    rw [hw, hfull rfl]
  · obtain ⟨-, w, hw, -, -, -, hnone, -, -⟩ :=
      updateCountdown_in_progress 1672659000000 1672653600000 1672659000000 (by decide)
        (by decide) (by decide) (by decide) (by decide)
    rw [hw, hnone rfl]
  · obtain ⟨-, w, hw, -, -, -, -, -, hmin⟩ :=
      updateCountdown_in_progress 1672657200000 1672653600000 1672659000000 (by decide)
        (by decide) (by decide) (by decide) (by decide)
    rw [hw, hmin (by decide) (by decide)]
    rfl

/-! ## The ring of `updateProgress` -/

theorem updateProgress_dashOffset_eq (tz now : Int) (timerId : Nat) (startDate : Option Int)
    (dec : JsNum) (T : Int) (radius : JsNum) :
    (updateProgress tz now timerId startDate dec T radius).dashOffset =
        (updateProgress tz now timerId startDate dec T radius).circumference.mul
          ((JsNum.fin 1).sub
            ((updateProgress tz now timerId startDate dec T radius).remainingPercentage.div
              (.fin 100))) ∧
      (updateProgress tz now timerId startDate dec T radius).circumference =
        ((JsNum.fin 2).mul mathPI).mul radius ∧
      (updateProgress tz now timerId startDate dec T radius).strokeDasharray =
        (updateProgress tz now timerId startDate dec T radius).circumference ∧
      (updateProgress tz now timerId startDate dec T radius).strokeDashoffset =
        (updateProgress tz now timerId startDate dec T radius).dashOffset :=
  ⟨rfl, rfl, rfl, rfl⟩

theorem updateProgressEarlier_eq (tz now : Int) (timerId : Nat) (startDate : Option Int)
    (dec : JsNum) (T : Int) (radius : JsNum) :
    (updateProgressEarlier tz now timerId startDate dec T radius).remainingPercentage =
        (updateProgress tz now timerId startDate dec T radius).remainingPercentage ∧
      (updateProgressEarlier tz now timerId startDate dec T radius).circumference =
        (updateProgress tz now timerId startDate dec T radius).circumference ∧
      (updateProgressEarlier tz now timerId startDate dec T radius).textContent =
        (updateProgress tz now timerId startDate dec T radius).textContent ∧
      (updateProgressEarlier tz now timerId startDate dec T radius).strokeDasharray =
        (updateProgress tz now timerId startDate dec T radius).circumference ∧
      (updateProgressEarlier tz now timerId startDate dec T radius).dashOffset =
        (updateProgress tz now timerId startDate dec T radius).circumference.mul
          ((updateProgress tz now timerId startDate dec T radius).remainingPercentage.div
            (.fin 100)) ∧
      (updateProgressEarlier tz now timerId startDate dec T radius).strokeDashoffset =
        (updateProgressEarlier tz now timerId startDate dec T radius).dashOffset :=
  ⟨rfl, rfl, rfl, rfl, rfl, rfl⟩

theorem two_pi_eq :
    (JsNum.fin 2).mul mathPI = .fin (884279719003555 / 140737488355328) := by decide!

theorem twoPow_1022 : twoPow 1022 = 8 * twoPow 1019 := by
  have h3 : twoPow 3 = 8 := by decide!
  rw [← h3, ← twoPow_add]
  rfl

/-- The circumference for a finite radius is a double, of the sign of the
radius. -/
theorem circumference_fin (r : ℚ) (h : |r| ≤ twoPow 1019) :
    ∃ c, ((JsNum.fin 2).mul mathPI).mul (.fin r) = .fin c ∧ roundToDouble c = .fin c ∧
      (0 ≤ r → 0 ≤ c) ∧ (|r| ≤ 1024 → |c| ≤ 2 ^ 13) := by
  rw [two_pi_eq, JsNum.fin_mul_fin]
  have hb : |884279719003555 / 140737488355328 * r| ≤ twoPow 1022 := by
    rw [twoPow_1022, abs_mul, abs_of_pos (by norm_num : (0 : ℚ) < 884279719003555 / 140737488355328)]
    have h8 : (884279719003555 / 140737488355328 : ℚ) * |r| ≤ 8 * |r| :=
      mul_le_mul_of_nonneg_right (by norm_num) (abs_nonneg r)
    linarith
  obtain ⟨c, hc, -⟩ := roundToDouble_close _ 1022 (by norm_num) (by norm_num) hb
  refine ⟨c, hc, roundToDouble_idem _ _ hc, ?_, ?_⟩
  · intro h0
    exact roundToDouble_mono_fin 0 _ 0 c (mul_nonneg (by norm_num) h0) roundToDouble_zero hc
  · intro hr
    have hr' := abs_le.mp hr
    have hlo : roundToDouble (-(2 ^ 13)) = .fin (-(2 ^ 13)) := by decide!
    have hhi : roundToDouble (2 ^ 13) = .fin (2 ^ 13) := by decide!
    obtain ⟨c', hc', l, u⟩ := roundToDouble_between
      (884279719003555 / 140737488355328 * r) (-(2 ^ 13)) (2 ^ 13) hlo hhi
      (by norm_num; linarith) (by norm_num; linarith)
    have : c' = c := JsNum.fin.inj (hc'.symm.trans hc)
    subst this
    exact abs_le.mpr ⟨l, u⟩

theorem JsNum.le_fin_cases (x : JsNum) (c : ℚ) (h : JsNum.le x (.fin c) = true) :
    x = .negInf ∨ ∃ v, x = .fin v ∧ v ≤ c := by
  cases x with
  | nan => simp [JsNum.le] at h
  | posInf => simp [JsNum.le] at h
  | negInf => exact Or.inl rfl
  | fin v =>
    right
    exact ⟨v, rfl, by simpa [JsNum.le] using h⟩

theorem JsNum.add_fin_le (x : JsNum) (c y k : ℚ) (hx : JsNum.le x (.fin c) = true)
    (hk : roundToDouble k = .fin k) (h : c + y ≤ k) :
    JsNum.le (x.add (.fin y)) (.fin k) = true := by
  rcases JsNum.le_fin_cases x c hx with rfl | ⟨v, rfl, hv⟩
  · rfl
  · have := roundToDouble_mono (v + y) k (by linarith)
    rw [hk] at this
    exact this

/-- With no whole day left, the remaining percentage is at most 2. -/
theorem percentage_small (d : ℚ) (r h m : Int) (hd : 0 ≤ d) (hr : r ≤ 0)
    (hh0 : 0 ≤ h) (hh : h ≤ 23) (hm0 : 0 ≤ m) (hm : m ≤ 59) :
    ∃ p, ((((JsNum.ofInt r).mul (.fin d)).add ((JsNum.ofInt h).div (.fin 24))).add
          ((JsNum.ofInt m).div ((JsNum.fin 24).mul (.fin 60)))).max (.fin 0) = .fin p ∧
      0 ≤ p ∧ p ≤ 2 := by
  have hhq0 : (0 : ℚ) ≤ h := by exact_mod_cast hh0
  have hhq : (h : ℚ) ≤ 23 := by exact_mod_cast hh
  have hmq0 : (0 : ℚ) ≤ m := by exact_mod_cast hm0
  have hmq : (m : ℚ) ≤ 59 := by exact_mod_cast hm
  have hrq : (r : ℚ) ≤ 0 := by exact_mod_cast hr
  have h2 : roundToDouble 2 = .fin 2 := by decide!
  have hA : JsNum.le ((JsNum.ofInt r).mul (.fin d)) (.fin 0) = true := by
    have := roundToDouble_mono ((r : ℚ) * d) 0 (mul_nonpos_of_nonpos_of_nonneg hrq hd)
    rw [roundToDouble_zero] at this
    exact this
  obtain ⟨hb, ehb, hb0, hb1⟩ := roundToDouble_between ((h : ℚ) / 24) 0 1 roundToDouble_zero
    roundToDouble_one (by positivity) (by rw [div_le_iff₀ (by norm_num)]; linarith)
  obtain ⟨mc, emc, mc0, mc1⟩ := roundToDouble_between ((m : ℚ) / 1440) 0 1 roundToDouble_zero
    roundToDouble_one (by positivity) (by rw [div_le_iff₀ (by norm_num)]; linarith)
  have eB : (JsNum.ofInt h).div (.fin 24) = .fin hb := by
    simp only [JsNum.ofInt]
    rw [JsNum.fin_div_fin _ _ (by norm_num), ehb]
  have eC : (JsNum.ofInt m).div ((JsNum.fin 24).mul (.fin 60)) = .fin mc := by
    simp only [JsNum.ofInt]
    rw [minutesPerDay_eq, JsNum.fin_div_fin _ _ (by norm_num), emc]
  rw [eB, eC]
  have hAB := JsNum.add_fin_le _ 0 hb 1 hA roundToDouble_one (by linarith)
  have hABC := JsNum.add_fin_le _ 1 mc 2 hAB h2 (by linarith)
  rcases JsNum.le_fin_cases _ 2 hABC with e | ⟨t, e, ht⟩
  · rw [e]
    exact ⟨0, rfl, le_rfl, by norm_num⟩
  · rw [e]
    refine ⟨max t 0, rfl, le_max_right _ _, max_le ht (by norm_num)⟩

/-- With at most `T - 1` whole days left of `T ≤ 100`, the remaining percentage
is below 100. -/
theorem percentage_le_hundred (T r h m : Int) (hT1 : 1 ≤ T) (hT2 : T ≤ 100) (hr : r ≤ T - 1)
    (hh0 : 0 ≤ h) (hh : h ≤ 23) (hm0 : 0 ≤ m) (hm : m ≤ 59) :
    ∃ p, ((((JsNum.ofInt r).mul ((JsNum.fin 100).div (.ofInt T))).add
            ((JsNum.ofInt h).div (.fin 24))).add
          ((JsNum.ofInt m).div ((JsNum.fin 24).mul (.fin 60)))).max (.fin 0) = .fin p ∧
      0 ≤ p ∧ p ≤ 100 := by
  obtain ⟨d, hd, bd⟩ := decrement_near T hT1
  rw [hd]
  have hTq1 : (1 : ℚ) ≤ T := by exact_mod_cast hT1
  have hTq2 : (T : ℚ) ≤ 100 := by exact_mod_cast hT2
  have hTpos : (0 : ℚ) < T := by linarith
  have hu1 : (1 : ℚ) ≤ 100 / (T : ℚ) := by
    rw [le_div_iff₀ hTpos]
    linarith
  have hTu : (T : ℚ) * (100 / (T : ℚ)) = 100 := by
    field_simp
  have cd := abs_le.mp bd
  have hd0 : 0 ≤ d := by
    norm_num at cd
    linarith
  rcases le_or_lt r 0 with hr0 | hr0
  · obtain ⟨p, hp, p0, p2⟩ := percentage_small d r h m hd0 hr0 hh0 hh hm0 hm
    exact ⟨p, hp, p0, by linarith⟩
  · have hrq0 : (0 : ℚ) ≤ r := by exact_mod_cast hr0.le
    have hrq : (r : ℚ) ≤ (T : ℚ) - 1 := by exact_mod_cast hr
    have hhq0 : (0 : ℚ) ≤ h := by exact_mod_cast hh0
    have hhq : (h : ℚ) ≤ 23 := by exact_mod_cast hh
    have hmq0 : (0 : ℚ) ≤ m := by exact_mod_cast hm0
    have hmq : (m : ℚ) ≤ 59 := by exact_mod_cast hm
    have hT1' : (0 : ℚ) ≤ (T : ℚ) - 1 := by linarith
    have s1 : (r : ℚ) * d ≤ ((T : ℚ) - 1) * d := mul_le_mul_of_nonneg_right hrq hd0
    have s2 : ((T : ℚ) - 1) * d ≤ ((T : ℚ) - 1) * (100 / (T : ℚ) + 1 / 2 ^ 45) :=
      mul_le_mul_of_nonneg_left (by linarith) hT1'
    have s3 : ((T : ℚ) - 1) * (100 / (T : ℚ) + 1 / 2 ^ 45) =
        100 - 100 / (T : ℚ) + ((T : ℚ) - 1) * (1 / 2 ^ 45) := by
      have : ((T : ℚ) - 1) * (100 / (T : ℚ)) = 100 - 100 / (T : ℚ) := by
        rw [sub_mul, hTu, one_mul]
      rw [mul_add, this]
    have s4 : ((T : ℚ) - 1) * (1 / 2 ^ 45) ≤ 99 * (1 / 2 ^ 45) :=
      mul_le_mul_of_nonneg_right (by linarith) (by norm_num)
    have hrd0 : 0 ≤ (r : ℚ) * d := mul_nonneg hrq0 hd0
    have hrd : (r : ℚ) * d ≤ 99 + 99 * (1 / 2 ^ 45) := by linarith
    obtain ⟨p, hp, bp⟩ := totalRemaining_near d r h m
      (by
        rw [abs_of_nonneg hrd0]
        norm_num at hrd ⊢
        linarith) hh0 hh hm0 hm
    rw [hp]
    have cp := abs_le.mp bp
    have hh24 : (h : ℚ) / 24 ≤ 23 / 24 := div_le_div_of_nonneg_right hhq (by norm_num)
    have hm1440 : (m : ℚ) / 1440 ≤ 59 / 1440 := div_le_div_of_nonneg_right hmq (by norm_num)
    refine ⟨max p 0, rfl, le_max_right _ _, max_le ?_ (by norm_num)⟩
    norm_num at cp hrd hh24 hm1440 ⊢
    linarith

theorem calculateWorkingDays_pos (tz s e : Int) (hday : isWorkingDay (localDay tz s))
    (h : s ≤ e) : 1 ≤ calculateWorkingDays tz s e := by
  rw [calculateWorkingDays_eq]
  have hf : 1 ≤ loopFuel s e := by
    simp only [loopFuel, msPerDay]
    omega
  have hmono := weekdayCountFrom_mono 1 (localDay tz s) (loopFuel s e) hf
  have h1 : weekdayCountFrom (localDay tz s) 1 = 1 := by
    simp [weekdayCountFrom, hday]
  rw [h1] at hmono
  exact_mod_cast hmono

/-- The dash offset for a percentage in `[0, 100]` and a finite circumference
that is not negative lies between 0 and the circumference. -/
theorem dashOffset_on_ring (c p : ℚ) (hc : roundToDouble c = .fin c) (hc0 : 0 ≤ c)
    (hp0 : 0 ≤ p) (hp : p ≤ 100) :
    ∃ o, (JsNum.fin c).mul ((JsNum.fin 1).sub ((JsNum.fin p).div (.fin 100))) = .fin o ∧
      0 ≤ o ∧ o ≤ c := by
  obtain ⟨t, et, t0, t1⟩ := roundToDouble_between (p / 100) 0 1 roundToDouble_zero
    roundToDouble_one (by positivity) (by rw [div_le_iff₀ (by norm_num)]; linarith)
  obtain ⟨u, eu, u0, u1⟩ := roundToDouble_between (1 - t) 0 1 roundToDouble_zero
    roundToDouble_one (by linarith) (by linarith)
  obtain ⟨o, eo, o0, o1⟩ := roundToDouble_between (c * u) 0 c roundToDouble_zero hc
    (mul_nonneg hc0 u0) (by
      have := mul_le_mul_of_nonneg_left u1 hc0
      linarith)
  refine ⟨o, ?_, o0, o1⟩
  rw [JsNum.fin_div_fin _ _ (by norm_num), et]
  have hsub : (JsNum.fin 1).sub (.fin t) = roundToDouble (1 - t) := rfl
  rw [hsub, eu, JsNum.fin_mul_fin, eo]

/-- C29: for an activity whose start day is a weekday, `1 ≤ totalDays ≤ 100`,
`decrementPerDay = 100 / totalDays`, `now > activityStart` and a radius that is
not negative (and small enough for the circumference to be finite), the
remaining percentage of `updateProgress` is a finite number in `[0, 100]` and
the dash offset is a finite number in `[0, circumference]`; the hours and
minutes are those of `getRemainingTimeInDayIST`, always within 0..23 and
0..59. -/
theorem updateProgress_on_ring (tz start now : Int) (timerId : Nat) (T : Int) (r : ℚ)
    (hday : isWorkingDay (localDay tz start)) (hT1 : 1 ≤ T) (hT2 : T ≤ 100)
    (hnow : start < now) (hr0 : 0 ≤ r) (hr : r ≤ twoPow 1019) :
    ∃ p c o : ℚ,
      (updateProgress tz now timerId (some start) ((JsNum.fin 100).div (.ofInt T)) T
        (.fin r)).remainingPercentage = .fin p ∧
      (updateProgress tz now timerId (some start) ((JsNum.fin 100).div (.ofInt T)) T
        (.fin r)).circumference = .fin c ∧
      (updateProgress tz now timerId (some start) ((JsNum.fin 100).div (.ofInt T)) T
        (.fin r)).dashOffset = .fin o ∧
      0 ≤ p ∧ p ≤ 100 ∧ 0 ≤ o ∧ o ≤ c := by
  have hcwd := calculateWorkingDays_pos tz start now hday hnow.le
  obtain ⟨hh0, hh, hm0, hm⟩ := getRemainingTimeInDayIST_bounds tz now
  obtain ⟨p, hp, p0, p100⟩ := percentage_le_hundred T
    (T - (calculateWorkingDays tz start now - 1) - 1)
    (getRemainingTimeInDayIST tz now).hours (getRemainingTimeInDayIST tz now).minutes
    hT1 hT2 (by omega) hh0 hh hm0 hm
  have hpct := (updateProgress_started tz now timerId start ((JsNum.fin 100).div (.ofInt T)) T
    (.fin r) hnow).2.2.2.1
  rw [hp] at hpct
  obtain ⟨c, hc, hidem, hc0, -⟩ := circumference_fin r (by rw [abs_of_nonneg hr0]; exact hr)
  obtain ⟨h1, h2, -, -⟩ := updateProgress_dashOffset_eq tz now timerId (some start)
    ((JsNum.fin 100).div (.ofInt T)) T (.fin r)
  rw [hc] at h2
  obtain ⟨o, ho, o0, o1⟩ := dashOffset_on_ring c p hidem (hc0 hr0) p0 p100
  rw [h2, hpct, ho] at h1
  exact ⟨p, c, o, hpct, h2, h1, p0, p100, o0, o1⟩

/-- Witness for C29 in UTC: an activity of five working days that started on
Monday 2023-01-02, seen on Wednesday 2023-01-04 at 10:00 with radius 160. -/
theorem updateProgress_on_ring_witness :
    ∃ p c o : ℚ,
      (updateProgress 0 1672826400000 2 (some 1672617600000) ((JsNum.fin 100).div (.ofInt 5)) 5
        (.fin 160)).remainingPercentage = .fin p ∧
      (updateProgress 0 1672826400000 2 (some 1672617600000) ((JsNum.fin 100).div (.ofInt 5)) 5
        (.fin 160)).circumference = .fin c ∧
      (updateProgress 0 1672826400000 2 (some 1672617600000) ((JsNum.fin 100).div (.ofInt 5)) 5
        (.fin 160)).dashOffset = .fin o ∧
      0 ≤ p ∧ p ≤ 100 ∧ 0 ≤ o ∧ o ≤ c :=
  updateProgress_on_ring 0 1672617600000 1672826400000 2 5 160 (by decide) (by decide)
    (by decide) (by decide) (by norm_num)
    (le_trans (by decide! : (160 : ℚ) ≤ twoPow 8) (twoPow_le 8 1019 (by decide)))


theorem offset_full (c : ℚ) :
    (JsNum.fin c).mul ((JsNum.fin 1).sub ((JsNum.fin 100).div (.fin 100))) = .fin 0 := by
  have h : (JsNum.fin 1).sub ((JsNum.fin 100).div (.fin 100)) = .fin 0 := by decide!
  rw [h, JsNum.fin_mul_fin, mul_zero, roundToDouble_zero]

theorem offset_empty (c : ℚ) (hc : roundToDouble c = .fin c) :
    (JsNum.fin c).mul ((JsNum.fin 1).sub ((JsNum.fin 0).div (.fin 100))) = .fin c := by
  have h : (JsNum.fin 1).sub ((JsNum.fin 0).div (.fin 100)) = .fin 1 := by decide!
  rw [h, JsNum.fin_mul_fin, mul_one, hc]

theorem earlier_offset_full (c : ℚ) (hc : roundToDouble c = .fin c) :
    (JsNum.fin c).mul ((JsNum.fin 100).div (.fin 100)) = .fin c := by
  have h : (JsNum.fin 100).div (.fin 100) = .fin 1 := by decide!
  rw [h, JsNum.fin_mul_fin, mul_one, hc]

theorem earlier_offset_empty (c : ℚ) :
    (JsNum.fin c).mul ((JsNum.fin 0).div (.fin 100)) = .fin 0 := by
  have h : (JsNum.fin 0).div (.fin 100) = .fin 0 := by decide!
  rw [h, JsNum.fin_mul_fin, mul_zero, roundToDouble_zero]

theorem offset_half :
    (JsNum.fin 1).sub ((JsNum.fin 50).div (.fin 100)) = (JsNum.fin 50).div (.fin 100) := by
  decide!

/-- The two dash offsets of a circumference of at most `2 ^ 13` add up to the
circumference within `2 ^ (-35)`. -/
theorem offsets_sum_near (c p : ℚ) (hc : |c| ≤ 2 ^ 13) (hp : |p| ≤ 200) :
    ∃ o o', (JsNum.fin c).mul ((JsNum.fin 1).sub ((JsNum.fin p).div (.fin 100))) = .fin o ∧
      (JsNum.fin c).mul ((JsNum.fin p).div (.fin 100)) = .fin o' ∧
      |o + o' - c| ≤ 1 / 2 ^ 35 := by
  have k1 : twoPow 1 = 2 := by decide!
  have k1' : twoPow (1 - 53) = 1 / 2 ^ 52 := by decide!
  have k2 : twoPow 2 = 4 := by decide!
  have k2' : twoPow (2 - 53) = 1 / 2 ^ 51 := by decide!
  have k16 : twoPow 16 = 2 ^ 16 := by decide!
  have k16' : twoPow (16 - 53) = 1 / 2 ^ 37 := by decide!
  have hp' := abs_le.mp hp
  have hc0 := abs_nonneg c
  obtain ⟨t, et, bt⟩ := roundToDouble_close (p / 100) 1 (by norm_num) (by norm_num) (by
    rw [k1, abs_div, abs_of_pos (by norm_num : (0 : ℚ) < 100), div_le_iff₀ (by norm_num)]
    linarith)
  rw [k1'] at bt
  have ct := abs_le.mp bt
  have ht : |t| ≤ 3 := by
    rw [abs_le]
    norm_num at ct ⊢
    constructor <;> linarith
  obtain ⟨u, eu, bu⟩ := roundToDouble_close (1 - t) 2 (by norm_num) (by norm_num) (by
    rw [k2]
    have := abs_le.mp ht
    rw [abs_le]
    constructor <;> linarith)
  rw [k2'] at bu
  have cu := abs_le.mp bu
  have hu : |u| ≤ 5 := by
    have := abs_le.mp ht
    rw [abs_le]
    norm_num at cu ⊢
    constructor <;> linarith
  have hct : |c * t| ≤ 2 ^ 16 := by
    rw [abs_mul]
    calc |c| * |t| ≤ 2 ^ 13 * 3 := mul_le_mul hc ht (abs_nonneg t) (by norm_num)
      _ ≤ 2 ^ 16 := by norm_num
  have hcu : |c * u| ≤ 2 ^ 16 := by
    rw [abs_mul]
    calc |c| * |u| ≤ 2 ^ 13 * 5 := mul_le_mul hc hu (abs_nonneg u) (by norm_num)
      _ ≤ 2 ^ 16 := by norm_num
  obtain ⟨o', eo', bo'⟩ := roundToDouble_close (c * t) 16 (by norm_num) (by norm_num)
    (by rw [k16]; exact hct)
  obtain ⟨o, eo, bo⟩ := roundToDouble_close (c * u) 16 (by norm_num) (by norm_num)
    (by rw [k16]; exact hcu)
  rw [k16'] at bo bo'
  have hrest : |c * (u + t - 1)| ≤ 2 ^ 13 * (1 / 2 ^ 51) := by
    rw [abs_mul]
    have : u + t - 1 = u - (1 - t) := by ring
    rw [this]
    exact mul_le_mul hc bu (abs_nonneg _) (by norm_num)
  refine ⟨o, o', ?_, ?_, ?_⟩
  · rw [JsNum.fin_div_fin _ _ (by norm_num), et]
    have hsub : (JsNum.fin 1).sub (.fin t) = roundToDouble (1 - t) := rfl
    rw [hsub, eu, JsNum.fin_mul_fin, eo]
  · rw [JsNum.fin_div_fin _ _ (by norm_num), et, JsNum.fin_mul_fin, eo']
  · have hsplit : o + o' - c = (o - c * u) + (o' - c * t) + c * (u + t - 1) := by ring
    have c1 := abs_le.mp bo
    have c2 := abs_le.mp bo'
    have c3 := abs_le.mp hrest
    rw [hsplit, abs_le]
    norm_num at c1 c2 c3 ⊢
    constructor <;> linarith

/-! ## Timers beyond the range of the runtime -/

theorem nodeTimerDelay_eq (delay : Int) :
    nodeTimerDelay delay = delay ↔ 1 ≤ delay ∧ delay ≤ 2147483647 := by
  unfold nodeTimerDelay timeoutMax
  split_ifs with h
  · simp [h]
  · constructor
    · intro h1
      omega
    · intro h1
      exact absurd h1 h

/-- C1 fails on the code: for an enabled alert due 30 days after start-up the
loop body of `scheduleAllReminders` calls `setTimeout` with the delay
2592000000, which is above the largest delay of the runtime, so the timer runs
after 1 ms and the notification is shown at once instead of at the alert time;
the runtime keeps a delay exactly when it is between 1 and 2147483647. -/
theorem scheduleAllReminders_long_delay :
    scheduleAllReminders (sampleCalendar [sampleSession (some [sampleAlert 2593000000])])
        1000000 true =
      .ok [.consoleLog "Found alert:", .consoleLog "Scheduling alert for",
        .setTimeout
          (scheduledCallback (sampleSession (some [sampleAlert 2593000000]))
            (sampleAlert 2593000000))
          2592000000] ∧
    timersDue
        (scheduleAlert 1000000 true (sampleSession (some [sampleAlert 2593000000]))
          (sampleAlert 2593000000)) = [1] ∧
    timersDue
        (scheduleAlert 1000000 true (sampleSession (some [sampleAlert 4600000]))
          (sampleAlert 4600000)) = [3600000] ∧
    (∀ delay : Int, nodeTimerDelay delay = delay ↔ 1 ≤ delay ∧ delay ≤ 2147483647) :=
  ⟨rfl, by decide, by decide, nodeTimerDelay_eq⟩

/-- C2 fails on the code: a reminder submitted at the very start of its session
with an offset of two minutes is due two minutes ago; the `set-reminder` handler
neither arms nor fires, while `scheduleAllReminders` fires that alert at once at
the same instant; and a reminder due 30 days ahead is handed to `setTimeout`
with a delay the runtime replaces by 1 ms. -/
theorem setReminder_no_grace_window :
    firingAction
        (setReminder (sampleEnv 600000 0)
          ⟨sampleCalendar [sampleSession none], sampleCalendar [sampleSession none]⟩
          (sampleRequest 2)).effects = .skipped ∧
    firingAction
        (scheduleAlert 600000 true (sampleSession none)
          (newAlert 0 600000 (sampleRequest 2))) = .firedNow ∧
    (newAlert 0 600000 (sampleRequest 2)).alertTime.getTime = some 480000 ∧
    timersDue
        (setReminder (sampleEnv 600000 0)
          ⟨sampleCalendar [sampleSession none], sampleCalendar [sampleSession none]⟩
          (sampleRequest (-43200))).effects = [1] := by
  refine ⟨by decide, by decide, by decide, by decide⟩

/-! ## Hosts whose clock changes -/

theorem calculateWorkingDaysLoop_fixed (tz e : Int) (n : Nat) :
    ∀ st : Int × Int,
      Host.calculateWorkingDaysLoop (Host.fixed tz) e n st = calculateWorkingDaysLoop tz e n st := by
  induction n with
  | zero =>
    intro st
    rfl
  | succ n ih =>
    rintro ⟨c, acc⟩
    have hstep : (Host.fixed tz).utcOf ((Host.fixed tz).localOf c + msPerDay) = c + msPerDay := by
      simp only [Host.fixed]
      ring
    have hday : (Host.fixed tz).getDay c = getDay tz c := rfl
    simp only [Host.calculateWorkingDaysLoop, calculateWorkingDaysLoop, hstep, hday, ih]

/-- On a host whose offset is constant the function `calculateWorkingDays` on a
host is `calculateWorkingDays`, and the loop has left the range when its fuel
ends. -/
theorem calculateWorkingDays_fixed (tz s e : Int) :
    Host.calculateWorkingDays (Host.fixed tz) s e = calculateWorkingDays tz s e ∧
      e < (Host.calculateWorkingDaysState (Host.fixed tz) s e).1 := by
  have hk : Host.loopFuel s e = loopFuel s e + (Host.loopFuel s e - loopFuel s e) := by
    simp only [Host.loopFuel, loopFuel, msPerDay]
    omega
  have hstate : Host.calculateWorkingDaysState (Host.fixed tz) s e =
      calculateWorkingDaysState tz s e := by
    rw [Host.calculateWorkingDaysState, calculateWorkingDaysLoop_fixed, hk]
    exact (calculateWorkingDaysLoop_fuel tz s e _).1
  constructor
  · rw [Host.calculateWorkingDays, hstate]
    rfl
  · rw [hstate]
    exact (calculateWorkingDaysLoop_fuel tz s e 0).2

/-- On a host whose offset is constant the function `getRemainingTimeInDayIST`
on a host is `getRemainingTimeInDayIST`. -/
theorem getRemainingTimeInDayIST_fixed (tz clock : Int) :
    Host.getRemainingTimeInDayIST (Host.fixed tz) clock = getRemainingTimeInDayIST tz clock := by
  have h : ∀ a b c d : Int, a = c → b = d →
      ({ hours := a, minutes := b } : RemainingTime) = { hours := c, minutes := d } := by
    intro a b c d h1 h2
    rw [h1, h2]
  simp only [Host.getRemainingTimeInDayIST, getRemainingTimeInDayIST, Host.fixed, midnight,
    timeOfDay, localMs, msPerDay, istOffsetMs]
  apply h <;> omega

/-- C23 fails on the code: on a host in `Europe/Paris` the function re-reads the
Asia/Kolkata wall clock as a local time of the host, so on the days the host's
clock changes the time left is an hour off: at 00:30 in Asia/Kolkata on
2023-10-29 it returns 24 hours 29 minutes, and on 2023-03-26 it returns 22 hours
at 00:30 and 20 hours at 02:30, where a host with a constant offset returns 23,
23 and 21 hours. -/
theorem getRemainingTimeInDayIST_clock_change :
    Host.getRemainingTimeInDayIST europeParis 1698519600000 = { hours := 24, minutes := 29 } ∧
    Host.getRemainingTimeInDayIST europeParis 1679770800000 = { hours := 22, minutes := 29 } ∧
    Host.getRemainingTimeInDayIST europeParis 1679778000000 = { hours := 20, minutes := 29 } ∧
    (∀ tz : Int,
      Host.getRemainingTimeInDayIST (Host.fixed tz) 1698519600000 =
          { hours := 23, minutes := 29 } ∧
        Host.getRemainingTimeInDayIST (Host.fixed tz) 1679770800000 =
          { hours := 23, minutes := 29 } ∧
        Host.getRemainingTimeInDayIST (Host.fixed tz) 1679778000000 =
          { hours := 21, minutes := 29 }) := by
  refine ⟨by decide, by decide, by decide, fun tz => ?_⟩
  have h : ∀ a b c d : Int, a = c → b = d →
      ({ hours := a, minutes := b } : RemainingTime) = { hours := c, minutes := d } := by
    intro a b c d h1 h2
    rw [h1, h2]
  simp only [Host.getRemainingTimeInDayIST, Host.fixed, msPerDay, istOffsetMs]
  refine ⟨?_, ?_, ?_⟩ <;> apply h <;> omega

/-- C28, as stated, fails: on a host in `Europe/Paris`, from Monday 2023-10-23
02:00 local time the count up to the same instant is 1 and the count up to seven
times 86400000 ms later, Monday 2023-10-30 01:00 local time after the clock
change of 2023-10-29, is 5 and not 6; the loop has left the range both times. -/
theorem calculateWorkingDays_add_week_counterexample :
    Host.calculateWorkingDays europeParis 1698019200000 1698019200000 = 1 ∧
      Host.calculateWorkingDays europeParis 1698019200000 (1698019200000 + 7 * msPerDay) = 5 ∧
      1698019200000 <
        (Host.calculateWorkingDaysState europeParis 1698019200000 1698019200000).1 ∧
      1698019200000 + 7 * msPerDay <
        (Host.calculateWorkingDaysState europeParis 1698019200000
          (1698019200000 + 7 * msPerDay)).1 := by
  refine ⟨by decide, by decide, by decide, by decide⟩

/-- C28, amended: on a host whose offset from UTC is constant, for
`start ≤ end`, moving the end seven days of 86400000 ms later adds exactly five
to `calculateWorkingDays`, whatever the weekdays and times of day, and the loop
ends within its fuel. -/
theorem calculateWorkingDays_add_week_fixed (tz s e : Int) (h : s ≤ e) :
    Host.calculateWorkingDays (Host.fixed tz) s (e + 7 * msPerDay) =
        Host.calculateWorkingDays (Host.fixed tz) s e + 5 ∧
      e + 7 * msPerDay <
        (Host.calculateWorkingDaysState (Host.fixed tz) s (e + 7 * msPerDay)).1 ∧
      e < (Host.calculateWorkingDaysState (Host.fixed tz) s e).1 := by
  refine ⟨?_, (calculateWorkingDays_fixed tz s _).2, (calculateWorkingDays_fixed tz s e).2⟩
  rw [(calculateWorkingDays_fixed tz s _).1, (calculateWorkingDays_fixed tz s e).1,
    calculateWorkingDays_eq, calculateWorkingDays_eq, loopFuel_add_week s e h,
    weekdayCountFrom_add, weekdayCountFrom_week]
  push_cast
  ring

/-- Witness for the amended C28 on a host at UTC: from Monday 2023-01-02 09:00,
the count up to Wednesday 2023-01-11 08:00 is the count up to Wednesday
2023-01-04 08:00 plus 5, that is 7. -/
theorem calculateWorkingDays_add_week_fixed_witness :
    Host.calculateWorkingDays (Host.fixed 0) 1672650000000 (1672819200000 + 7 * msPerDay) = 7 :=
  (calculateWorkingDays_add_week_fixed 0 1672650000000 1672819200000 (by decide)).1.trans
    (by decide)

/-! ## Where the two dash offsets agree -/

theorem binade_eq (q : ℚ) (hq : q ≠ 0) (b : Int) (h1 : twoPow b ≤ |q|)
    (h2 : |q| < twoPow (b + 1)) : binade q.num.natAbs q.den = b := by
  have l := binade_abs_lower q hq
  have u := binade_abs_upper q hq
  have e1 : binade q.num.natAbs q.den < b + 1 := (twoPow_lt_iff _ _).mp (lt_of_le_of_lt l h2)
  have e2 : b < binade q.num.natAbs q.den + 1 := (twoPow_lt_iff _ _).mp (lt_of_le_of_lt h1 u)
  omega

/-- A positive double is a whole multiple, of at most `2 ^ 53`, of the spacing
of its binade. -/
theorem double_significand (x : ℚ) (hx : 0 < x) (hd : roundToDouble x = .fin x) :
    ∃ N : Nat, N ≤ 2 ^ 53 ∧ x = (N : ℚ) * quantum x ∧ x < twoPow 1024 := by
  have hx0 : x ≠ 0 := ne_of_gt hx
  simp only [roundToDouble, if_neg hx0, if_pos hx] at hd
  by_cases hover : twoPow 1024 ≤ roundedMagnitude x
  · rw [if_pos hover] at hd
    cases hd
  · rw [if_neg hover] at hd
    have hrm : roundedMagnitude x = x := JsNum.fin.inj hd
    refine ⟨_, significand_le x hx0, ?_, ?_⟩
    · have hform : roundedMagnitude x =
          (roundHalfEven (|x| / quantum x).num.natAbs (|x| / quantum x).den : ℚ) * quantum x :=
        rfl
      rw [← hform]
      exact hrm.symm
    · rw [← hrm]
      exact not_le.mp hover

/-- Between two neighbouring multiples of the spacing of a binade there is no
double. -/
theorem double_gap (x : ℚ) (b : Int) (M : Nat) (hb : -1022 ≤ b)
    (hd : roundToDouble x = .fin x) (h1 : twoPow b ≤ x) (h2 : x < twoPow (b + 1)) :
    (x < (M : ℚ) * twoPow (b - 52) → x ≤ ((M : ℚ) - 1) * twoPow (b - 52)) ∧
      ((M : ℚ) * twoPow (b - 52) < x → ((M : ℚ) + 1) * twoPow (b - 52) ≤ x) := by
  have hx : 0 < x := lt_of_lt_of_le (twoPow_pos b) h1
  obtain ⟨N, -, hN, -⟩ := double_significand x hx hd
  have hbin : binade x.num.natAbs x.den = b :=
    binade_eq x (ne_of_gt hx) b (by rw [abs_of_pos hx]; exact h1)
      (by rw [abs_of_pos hx]; exact h2)
  have hq : quantum x = twoPow (b - 52) := by
    rw [quantum_eq, hbin, max_eq_left hb]
  rw [hq] at hN
  have hu := twoPow_pos (b - 52)
  constructor
  · intro hlt
    rw [hN] at hlt ⊢
    have hNM : (N : ℚ) < (M : ℚ) := lt_of_mul_lt_mul_right hlt hu.le
    have hNM' : N + 1 ≤ M := by exact_mod_cast hNM
    have hNM'' : (N : ℚ) ≤ (M : ℚ) - 1 := by
      have : ((N + 1 : Nat) : ℚ) ≤ (M : ℚ) := by exact_mod_cast hNM'
      push_cast at this
      linarith
    exact mul_le_mul_of_nonneg_right hNM'' hu.le
  · intro hlt
    rw [hN] at hlt ⊢
    have hNM : (M : ℚ) < (N : ℚ) := lt_of_mul_lt_mul_right hlt hu.le
    have hNM' : M + 1 ≤ N := by exact_mod_cast hNM
    have hNM'' : (M : ℚ) + 1 ≤ (N : ℚ) := by
      have : ((M + 1 : Nat) : ℚ) ≤ (N : ℚ) := by exact_mod_cast hNM'
      push_cast at this
      linarith
    exact mul_le_mul_of_nonneg_right hNM'' hu.le

/-- The doubles next to 50 are `50 - 2 ^ (-47)` and `50 + 2 ^ (-47)`. -/
theorem double_next_to_fifty (p : ℚ) (hd : roundToDouble p = .fin p) :
    (p < 50 → p ≤ 50 - 1 / 2 ^ 47) ∧ (50 < p → 50 + 1 / 2 ^ 47 ≤ p) := by
  have k5 : twoPow 5 = 32 := by decide!
  have k6 : twoPow (5 + 1) = 64 := by decide!
  have ku : twoPow (5 - 52) = 1 / 2 ^ 47 := by decide!
  constructor
  · intro hlt
    rcases lt_or_le p 32 with h32 | h32
    · have : (32 : ℚ) ≤ 50 - 1 / 2 ^ 47 := by norm_num
      linarith
    · have hgap := (double_gap p 5 (50 * 2 ^ 47) (by norm_num) hd (by rw [k5]; exact h32)
        (by rw [k6]; linarith)).1
      rw [ku] at hgap
      have := hgap (by push_cast; norm_num; linarith)
      push_cast at this
      norm_num at this ⊢
      linarith
  · intro hlt
    rcases lt_or_le p 64 with h64 | h64
    · have hgap := (double_gap p 5 (50 * 2 ^ 47) (by norm_num) hd (by rw [k5]; linarith)
        (by rw [k6]; exact h64)).2
      rw [ku] at hgap
      have := hgap (by push_cast; norm_num; linarith)
      push_cast at this
      norm_num at this ⊢
      linarith
    · have : (50 : ℚ) + 1 / 2 ^ 47 ≤ 64 := by norm_num
      linarith

/-- Half of a double that is not near the bottom of the range is a double. -/
theorem roundToDouble_half (c : ℚ) (hc : 0 < c) (hd : roundToDouble c = .fin c)
    (hlo : twoPow (-1021) ≤ c) : roundToDouble (c / 2) = .fin (c / 2) := by
  obtain ⟨N, hN, hx, hlt⟩ := double_significand c hc hd
  have hup := binade_abs_upper c (ne_of_gt hc)
  rw [abs_of_pos hc] at hup
  have hB : -1021 ≤ binade c.num.natAbs c.den := by
    have : (-1021 : Int) < binade c.num.natAbs c.den + 1 :=
      (twoPow_lt_iff _ _).mp (lt_of_le_of_lt hlo hup)
    omega
  have hq : quantum c = 2 * twoPow (binade c.num.natAbs c.den - 53) := by
    rw [quantum_eq, max_eq_left (by omega), ← twoPow_succ]
    congr 1
    ring
  have hhalf : c / 2 = (N : ℚ) * twoPow (binade c.num.natAbs c.den - 53) := by
    rw [hq] at hx
    linarith
  rw [hhalf]
  apply roundToDouble_scaled N _ hN (by omega)
  rw [← hhalf]
  linarith

theorem JsNum.ne_of_separated (x y : JsNum) (w h : ℚ) (hx : JsNum.le x (.fin w) = true)
    (hy : JsNum.le (.fin h) y = true) (hwh : w < h) : x ≠ y := by
  cases x <;> cases y <;> simp [JsNum.le] at hx hy ⊢
  intro heq
  rw [heq] at hx
  linarith

/-- The product of a double `c` with a factor a little below one half rounds
below `c / 2`. -/
theorem roundToDouble_below_half (c f : ℚ) (hlo : twoPow (-1000) ≤ c) (hhi : c ≤ twoPow 1003)
    (hf1 : 1 / 4 ≤ f) (hf2 : f ≤ 1 / 2 - 1 / 2 ^ 54) :
    ∃ w, roundToDouble (c * f) = .fin w ∧ w < c / 2 := by
  have hc : 0 < c := lt_of_lt_of_le (twoPow_pos _) hlo
  have hcf : 0 < c * f := mul_pos hc (by linarith)
  have k2 : twoPow (-1002) = twoPow (-1000) * (1 / 4) := by
    have : twoPow (-2) = 1 / 4 := by decide!
    rw [← this, ← twoPow_add]
    rfl
  obtain ⟨w, hw, bw⟩ := roundToDouble_rel (c * f)
    (by
      rw [abs_of_pos hcf]
      calc twoPow (-1022) ≤ twoPow (-1002) := twoPow_le _ _ (by norm_num)
        _ = twoPow (-1000) * (1 / 4) := k2
        _ ≤ c * f := mul_le_mul hlo hf1 (by norm_num) hc.le)
    (by
      rw [abs_of_pos hcf]
      calc c * f ≤ c * 1 := mul_le_mul_of_nonneg_left (by linarith) hc.le
        _ = c := mul_one c
        _ ≤ twoPow 1003 := hhi
        _ ≤ twoPow 1022 := twoPow_le _ _ (by norm_num))
  refine ⟨w, hw, ?_⟩
  rw [abs_of_pos hcf] at bw
  have cw := (abs_le.mp bw).2
  have hcf2 : c * f ≤ c * (1 / 2 - 1 / 2 ^ 54) := mul_le_mul_of_nonneg_left hf2 hc.le
  norm_num at cw hcf2 ⊢
  linarith

/-- For a circumference `c` that is a positive double and a percentage `p` that
is a double and not negative, the two dash offsets `c * (p / 100)` and
`c * (1 - p / 100)` are equal exactly when `p = 50`. -/
theorem offsets_agree_iff (c p : ℚ) (hc : roundToDouble c = .fin c)
    (hlo : twoPow (-1000) ≤ c) (hhi : c ≤ twoPow 1003) (hp : roundToDouble p = .fin p)
    (hp0 : 0 ≤ p) :
    (JsNum.fin c).mul ((JsNum.fin p).div (.fin 100)) =
        (JsNum.fin c).mul ((JsNum.fin 1).sub ((JsNum.fin p).div (.fin 100))) ↔
      p = 50 := by
  have hcpos : 0 < c := lt_of_lt_of_le (twoPow_pos _) hlo
  have hhalf : roundToDouble (c / 2) = .fin (c / 2) :=
    roundToDouble_half c hcpos hc (le_trans (twoPow_le _ _ (by norm_num)) hlo)
  have hsub : ∀ t : ℚ, (JsNum.fin 1).sub (.fin t) = roundToDouble (1 - t) := fun _ => rfl
  have hbelow : roundToDouble ((50 - 1 / 2 ^ 47) / 100) = .fin (1 / 2 - 1 / 2 ^ 54) := by decide!
  have habove : roundToDouble ((50 + 1 / 2 ^ 47) / 100) = .fin (1 / 2 + 1 / 2 ^ 53) := by decide!
  have hhalf1 : roundToDouble (1 / 2) = .fin (1 / 2) := by decide!
  have hlow2 : roundToDouble (1 / 2 - 1 / 2 ^ 53) = .fin (1 / 2 - 1 / 2 ^ 53) := by decide!
  constructor
  · intro heq
    by_contra hne
    rcases lt_or_gt_of_ne hne with hlt | hgt
    · -- the percentage is below 50: the earlier offset is below `c / 2`, the other is not
      have hpm := (double_next_to_fifty p hp).1 hlt
      have m1 := roundToDouble_mono 0 (p / 100) (div_nonneg hp0 (by norm_num))
      have m2 := roundToDouble_mono (p / 100) ((50 - 1 / 2 ^ 47) / 100)
        (div_le_div_of_nonneg_right hpm (by norm_num))
      rw [roundToDouble_zero] at m1
      rw [hbelow] at m2
      cases ht : roundToDouble (p / 100) with
      | nan => simp [ht, JsNum.le] at m1
      | posInf => simp [ht, JsNum.le] at m2
      | negInf => simp [ht, JsNum.le] at m1
      | fin t =>
        rw [ht] at m1 m2
        simp only [JsNum.le, decide_eq_true_eq] at m1 m2
        rw [JsNum.fin_div_fin _ _ (by norm_num), ht, hsub] at heq
        obtain ⟨u, hu, u1, u2⟩ := roundToDouble_between (1 - t) (1 / 2) 1 hhalf1
          roundToDouble_one (by linarith) (by linarith)
        rw [hu, JsNum.fin_mul_fin, JsNum.fin_mul_fin] at heq
        obtain ⟨w, hw, hwlt⟩ := roundToDouble_below_half c (1 / 2 - 1 / 2 ^ 54) hlo hhi
          (by norm_num) le_rfl
        have l1 := roundToDouble_mono (c * t) (c * (1 / 2 - 1 / 2 ^ 54))
          (mul_le_mul_of_nonneg_left m2 hcpos.le)
        rw [hw] at l1
        have l2 := roundToDouble_mono (c / 2) (c * u) (by
          have := mul_le_mul_of_nonneg_left u1 hcpos.le
          linarith)
        rw [hhalf] at l2
        exact JsNum.ne_of_separated _ _ w (c / 2) l1 l2 hwlt heq
    · -- the percentage is above 50: the exported offset is below `c / 2`, the other is not
      have hpp := (double_next_to_fifty p hp).2 hgt
      have m1 := roundToDouble_mono ((50 + 1 / 2 ^ 47) / 100) (p / 100)
        (div_le_div_of_nonneg_right hpp (by norm_num))
      have m2 := roundToDouble_mono (p / 100) p (by
        rw [div_le_iff₀ (by norm_num)]
        linarith)
      rw [habove] at m1
      rw [hp] at m2
      cases ht : roundToDouble (p / 100) with
      | nan => simp [ht, JsNum.le] at m1
      | posInf => simp [ht, JsNum.le] at m2
      | negInf => simp [ht, JsNum.le] at m1
      | fin t =>
        rw [ht] at m1 m2
        simp only [JsNum.le, decide_eq_true_eq] at m1 m2
        rw [JsNum.fin_div_fin _ _ (by norm_num), ht, hsub] at heq
        have hneg : roundToDouble (-p) = .fin (-p) := by
          rw [roundToDouble_neg, hp]
          rfl
        have n1 := roundToDouble_mono (-p) (1 - t) (by linarith)
        have n2 := roundToDouble_mono (1 - t) (1 / 2 - 1 / 2 ^ 53) (by linarith)
        rw [hneg] at n1
        rw [hlow2] at n2
        cases hu : roundToDouble (1 - t) with
        | nan => simp [hu, JsNum.le] at n1
        | posInf => simp [hu, JsNum.le] at n2
        | negInf => simp [hu, JsNum.le] at n1
        | fin u =>
          rw [hu] at n1 n2
          simp only [JsNum.le, decide_eq_true_eq] at n1 n2
          rw [hu, JsNum.fin_mul_fin, JsNum.fin_mul_fin] at heq
          obtain ⟨w, hw, hwlt⟩ := roundToDouble_below_half c (1 / 2 - 1 / 2 ^ 54) hlo hhi
            (by norm_num) le_rfl
          have l1 := roundToDouble_mono (c * u) (c * (1 / 2 - 1 / 2 ^ 54))
            (mul_le_mul_of_nonneg_left (by
              have : (1 : ℚ) / 2 - 1 / 2 ^ 53 ≤ 1 / 2 - 1 / 2 ^ 54 := by norm_num
              linarith) hcpos.le)
          rw [hw] at l1
          have l2 := roundToDouble_mono (c / 2) (c * t) (by
            have := mul_le_mul_of_nonneg_left
              (by linarith : (1 : ℚ) / 2 ≤ t) hcpos.le
            linarith)
          rw [hhalf] at l2
          exact JsNum.ne_of_separated _ _ w (c / 2) l1 l2 hwlt heq.symm
  · intro h50
    rw [h50, offset_half]

theorem JsNum.add_idem (a b : JsNum) (v : ℚ) (h : a.add b = .fin v) :
    roundToDouble v = .fin v := by
  cases a <;> cases b <;> simp only [JsNum.add] at h <;> try cases h
  exact roundToDouble_idem _ _ h

/-- A remaining percentage that is a number is a double and not negative. -/
theorem updateProgress_percentage_double (tz now : Int) (timerId : Nat)
    (startDate : Option Int) (dec : JsNum) (T : Int) (radius : JsNum) (p : ℚ)
    (hp : (updateProgress tz now timerId startDate dec T radius).remainingPercentage = .fin p) :
    roundToDouble p = .fin p ∧ 0 ≤ p := by
  have hform : ∃ a b : JsNum,
      (updateProgress tz now timerId startDate dec T radius).remainingPercentage =
        (a.add b).max (.fin 0) := ⟨_, _, rfl⟩
  obtain ⟨a, b, hab⟩ := hform
  rw [hp] at hab
  cases hx : a.add b with
  | nan => simp [hx, JsNum.max] at hab
  | posInf => simp [hx, JsNum.max] at hab
  | negInf =>
    simp only [hx, JsNum.max] at hab
    rw [JsNum.fin.inj hab]
    exact ⟨roundToDouble_zero, le_rfl⟩
  | fin v =>
    simp only [hx, JsNum.max] at hab
    have hv := JsNum.add_idem a b v hx
    have hpv : p = max v 0 := JsNum.fin.inj hab
    rcases le_total v 0 with h0 | h0
    · rw [hpv, max_eq_right h0]
      exact ⟨roundToDouble_zero, le_rfl⟩
    · rw [hpv, max_eq_left h0]
      exact ⟨hv, h0⟩

/-- The circumference for a radius in the normal range is a positive double. -/
theorem circumference_pos (r : ℚ) (h1 : twoPow (-1000) ≤ r) (h2 : r ≤ twoPow 1000) :
    ∃ c, ((JsNum.fin 2).mul mathPI).mul (.fin r) = .fin c ∧ roundToDouble c = .fin c ∧
      twoPow (-1000) ≤ c ∧ c ≤ twoPow 1003 := by
  have hr0 : 0 < r := lt_of_lt_of_le (twoPow_pos _) h1
  have k3 : twoPow 1003 = 8 * twoPow 1000 := by
    have h3 : twoPow 3 = 8 := by decide!
    rw [← h3, ← twoPow_add]
    rfl
  have hlo : roundToDouble (twoPow (-1000)) = .fin (twoPow (-1000)) := by
    have := roundToDouble_scaled 1 (-1000) (by norm_num) (by norm_num) (by
      rw [Nat.cast_one, one_mul]
      exact (twoPow_lt_iff _ _).mpr (by norm_num))
    rwa [Nat.cast_one, one_mul] at this
  have hhi : roundToDouble (twoPow 1003) = .fin (twoPow 1003) := by
    have := roundToDouble_scaled 1 1003 (by norm_num) (by norm_num) (by
      rw [Nat.cast_one, one_mul]
      exact (twoPow_lt_iff _ _).mpr (by norm_num))
    rwa [Nat.cast_one, one_mul] at this
  rw [two_pi_eq, JsNum.fin_mul_fin]
  obtain ⟨c, hc, l, u⟩ := roundToDouble_between (884279719003555 / 140737488355328 * r)
    (twoPow (-1000)) (twoPow 1003) hlo hhi
    (by
      have : (1 : ℚ) * r ≤ 884279719003555 / 140737488355328 * r :=
        mul_le_mul_of_nonneg_right (by norm_num) hr0.le
      linarith)
    (by
      have : (884279719003555 / 140737488355328 : ℚ) * r ≤ 8 * r :=
        mul_le_mul_of_nonneg_right (by norm_num) hr0.le
      rw [k3]
      linarith)
  exact ⟨c, hc, roundToDouble_idem _ _ hc, l, u⟩

/-- C22, as stated, fails: with radius 160, for an activity of one working day
seen at 23:55 in Asia/Kolkata (remaining percentage `4 / 1440`), the dash
offsets of the two declarations of `updateProgress` do not add up to the
circumference; and when the remaining percentage is `NaN` (the call
`handleSmallBatchTimer` makes for an activity without working days) both
offsets are `NaN`, so they agree where the percentage is not 50. -/
theorem updateProgress_offsets_counterexample :
    ((updateProgressEarlier 0 1672683900000 2 (some 1672617600000)
          ((JsNum.fin 100).div (.ofInt 1)) 1 (.fin 160)).dashOffset.add
        (updateProgress 0 1672683900000 2 (some 1672617600000)
          ((JsNum.fin 100).div (.ofInt 1)) 1 (.fin 160)).dashOffset ≠
      (updateProgress 0 1672683900000 2 (some 1672617600000)
        ((JsNum.fin 100).div (.ofInt 1)) 1 (.fin 160)).circumference) ∧
    (updateProgress 0 1673697600000 2 (some 1673654400000) .posInf 0
        (.fin 160)).remainingPercentage = .nan ∧
    (updateProgressEarlier 0 1673697600000 2 (some 1673654400000) .posInf 0
        (.fin 160)).dashOffset =
      (updateProgress 0 1673697600000 2 (some 1673654400000) .posInf 0
        (.fin 160)).dashOffset := by
  refine ⟨?_, ?_, ?_⟩ <;> decide!

/-- C22, amended: for a finite radius, the exported `updateProgress` sets
`stroke-dasharray` to `circumference = 2 * pi * circleRadius` and
`stroke-dashoffset` to `circumference * (1 - remainingPercentage / 100)`, which
is 0 when the remaining percentage is 100 and the circumference when it is 0;
the earlier declaration computes the same percentage and circumference and the
offset `circumference * (remainingPercentage / 100)`, which is the circumference
at 100 and 0 at 0; for a positive radius and a remaining percentage that is a
number the two offsets agree only at 50, where they do agree; and for a radius
of at most 1024 and a percentage of at most 200 they add up to the circumference
within `2 ^ (-35)`. -/
theorem updateProgress_dash_offset (tz now : Int) (timerId : Nat) (startDate : Option Int)
    (dec : JsNum) (T : Int) (r : ℚ) (hr : |r| ≤ twoPow 1019) :
    (updateProgress tz now timerId startDate dec T (.fin r)).dashOffset =
        (updateProgress tz now timerId startDate dec T (.fin r)).circumference.mul
          ((JsNum.fin 1).sub
            ((updateProgress tz now timerId startDate dec T (.fin r)).remainingPercentage.div
              (.fin 100))) ∧
      (updateProgress tz now timerId startDate dec T (.fin r)).circumference =
        ((JsNum.fin 2).mul mathPI).mul (.fin r) ∧
      (updateProgress tz now timerId startDate dec T (.fin r)).strokeDasharray =
        (updateProgress tz now timerId startDate dec T (.fin r)).circumference ∧
      (updateProgress tz now timerId startDate dec T (.fin r)).strokeDashoffset =
        (updateProgress tz now timerId startDate dec T (.fin r)).dashOffset ∧
      ((updateProgress tz now timerId startDate dec T (.fin r)).remainingPercentage = .fin 100 →
        (updateProgress tz now timerId startDate dec T (.fin r)).dashOffset = .fin 0) ∧
      ((updateProgress tz now timerId startDate dec T (.fin r)).remainingPercentage = .fin 0 →
        (updateProgress tz now timerId startDate dec T (.fin r)).dashOffset =
          (updateProgress tz now timerId startDate dec T (.fin r)).circumference) ∧
      (updateProgressEarlier tz now timerId startDate dec T (.fin r)).remainingPercentage =
        (updateProgress tz now timerId startDate dec T (.fin r)).remainingPercentage ∧
      (updateProgressEarlier tz now timerId startDate dec T (.fin r)).strokeDasharray =
        (updateProgress tz now timerId startDate dec T (.fin r)).circumference ∧
      (updateProgressEarlier tz now timerId startDate dec T (.fin r)).dashOffset =
        (updateProgress tz now timerId startDate dec T (.fin r)).circumference.mul
          ((updateProgress tz now timerId startDate dec T (.fin r)).remainingPercentage.div
            (.fin 100)) ∧
      ((updateProgress tz now timerId startDate dec T (.fin r)).remainingPercentage = .fin 100 →
        (updateProgressEarlier tz now timerId startDate dec T (.fin r)).dashOffset =
          (updateProgress tz now timerId startDate dec T (.fin r)).circumference) ∧
      ((updateProgress tz now timerId startDate dec T (.fin r)).remainingPercentage = .fin 0 →
        (updateProgressEarlier tz now timerId startDate dec T (.fin r)).dashOffset = .fin 0) ∧
      (twoPow (-1000) ≤ r → r ≤ twoPow 1000 → ∀ p : ℚ,
        (updateProgress tz now timerId startDate dec T (.fin r)).remainingPercentage = .fin p →
        ((updateProgressEarlier tz now timerId startDate dec T (.fin r)).dashOffset =
            (updateProgress tz now timerId startDate dec T (.fin r)).dashOffset ↔
          p = 50)) ∧
      (|r| ≤ 1024 → ∀ p : ℚ,
        (updateProgress tz now timerId startDate dec T (.fin r)).remainingPercentage = .fin p →
        p ≤ 200 →
        ∃ c o o' : ℚ,
          (updateProgress tz now timerId startDate dec T (.fin r)).circumference = .fin c ∧
          (updateProgress tz now timerId startDate dec T (.fin r)).dashOffset = .fin o ∧
          (updateProgressEarlier tz now timerId startDate dec T (.fin r)).dashOffset = .fin o' ∧
          |o + o' - c| ≤ 1 / 2 ^ 35) := by
  obtain ⟨g1, g2, g3, g4⟩ := updateProgress_dashOffset_eq tz now timerId startDate dec T (.fin r)
  obtain ⟨e1, -, -, e4, e5, -⟩ := updateProgressEarlier_eq tz now timerId startDate dec T (.fin r)
  obtain ⟨c, hc, hidem, -, hsmall⟩ := circumference_fin r hr
  have hcirc : (updateProgress tz now timerId startDate dec T (.fin r)).circumference = .fin c :=
    g2.trans hc
  refine ⟨g1, g2, g3, g4, ?_, ?_, e1, e4, e5, ?_, ?_, ?_, ?_⟩
  · intro h
    rw [g1, h, hcirc]
    exact offset_full c
  · intro h
    rw [g1, h, hcirc]
    exact offset_empty c hidem
  · intro h
    rw [e5, h, hcirc]
    exact earlier_offset_full c hidem
  · intro h
    rw [e5, h, hcirc]
    exact earlier_offset_empty c
  · intro h1 h2 p hp
    obtain ⟨c', hc', hidem', hlo, hhi⟩ := circumference_pos r h1 h2
    have hcc : c' = c := JsNum.fin.inj (hc'.symm.trans hc)
    subst hcc
    obtain ⟨hpd, hp0⟩ := updateProgress_percentage_double tz now timerId startDate dec T
      (.fin r) p hp
    rw [e5, g1, hp, hcirc]
    exact offsets_agree_iff c' p hidem' hlo hhi hpd hp0
  · intro hr1 p hp hp200
    obtain ⟨-, hp0⟩ := updateProgress_percentage_double tz now timerId startDate dec T
      (.fin r) p hp
    obtain ⟨o, o', ho, ho', hsum⟩ := offsets_sum_near c p (hsmall hr1)
      (by rw [abs_of_nonneg hp0]; exact hp200)
    refine ⟨c, o, o', hcirc, ?_, ?_, hsum⟩
    · rw [g1, hp, hcirc]
      exact ho
    · rw [e5, hp, hcirc]
      exact ho'

/-- Witness for C22 in UTC, with radius 160: before the start of an activity of
one working day the remaining percentage is 100, so the exported
`updateProgress` sets the offset 0, the earlier declaration sets the whole
circumference, and the two differ. -/
theorem updateProgress_dash_offset_witness :
    (updateProgress 0 1672531200000 2 (some 1672617600000)
        ((JsNum.fin 100).div (.ofInt 1)) 1 (.fin 160)).dashOffset = .fin 0 ∧
      (updateProgressEarlier 0 1672531200000 2 (some 1672617600000)
        ((JsNum.fin 100).div (.ofInt 1)) 1 (.fin 160)).dashOffset =
      (updateProgress 0 1672531200000 2 (some 1672617600000)
        ((JsNum.fin 100).div (.ofInt 1)) 1 (.fin 160)).circumference ∧
      (updateProgressEarlier 0 1672531200000 2 (some 1672617600000)
        ((JsNum.fin 100).div (.ofInt 1)) 1 (.fin 160)).dashOffset ≠
      (updateProgress 0 1672531200000 2 (some 1672617600000)
        ((JsNum.fin 100).div (.ofInt 1)) 1 (.fin 160)).dashOffset :=
  ⟨(updateProgress_dash_offset 0 1672531200000 2 (some 1672617600000)
      ((JsNum.fin 100).div (.ofInt 1)) 1 160
      (le_trans (by decide! : |(160 : ℚ)| ≤ twoPow 8)
        (twoPow_le 8 1019 (by decide)))).2.2.2.2.1 (by decide!),
    (updateProgress_dash_offset 0 1672531200000 2 (some 1672617600000)
      ((JsNum.fin 100).div (.ofInt 1)) 1 160
      (le_trans (by decide! : |(160 : ℚ)| ≤ twoPow 8)
        (twoPow_le 8 1019 (by decide)))).2.2.2.2.2.2.2.2.2.1 (by decide!),
    fun heq =>
      absurd
        (((updateProgress_dash_offset 0 1672531200000 2 (some 1672617600000)
          ((JsNum.fin 100).div (.ofInt 1)) 1 160
          (le_trans (by decide! : |(160 : ℚ)| ≤ twoPow 8)
            (twoPow_le 8 1019 (by decide)))).2.2.2.2.2.2.2.2.2.2.2.1
          (le_trans (twoPow_le (-1000) 0 (by decide)) (by decide! : twoPow 0 ≤ (160 : ℚ)))
          (le_trans (by decide! : (160 : ℚ) ≤ twoPow 8) (twoPow_le 8 1000 (by decide)))
          100 (by decide!)).mp heq)
        (by norm_num)⟩

end ArtTimer
